import Mathlib

/-!
Wavefront OBJ loader (`ShooterGame/Wavefront.cpp`): embedding and properties.

Conventions of the embedding.

* `GLfloat` values are exact rationals: the loader only copies them, except in
  `ComputeTangents`, whose arithmetic is read in exact arithmetic (no rounding,
  no NaN; a division by zero yields 0).
* `int` values are integers; the one place where the source mixes `size_t` and
  `int` (negative index resolution) truncates explicitly to 32 bits. Counters
  and sizes (`index`, `mNumVertices`, ...) are natural numbers: they stay below
  `2^31` for any file that fits in memory.
* `std::vector<T>` is `List T`; an out-of-bounds `operator[]` (undefined
  behaviour in the source) makes the embedded function return `none`.
* `std::map<int, T>` is its lookup function `Int → Option T`.
* `std::string` is `List Char`; a line of the file is the list of its tokens
  (the result of `glsh::Tokenize`). The helpers of `glsh` and `glm` that the
  loader calls are parameters (`Library`).
* Console output is not modelled, nor are the variables that only feed it
  (`lineno`, `numFaces`, the bounding box, the buffer sizes).
* OpenGL calls are reduced to the object names they hand out (`GLNames`).
-/

namespace Wavefront

/-! ## Data model -/

/-- The scalar type of vertex attributes (`GLfloat`), in exact arithmetic. -/
abbrev GLfloat := ℚ

/-- Three-component vector (`glm::vec3`). -/
structure Vec3 where
  x : GLfloat
  y : GLfloat
  z : GLfloat
deriving DecidableEq, Repr

/-- Four-component vector (`glm::vec4`). -/
structure Vec4 where
  x : GLfloat
  y : GLfloat
  z : GLfloat
  w : GLfloat
deriving DecidableEq, Repr

/-- Texture coordinate (`glm::vec2`, components `s` and `t`). -/
structure TexCoord where
  s : GLfloat
  t : GLfloat
deriving DecidableEq, Repr

/-- OBJ vertex format flag `OBJ_VFF_POSITION`. -/
def OBJ_VFF_POSITION : Nat := 1
/-- OBJ vertex format flag `OBJ_VFF_NORMAL`. -/
def OBJ_VFF_NORMAL : Nat := 2
/-- OBJ vertex format flag `OBJ_VFF_TEXCOORD`. -/
def OBJ_VFF_TEXCOORD : Nat := 4

/-- One face corner (`struct OBJVertex`): 1-based indices, `-1` when not given. -/
structure OBJVertex where
  v : Int
  vn : Int
  vt : Int
deriving DecidableEq, Repr

/-- The default constructor `OBJVertex::OBJVertex()`. -/
def OBJVertex.default : OBJVertex := { v := -1, vn := -1, vt := -1 }

/-- A raw triangle (`struct OBJTriangle`, `verts[0..2]`). -/
structure OBJTriangle where
  v0 : OBJVertex
  v1 : OBJVertex
  v2 : OBJVertex
deriving DecidableEq, Repr

/-- The array access `tri.verts[j]`. -/
def OBJTriangle.verts (t : OBJTriangle) (j : Fin 3) : OBJVertex :=
  match j with
  | 0 => t.v0
  | 1 => t.v1
  | 2 => t.v2

/-- The corners of a raw triangle in the order 0, 1, 2. -/
def OBJTriangle.corners (t : OBJTriangle) : List OBJVertex := [t.v0, t.v1, t.v2]

/-- A triangle of dense indices (`struct IndexTriangle`, `index[0..2]`). -/
structure IndexTriangle where
  i0 : Nat
  i1 : Nat
  i2 : Nat
deriving DecidableEq, Repr

/-- The array access `tri.index[j]`. -/
def IndexTriangle.index (t : IndexTriangle) (j : Fin 3) : Nat :=
  match j with
  | 0 => t.i0
  | 1 => t.i1
  | 2 => t.i2

/-- The dense indices of a triangle in the order 0, 1, 2. -/
def IndexTriangle.indices (t : IndexTriangle) : List Nat := [t.i0, t.i1, t.i2]

/-- The read `xs[i]` of a `std::vector` with an `int` index expression:
`none` when the access is out of bounds. -/
def vecAt {α : Type} (xs : List α) (i : Int) : Option α :=
  if 0 ≤ i then xs[i.toNat]? else none

/-! ## `std::map<int, T>` -/

/-- A `std::map<int, V>`, as its lookup function. -/
abbrev IntMap (V : Type) := Int → Option V

/-- The empty map. -/
def IntMap.empty {V : Type} : IntMap V := fun _ => none

/-- Overwrite the entry at `k`. -/
def IntMap.set {V : Type} (m : IntMap V) (k : Int) (x : V) : IntMap V :=
  fun a => if a = k then some x else m a

/-- The nested map referenced by `m[k]`: default-constructed (empty) when `k` is new. -/
def IntMap.sub {V : Type} (m : IntMap (IntMap V)) (k : Int) : IntMap V :=
  (m k).getD IntMap.empty

/-- The call `m.insert(std::make_pair(k, x))`: an existing entry is kept. The
result is the map, the value stored at `k` afterwards (`first->second`) and
whether the pair was inserted (`second`). -/
def IntMap.insert (m : IntMap Nat) (k : Int) (x : Nat) : IntMap Nat × Nat × Bool :=
  match m k with
  | some e => (m, e, false)
  | none => (m.set k x, x, true)

/-! ## `OBJMesh::Reindex`, the four overloads -/

/-- Loop state of `Reindex(positions, faces, newFaces)`. -/
structure ReindexP where
  newPositions : List Vec3
  indexTable : IntMap Nat
  index : Nat

/-- Body of the inner loop of `Reindex(positions, faces, newFaces)` for one
corner; returns the new state and the value written to `newFaces[i].index[j]`. -/
def ReindexP.corner (positions : List Vec3) (s : ReindexP) (c : OBJVertex) :
    Option (ReindexP × Nat) :=
  let v := c.v
  let r := s.indexTable.insert v s.index
  if r.2.2 then
    (vecAt positions (v - 1)).map fun p =>
      ({ newPositions := s.newPositions ++ [p], indexTable := r.1, index := s.index + 1 },
        s.index)
  else
    some ({ s with indexTable := r.1 }, r.2.1)

/-- Loop state of `Reindex(positions, normals, faces, newFaces)`. -/
structure ReindexPN where
  newPositions : List Vec3
  newNormals : List Vec3
  indexTable : IntMap (IntMap Nat)
  index : Nat

/-- Body of the inner loop of `Reindex(positions, normals, faces, newFaces)`. -/
def ReindexPN.corner (positions normals : List Vec3) (s : ReindexPN) (c : OBJVertex) :
    Option (ReindexPN × Nat) :=
  let v := c.v
  let vn := c.vn
  let r := (s.indexTable.sub v).insert vn s.index
  let tbl := s.indexTable.set v r.1
  if r.2.2 then
    (vecAt positions (v - 1)).bind fun p =>
    (vecAt normals (vn - 1)).map fun n =>
      ({ newPositions := s.newPositions ++ [p], newNormals := s.newNormals ++ [n],
         indexTable := tbl, index := s.index + 1 }, s.index)
  else
    some ({ s with indexTable := tbl }, r.2.1)

/-- Loop state of `Reindex(positions, texcoords, faces, newFaces)`. -/
structure ReindexPT where
  newPositions : List Vec3
  newTexcoords : List TexCoord
  indexTable : IntMap (IntMap Nat)
  index : Nat

/-- Body of the inner loop of `Reindex(positions, texcoords, faces, newFaces)`. -/
def ReindexPT.corner (positions : List Vec3) (texcoords : List TexCoord) (s : ReindexPT)
    (c : OBJVertex) : Option (ReindexPT × Nat) :=
  let v := c.v
  let vt := c.vt
  let r := (s.indexTable.sub v).insert vt s.index
  let tbl := s.indexTable.set v r.1
  if r.2.2 then
    (vecAt positions (v - 1)).bind fun p =>
    (vecAt texcoords (vt - 1)).map fun t =>
      ({ newPositions := s.newPositions ++ [p], newTexcoords := s.newTexcoords ++ [t],
         indexTable := tbl, index := s.index + 1 }, s.index)
  else
    some ({ s with indexTable := tbl }, r.2.1)

/-- Loop state of `Reindex(positions, normals, texcoords, faces, newFaces)`. -/
structure ReindexPNT where
  newPositions : List Vec3
  newNormals : List Vec3
  newTexcoords : List TexCoord
  indexTable : IntMap (IntMap (IntMap Nat))
  index : Nat

/-- Body of the inner loop of `Reindex(positions, normals, texcoords, faces, newFaces)`. -/
def ReindexPNT.corner (positions normals : List Vec3) (texcoords : List TexCoord)
    (s : ReindexPNT) (c : OBJVertex) : Option (ReindexPNT × Nat) :=
  let v := c.v
  let vn := c.vn
  let vt := c.vt
  let inner := s.indexTable.sub v
  let r := (inner.sub vn).insert vt s.index
  let tbl := s.indexTable.set v (inner.set vn r.1)
  if r.2.2 then
    (vecAt positions (v - 1)).bind fun p =>
    (vecAt normals (vn - 1)).bind fun n =>
    (vecAt texcoords (vt - 1)).map fun t =>
      ({ newPositions := s.newPositions ++ [p], newNormals := s.newNormals ++ [n],
         newTexcoords := s.newTexcoords ++ [t], indexTable := tbl, index := s.index + 1 },
        s.index)
  else
    some ({ s with indexTable := tbl }, r.2.1)

/-- The two nested loops shared in shape by the four overloads: for each face,
for `j = 0, 1, 2`, run the corner body and store its index in `newFaces[i].index[j]`. -/
def reindexLoop {σ : Type} (corner : σ → OBJVertex → Option (σ × Nat)) :
    σ → List OBJTriangle → Option (σ × List IndexTriangle)
  | s, [] => some (s, [])
  | s, f :: fs =>
    (corner s (f.verts 0)).bind fun r0 =>
    (corner r0.1 (f.verts 1)).bind fun r1 =>
    (corner r1.1 (f.verts 2)).bind fun r2 =>
    (reindexLoop corner r2.1 fs).map fun r =>
      (r.1, { i0 := r0.2, i1 := r1.2, i2 := r2.2 } :: r.2)

/-- Function `OBJMesh::Reindex(positions, faces, newFaces)`: the new `positions` and `newFaces`. -/
def Reindex1 (positions : List Vec3) (faces : List OBJTriangle) :
    Option (List Vec3 × List IndexTriangle) :=
  (reindexLoop (ReindexP.corner positions)
      { newPositions := [], indexTable := IntMap.empty, index := 0 } faces).map
    fun r => (r.1.newPositions, r.2)

/-- Function `OBJMesh::Reindex(positions, normals, faces, newFaces)`: the new `positions`,
`normals` and `newFaces`. -/
def Reindex2N (positions normals : List Vec3) (faces : List OBJTriangle) :
    Option (List Vec3 × List Vec3 × List IndexTriangle) :=
  (reindexLoop (ReindexPN.corner positions normals)
      { newPositions := [], newNormals := [], indexTable := IntMap.empty, index := 0 }
      faces).map
    fun r => (r.1.newPositions, r.1.newNormals, r.2)

/-- Function `OBJMesh::Reindex(positions, texcoords, faces, newFaces)`: the new `positions`,
`texcoords` and `newFaces`. -/
def Reindex2T (positions : List Vec3) (texcoords : List TexCoord) (faces : List OBJTriangle) :
    Option (List Vec3 × List TexCoord × List IndexTriangle) :=
  (reindexLoop (ReindexPT.corner positions texcoords)
      { newPositions := [], newTexcoords := [], indexTable := IntMap.empty, index := 0 }
      faces).map
    fun r => (r.1.newPositions, r.1.newTexcoords, r.2)

/-- Function `OBJMesh::Reindex(positions, normals, texcoords, faces, newFaces)`: the new
`positions`, `normals`, `texcoords` and `newFaces`. -/
def Reindex3 (positions normals : List Vec3) (texcoords : List TexCoord)
    (faces : List OBJTriangle) :
    Option (List Vec3 × List Vec3 × List TexCoord × List IndexTriangle) :=
  (reindexLoop (ReindexPNT.corner positions normals texcoords)
      { newPositions := [], newNormals := [], newTexcoords := [],
        indexTable := IntMap.empty, index := 0 } faces).map
    fun r => (r.1.newPositions, r.1.newNormals, r.1.newTexcoords, r.2)

/-- The dispatch on `haveNormals` / `haveTexCoords` in `OBJMesh::load` that picks
the `Reindex` overload; arrays that are not passed to the overload stay as they are.
The result is the new `positions`, `normals`, `texcoords` and `newFaces`. -/
def reindexDispatch (haveNormals haveTexCoords : Bool) (positions normals : List Vec3)
    (texcoords : List TexCoord) (faces : List OBJTriangle) :
    Option (List Vec3 × List Vec3 × List TexCoord × List IndexTriangle) :=
  if haveNormals && haveTexCoords then
    Reindex3 positions normals texcoords faces
  else if haveNormals && !haveTexCoords then
    (Reindex2N positions normals faces).map fun r => (r.1, r.2.1, texcoords, r.2.2)
  else if !haveNormals && haveTexCoords then
    (Reindex2T positions texcoords faces).map fun r => (r.1, normals, r.2.1, r.2.2)
  else
    (Reindex1 positions faces).map fun r => (r.1, normals, texcoords, r.2)

/-! ## The reindexer as the specification words it

One algorithm over a key with optional fields: a map from `DedupKey` to dense
index and a counter starting at 0. -/

/-- The identity of an output vertex: position index, and the normal and
texcoord indices when those attributes are active. -/
structure DedupKey where
  v : Int
  vn : Option Int
  vt : Option Int
deriving DecidableEq, Repr

/-- The key of a face corner, given which attributes are active. -/
def dedupKey (haveNormals haveTexCoords : Bool) (c : OBJVertex) : DedupKey :=
  { v := c.v
    vn := if haveNormals then some c.vn else none
    vt := if haveTexCoords then some c.vt else none }

/-- The attribute values a key refers to, read from the raw arrays at the
1-based index minus one; an inactive attribute reads as zero. `none` when an
index is out of range. -/
def fetchAttrs (positions normals : List Vec3) (texcoords : List TexCoord) (k : DedupKey) :
    Option (Vec3 × Vec3 × TexCoord) :=
  (vecAt positions (k.v - 1)).bind fun p =>
  (match k.vn with
    | some vn => vecAt normals (vn - 1)
    | none => some ⟨0, 0, 0⟩).bind fun n =>
  (match k.vt with
    | some vt => vecAt texcoords (vt - 1)
    | none => some ⟨0, 0⟩).map fun t => (p, n, t)

/-- State of the generic reindexer: the key table, the running counter and the
dense output vertices. -/
structure Dedup (K A : Type) where
  table : K → Option Nat
  counter : Nat
  out : List A

/-- One corner of the generic reindexer: reuse the dense index of a known key,
otherwise assign the counter, append the fetched attributes and store the mapping. -/
def Dedup.corner {K A : Type} [DecidableEq K] (key : OBJVertex → K) (fetch : K → Option A)
    (s : Dedup K A) (c : OBJVertex) : Option (Dedup K A × Nat) :=
  match s.table (key c) with
  | some e => some (s, e)
  | none =>
    (fetch (key c)).map fun a =>
      ({ table := fun k => if k = key c then some s.counter else s.table k
         counter := s.counter + 1
         out := s.out ++ [a] }, s.counter)

/-- The generic reindexer: dense output vertices and triangles of dense indices. -/
def reindexGeneric {K A : Type} [DecidableEq K] (key : OBJVertex → K) (fetch : K → Option A)
    (faces : List OBJTriangle) : Option (List A × List IndexTriangle) :=
  (reindexLoop (Dedup.corner key fetch) { table := fun _ => none, counter := 0, out := [] }
      faces).map fun r => (r.1.out, r.2)

/-- All corners of a triangle list in traversal order: triangle by triangle,
corner 0, 1, 2 within each. -/
def allCorners (faces : List OBJTriangle) : List OBJVertex :=
  faces.flatMap OBJTriangle.corners

/-- Record the key `k` in the list `seen` of distinct keys: appended when new. -/
def addKey {K : Type} [DecidableEq K] (seen : List K) (k : K) : List K :=
  if k ∈ seen then seen else seen ++ [k]

/-- Extend the list `seen` of distinct keys by the keys of `ks` not yet in it,
in the order in which they first occur. -/
def distinctFrom {K : Type} [DecidableEq K] : List K → List K → List K
  | seen, [] => seen
  | seen, k :: ks => distinctFrom (addKey seen k) ks

/-- The distinct elements of a list in order of first occurrence. -/
def distinctInOrder {K : Type} [DecidableEq K] (ks : List K) : List K :=
  distinctFrom [] ks

/-- The distinct keys referenced by the faces, in order of first occurrence in
the triangle/corner traversal. -/
def faceKeys (haveNormals haveTexCoords : Bool) (faces : List OBJTriangle) : List DedupKey :=
  distinctInOrder ((allCorners faces).map (dedupKey haveNormals haveTexCoords))

/-- Every index that `Reindex` reads lies within `1..count` of its raw array. -/
def IndicesInRange (haveNormals haveTexCoords : Bool) (positions normals : List Vec3)
    (texcoords : List TexCoord) (faces : List OBJTriangle) : Prop :=
  ∀ f ∈ faces, ∀ c ∈ f.corners,
    (1 ≤ c.v ∧ c.v ≤ positions.length) ∧
    (haveNormals = true → 1 ≤ c.vn ∧ c.vn ≤ normals.length) ∧
    (haveTexCoords = true → 1 ≤ c.vt ∧ c.vt ≤ texcoords.length)

/-- The triangle of dense indices of a raw triangle, each corner getting the
position of its key in the list `ks` of distinct keys. -/
def denseTriangle {K : Type} [DecidableEq K] (key : OBJVertex → K) (ks : List K)
    (f : OBJTriangle) : IndexTriangle :=
  { i0 := ks.indexOf (key f.v0), i1 := ks.indexOf (key f.v1), i2 := ks.indexOf (key f.v2) }

/-- Invariant of the generic reindexer after the distinct keys `seen` have been
met: the counter is their number, the table maps each to its position in
`seen`, and the output holds their attributes in the same order. -/
def DedupInv {K A : Type} [DecidableEq K] (fetch : K → Option A) (s : Dedup K A)
    (seen : List K) : Prop :=
  s.counter = seen.length ∧
  (∀ k, s.table k = if k ∈ seen then some (seen.indexOf k) else none) ∧
  s.out.map some = seen.map fetch

/-- Simulation relation between `Reindex(positions, faces, newFaces)` and the
generic reindexer keyed on the position index alone. -/
def SimP (s : ReindexP) (g : Dedup DedupKey (Vec3 × Vec3 × TexCoord)) : Prop :=
  g.counter = s.index ∧
  (∀ v, g.table { v := v, vn := none, vt := none } = s.indexTable v) ∧
  g.out.map (fun a => a.1) = s.newPositions

/-- Simulation relation between `Reindex(positions, normals, faces, newFaces)`
and the generic reindexer keyed on position and normal index. -/
def SimPN (s : ReindexPN) (g : Dedup DedupKey (Vec3 × Vec3 × TexCoord)) : Prop :=
  g.counter = s.index ∧
  (∀ v vn, g.table { v := v, vn := some vn, vt := none } = (s.indexTable.sub v) vn) ∧
  g.out.map (fun a => a.1) = s.newPositions ∧
  g.out.map (fun a => a.2.1) = s.newNormals

/-- Simulation relation between `Reindex(positions, texcoords, faces, newFaces)`
and the generic reindexer keyed on position and texcoord index. -/
def SimPT (s : ReindexPT) (g : Dedup DedupKey (Vec3 × Vec3 × TexCoord)) : Prop :=
  g.counter = s.index ∧
  (∀ v vt, g.table { v := v, vn := none, vt := some vt } = (s.indexTable.sub v) vt) ∧
  g.out.map (fun a => a.1) = s.newPositions ∧
  g.out.map (fun a => a.2.2) = s.newTexcoords

/-- Simulation relation between `Reindex(positions, normals, texcoords, faces,
newFaces)` and the generic reindexer keyed on all three indices. -/
def SimPNT (s : ReindexPNT) (g : Dedup DedupKey (Vec3 × Vec3 × TexCoord)) : Prop :=
  g.counter = s.index ∧
  (∀ v vn vt, g.table { v := v, vn := some vn, vt := some vt }
      = ((s.indexTable.sub v).sub vn) vt) ∧
  g.out.map (fun a => a.1) = s.newPositions ∧
  g.out.map (fun a => a.2.1) = s.newNormals ∧
  g.out.map (fun a => a.2.2) = s.newTexcoords

instance (haveNormals haveTexCoords : Bool) (positions normals : List Vec3)
    (texcoords : List TexCoord) (faces : List OBJTriangle) :
    Decidable (IndicesInRange haveNormals haveTexCoords positions normals texcoords faces) := by
  unfold IndicesInRange
  infer_instance

/-! ## Face-vertex tokens, formats and triangulation -/

/-- The helpers of the external libraries (`glsh`, `glm`) that the loader calls. -/
structure Library where
  /-- Helper `glsh::FromString<int>`. -/
  fromStringInt : List Char → Int
  /-- Helper `glsh::FromString<GLfloat>`. -/
  fromStringFloat : List Char → GLfloat
  /-- Helper `glm::normalize` on `vec3`. -/
  normalize : Vec3 → Vec3

/-- Function `str.find_first_of(c, pos)`: the first index at or after `pos` holding `c`,
`none` for `std::string::npos`. -/
def findFirstOf (str : List Char) (c : Char) (pos : Nat) : Option Nat :=
  let rest := str.drop pos
  if rest.indexOf c < rest.length then some (pos + rest.indexOf c) else none

/-- Function `str.substr(pos, len)`. -/
def substr (str : List Char) (pos len : Nat) : List Char :=
  (str.drop pos).take len

/-- The constructor `OBJVertex::OBJVertex(const std::string& str)`. -/
def OBJVertex.ofString (lib : Library) (str : List Char) : OBJVertex :=
  match findFirstOf str '/' 0 with
  | some p =>
    let v : Int := if p > 0 then lib.fromStringInt (substr str 0 p) else -1
    match findFirstOf str '/' (p + 1) with
    | some q =>
      -- have two slashes (v/vt/vn)
      let vt : Int :=
        if q > p + 1 then lib.fromStringInt (substr str (p + 1) (q - p - 1)) else -1
      let vn : Int :=
        if q < str.length - 1 then lib.fromStringInt (substr str (q + 1) (str.length - q - 1))
        else -1
      { v := v, vn := vn, vt := vt }
    | none =>
      -- have one slash (v/vt)
      let vt : Int :=
        if p < str.length - 1 then lib.fromStringInt (substr str (p + 1) (str.length - p - 1))
        else -1
      { v := v, vn := -1, vt := vt }
  | none =>
    -- no slash found, have a single token only
    { v := lib.fromStringInt str, vn := -1, vt := -1 }

/-- Function `OBJVertex::getFormat`: the flags of the indices that are `> 0`. -/
def OBJVertex.getFormat (c : OBJVertex) : Nat :=
  let fmt := 0
  let fmt := if c.v > 0 then fmt ||| OBJ_VFF_POSITION else fmt
  let fmt := if c.vn > 0 then fmt ||| OBJ_VFF_NORMAL else fmt
  let fmt := if c.vt > 0 then fmt ||| OBJ_VFF_TEXCOORD else fmt
  fmt

/-- Conversion of an integer value to a 32-bit `int` (two's complement). -/
def toInt32 (x : Int) : Int := (x + 2 ^ 31) % 2 ^ 32 - 2 ^ 31

/-- The statement `if (idx < 0) idx = count + idx + 1;` of `load`, where `count`
is the `size()` of the corresponding array and the sum is stored in an `int`. -/
def resolveIndex (count : Nat) (idx : Int) : Int :=
  if idx < 0 then toInt32 (count + idx + 1) else idx

/-- The read `v[i]` of a face vertex inside `Tesselate`, whose loop keeps `i` in bounds. -/
def vertAt (v : List OBJVertex) (i : Nat) : OBJVertex := v.getD i OBJVertex.default

/-- Function `Tesselate`: `tris` is resized to `v.size() - 2` default triangles and slot
`i - 2` is assigned `(v[0], v[i-1], v[i])` for `i = 2, ..., v.size() - 1`. -/
def Tesselate (v : List OBJVertex) : List OBJTriangle :=
  if v.length < 3 then []
  else
    (List.range' 2 (v.length - 2)).foldl
      (fun tris i => tris.set (i - 2) { v0 := vertAt v 0, v1 := vertAt v (i - 1), v2 := vertAt v i })
      (List.replicate (v.length - 2)
        { v0 := OBJVertex.default, v1 := OBJVertex.default, v2 := OBJVertex.default })

/-! ## The parse loop of `OBJMesh::load` -/

/-- The ways in which `load` reports failure, one per error message. -/
inductive LoadError where
  /-- Message "Failed to open". -/
  | openFailed
  /-- Message "Failed to read from". -/
  | readFailed
  /-- Message "Incorrect number of vertex position components". -/
  | positionComponents
  /-- Message "Incorrect number of vertex normal components". -/
  | normalComponents
  /-- Message "Incorrect number of texture coordinates". -/
  | texcoordComponents
  /-- Message "Incorrect number of face elements". -/
  | faceElements
  /-- Message "Invalid vertex format!". -/
  | invalidFormat
  /-- Message "Inconsistent vertex format!". -/
  | inconsistentFormat
  /-- Message "Failed to create VAO". -/
  | vaoFailed
deriving DecidableEq, Repr

/-- The local variables of `load` that the parse loop updates. -/
structure ParseState where
  positions : List Vec3
  normals : List Vec3
  texcoords : List TexCoord
  faces : List OBJTriangle
  vertexFormat : Nat
deriving DecidableEq, Repr

/-- The locals of `load` before the first line is read. -/
def ParseState.init : ParseState :=
  { positions := [], normals := [], texcoords := [], faces := [], vertexFormat := 0 }

/-- The token `tokens[i]` of a line, read after the size check of its branch. -/
def tokenAt (tokens : List (List Char)) (i : Nat) : List Char := tokens.getD i []

/-- The vertices of an `f` line: each token after the first is parsed and its
negative indices are resolved against the current array sizes. -/
def faceVerts (lib : Library) (s : ParseState) (tokens : List (List Char)) : List OBJVertex :=
  (tokens.drop 1).map fun tok =>
    let c := OBJVertex.ofString lib tok
    { v := resolveIndex s.positions.length c.v
      vn := resolveIndex s.normals.length c.vn
      vt := resolveIndex s.texcoords.length c.vt }

/-- The format in force while a face is checked: fixed by the first vertex of
the very first face, kept afterwards. -/
def establishedFormat (s : ParseState) (verts : List OBJVertex) : Nat :=
  if s.vertexFormat = 0 then (vertAt verts 0).getFormat else s.vertexFormat

/-- The branch of the parse loop for an `f` line. -/
def parseFace (lib : Library) (s : ParseState) (tokens : List (List Char)) :
    Except LoadError ParseState :=
  -- need at least 3 vertices per face
  if tokens.length < 4 then .error .faceElements
  else
    let verts := faceVerts lib s tokens
    -- format checking: the very first face fixes the format
    let vertexFormat := establishedFormat s verts
    -- make sure at least position is included
    if s.vertexFormat = 0 ∧ vertexFormat &&& OBJ_VFF_POSITION ≠ OBJ_VFF_POSITION then
      .error .invalidFormat
    -- make sure all vertices have the same format as the very first one
    else if verts.any (fun c => c.getFormat != vertexFormat) then
      .error .inconsistentFormat
    else
      -- triangulate this face
      .ok { s with faces := s.faces ++ Tesselate verts, vertexFormat := vertexFormat }

/-- The body of the parse loop for one line, given as its tokens. -/
def parseLine (lib : Library) (s : ParseState) (tokens : List (List Char)) :
    Except LoadError ParseState :=
  -- make sure it's not an empty line
  if tokens.length > 0 then
    -- check if it's a comment
    if (tokenAt tokens 0).head? = some '#' then
      .ok s
    else if tokenAt tokens 0 = ['v'] then
      if tokens.length < 4 then .error .positionComponents
      else
        let x := lib.fromStringFloat (tokenAt tokens 1)
        let y := lib.fromStringFloat (tokenAt tokens 2)
        let z := lib.fromStringFloat (tokenAt tokens 3)
        .ok { s with positions := s.positions ++ [⟨x, y, z⟩] }
    else if tokenAt tokens 0 = ['v', 'n'] then
      if tokens.length < 4 then .error .normalComponents
      else
        let nx := lib.fromStringFloat (tokenAt tokens 1)
        let ny := lib.fromStringFloat (tokenAt tokens 2)
        let nz := lib.fromStringFloat (tokenAt tokens 3)
        .ok { s with normals := s.normals ++ [⟨nx, ny, nz⟩] }
    else if tokenAt tokens 0 = ['v', 't'] then
      if tokens.length < 3 then .error .texcoordComponents
      else
        let u := lib.fromStringFloat (tokenAt tokens 1)
        let v := lib.fromStringFloat (tokenAt tokens 2)
        .ok { s with texcoords := s.texcoords ++ [⟨u, v⟩] }
    else if tokenAt tokens 0 = ['f'] then
      parseFace lib s tokens
    else
      .ok s
  else
    .ok s

/-- The parse loop over the lines of the file, stopping at the first error. -/
def parseLines (lib : Library) : ParseState → List (List (List Char)) → Except LoadError ParseState
  | s, [] => .ok s
  | s, line :: rest =>
    match parseLine lib s line with
    | .ok s' => parseLines lib s' rest
    | .error e => .error e

/-! ## `OBJMesh::ComputeTangents` -/

/-- Vector sum (`glm` operator `+`). -/
def Vec3.add (a b : Vec3) : Vec3 := ⟨a.x + b.x, a.y + b.y, a.z + b.z⟩

/-- Vector difference (`glm` operator `-`). -/
def Vec3.sub (a b : Vec3) : Vec3 := ⟨a.x - b.x, a.y - b.y, a.z - b.z⟩

/-- Vector times scalar (`glm` operator `*`). -/
def Vec3.scale (a : Vec3) (k : GLfloat) : Vec3 := ⟨a.x * k, a.y * k, a.z * k⟩

/-- Dot product (`glm::dot`). -/
def Vec3.dot (a b : Vec3) : GLfloat := a.x * b.x + a.y * b.y + a.z * b.z

/-- Cross product (`glm::cross`). -/
def Vec3.cross (a b : Vec3) : Vec3 :=
  ⟨a.y * b.z - b.y * a.z, a.z * b.x - b.z * a.x, a.x * b.y - b.x * a.y⟩

/-- The compound assignment `acc[i] += d`; `none` when `i` is out of bounds. -/
def addAt (acc : List Vec3) (i : Nat) (d : Vec3) : Option (List Vec3) :=
  acc[i]?.map fun x => acc.set i (x.add d)

/-- The direction `sdir` of a triangle with corner positions `v1 v2 v3` and
texture coordinates `w1 w2 w3`. When `s1 * t2 - s2 * t1` is 0 the source divides
by zero and goes on with `inf` / `NaN`; the value here is then a convention of
exact arithmetic, and statements about the directions assume a determinant
that is not 0. -/
def triangleSdir (v1 v2 v3 : Vec3) (w1 w2 w3 : TexCoord) : Vec3 :=
  let x1 := v2.x - v1.x
  let x2 := v3.x - v1.x
  let y1 := v2.y - v1.y
  let y2 := v3.y - v1.y
  let z1 := v2.z - v1.z
  let z2 := v3.z - v1.z
  let s1 := w2.s - w1.s
  let s2 := w3.s - w1.s
  let t1 := w2.t - w1.t
  let t2 := w3.t - w1.t
  let r := 1 / (s1 * t2 - s2 * t1)
  ⟨(t2 * x1 - t1 * x2) * r, (t2 * y1 - t1 * y2) * r, (t2 * z1 - t1 * z2) * r⟩

/-- The direction `tdir` of a triangle with corner positions `v1 v2 v3` and
texture coordinates `w1 w2 w3`; the same division as in `triangleSdir`, with the
same convention at a determinant of 0. -/
def triangleTdir (v1 v2 v3 : Vec3) (w1 w2 w3 : TexCoord) : Vec3 :=
  let x1 := v2.x - v1.x
  let x2 := v3.x - v1.x
  let y1 := v2.y - v1.y
  let y2 := v3.y - v1.y
  let z1 := v2.z - v1.z
  let z2 := v3.z - v1.z
  let s1 := w2.s - w1.s
  let s2 := w3.s - w1.s
  let t1 := w2.t - w1.t
  let t2 := w3.t - w1.t
  let r := 1 / (s1 * t2 - s2 * t1)
  ⟨(s1 * x2 - s2 * x1) * r, (s1 * y2 - s2 * y1) * r, (s1 * z2 - s2 * z1) * r⟩

/-- Body of the first loop of `ComputeTangents` for one triangle: the updated
accumulators `(tan1, tan2)`. -/
def accumulateTriangle (positions : List Vec3) (texcoords : List TexCoord)
    (acc : List Vec3 × List Vec3) (tri : IndexTriangle) : Option (List Vec3 × List Vec3) :=
  let i1 := tri.index 0
  let i2 := tri.index 1
  let i3 := tri.index 2
  positions[i1]?.bind fun v1 =>
  positions[i2]?.bind fun v2 =>
  positions[i3]?.bind fun v3 =>
  texcoords[i1]?.bind fun w1 =>
  texcoords[i2]?.bind fun w2 =>
  texcoords[i3]?.bind fun w3 =>
    let sdir := triangleSdir v1 v2 v3 w1 w2 w3
    let tdir := triangleTdir v1 v2 v3 w1 w2 w3
    (addAt acc.1 i1 sdir).bind fun a =>
    (addAt a i2 sdir).bind fun a =>
    (addAt a i3 sdir).bind fun tan1 =>
    (addAt acc.2 i1 tdir).bind fun b =>
    (addAt b i2 tdir).bind fun b =>
    (addAt b i3 tdir).map fun tan2 => (tan1, tan2)

/-- The first loop of `ComputeTangents`, over all triangles. -/
def accumulateTangents (positions : List Vec3) (texcoords : List TexCoord) :
    List Vec3 × List Vec3 → List IndexTriangle → Option (List Vec3 × List Vec3)
  | acc, [] => some acc
  | acc, tri :: rest =>
    (accumulateTriangle positions texcoords acc tri).bind fun acc' =>
      accumulateTangents positions texcoords acc' rest

/-- Body of the second loop of `ComputeTangents` for one vertex with normal `n`
and accumulators `t = tan1[a]`, `b = tan2[a]`. -/
def vertexTangent (lib : Library) (n t b : Vec3) : Vec4 :=
  -- Gram-Schmidt orthogonalize
  let result := lib.normalize (t.sub (n.scale (n.dot t)))
  -- Calculate handedness
  let w : GLfloat := if (n.cross t).dot b < 0 then 1 else -1
  ⟨result.x, result.y, result.z, w⟩

/-- All the values of a list of reads, `none` as soon as one read is out of bounds. -/
def allReads {α : Type} : List (Option α) → Option (List α)
  | [] => some []
  | x :: xs => x.bind fun a => (allReads xs).map fun r => a :: r

/-- A loop `for (a = 0; a < n; a++) out[a] = body(a)` whose body reads arrays. -/
def forEachIndex {α : Type} (n : Nat) (body : Nat → Option α) : Option (List α) :=
  allReads ((List.range n).map body)

/-- Function `OBJMesh::ComputeTangents`: the `tangents` array; `none` when an array read
is out of bounds. -/
def ComputeTangents (lib : Library) (positions normals : List Vec3) (texcoords : List TexCoord)
    (triangles : List IndexTriangle) : Option (List Vec4) :=
  let numVertices := positions.length
  let zero : List Vec3 := List.replicate numVertices ⟨0, 0, 0⟩
  (accumulateTangents positions texcoords (zero, zero) triangles).bind fun acc =>
    forEachIndex numVertices fun a =>
      normals[a]?.bind fun n =>
      acc.1[a]?.bind fun t =>
      acc.2[a]?.map fun b => vertexTangent lib n t b

/-! ## `OBJMesh::load` after the parse loop -/

/-- The fields of `class OBJMesh`. Offsets are in bytes. -/
structure OBJMesh where
  mVAO : Nat
  mVBO : Nat
  mIBO : Nat
  mPositionSize : Nat
  mNormalSize : Nat
  mTangentSize : Nat
  mTexCoordSize : Nat
  mPositionOffset : Nat
  mNormalOffset : Nat
  mTangentlOffset : Nat
  mTexCoordOffset : Nat
  mStride : Nat
  mNumVertices : Nat
  mNumIndices : Nat
deriving DecidableEq, Repr

/-- The mesh left by the constructor `OBJMesh::OBJMesh()` (all fields zero). -/
def OBJMesh.zero : OBJMesh :=
  { mVAO := 0, mVBO := 0, mIBO := 0, mPositionSize := 0, mNormalSize := 0, mTangentSize := 0,
    mTexCoordSize := 0, mPositionOffset := 0, mNormalOffset := 0, mTangentlOffset := 0,
    mTexCoordOffset := 0, mStride := 0, mNumVertices := 0, mNumIndices := 0 }

/-- The size `sizeof(GLfloat)` in bytes. -/
def sizeofGLfloat : Nat := 4

/-- The attribute inference of `load` for one attribute: the flag after the
step. `present` is the flag from the vertex format, `count` the number of
declared values of the attribute. -/
def inferFlag (present : Bool) (count numPositions : Nat) : Bool :=
  if !present && count == numPositions then true else present

/-- The normal inference step of `load`: when normals are not in the format but
there are as many normals as positions, every corner gets `vn = v`. -/
def inferNormals (haveNormals : Bool) (numNormals numPositions : Nat)
    (faces : List OBJTriangle) : List OBJTriangle :=
  if !haveNormals && numNormals == numPositions then
    faces.map fun f =>
      { v0 := { f.v0 with vn := f.v0.v }, v1 := { f.v1 with vn := f.v1.v },
        v2 := { f.v2 with vn := f.v2.v } }
  else faces

/-- The texcoord inference step of `load`: when texcoords are not in the format
but there are as many texcoords as positions, every corner gets `vt = v`. -/
def inferTexCoords (haveTexCoords : Bool) (numTexcoords numPositions : Nat)
    (faces : List OBJTriangle) : List OBJTriangle :=
  if !haveTexCoords && numTexcoords == numPositions then
    faces.map fun f =>
      { v0 := { f.v0 with vt := f.v0.v }, v1 := { f.v1 with vt := f.v1.v },
        v2 := { f.v2 with vt := f.v2.v } }
  else faces

/-- The layout computation of `load`: the mesh with its sizes, offsets and
stride set, the number of floats per vertex and the final value of
`shouldComputeTangents`. -/
def computeLayout (haveNormals haveTexCoords shouldComputeTangents : Bool) (m : OBJMesh) :
    OBJMesh × Nat × Bool :=
  let floatsPerVertex := 0
  let m := { m with mPositionSize := 3, mPositionOffset := floatsPerVertex * sizeofGLfloat }
  let floatsPerVertex := floatsPerVertex + m.mPositionSize
  let (m, floatsPerVertex) :=
    if haveNormals then
      let m := { m with mNormalSize := 3, mNormalOffset := floatsPerVertex * sizeofGLfloat }
      (m, floatsPerVertex + m.mNormalSize)
    else (m, floatsPerVertex)
  let (m, floatsPerVertex) :=
    if haveTexCoords then
      let m := { m with mTexCoordSize := 2, mTexCoordOffset := floatsPerVertex * sizeofGLfloat }
      (m, floatsPerVertex + m.mTexCoordSize)
    else (m, floatsPerVertex)
  let (m, floatsPerVertex, shouldComputeTangents) :=
    if shouldComputeTangents then
      if haveNormals && haveTexCoords then
        let m := { m with mTangentSize := 4, mTangentlOffset := floatsPerVertex * sizeofGLfloat }
        (m, floatsPerVertex + m.mTangentSize, true)
      else (m, floatsPerVertex, false)
    else (m, floatsPerVertex, false)
  -- vertex size in bytes
  ({ m with mStride := floatsPerVertex * sizeofGLfloat }, floatsPerVertex, shouldComputeTangents)

/-- The floats written for vertex `i` by the loop that builds the vertex
buffer; `none` when an array read is out of bounds. -/
def vertexFloats (haveNormals haveTexCoords shouldComputeTangents : Bool)
    (positions normals : List Vec3) (texcoords : List TexCoord) (tangents : List Vec4)
    (i : Nat) : Option (List GLfloat) :=
  positions[i]?.bind fun p =>
  (if haveNormals then normals[i]?.map fun n => [n.x, n.y, n.z] else some []).bind fun ns =>
  (if haveTexCoords then texcoords[i]?.map fun t => [t.s, t.t] else some []).bind fun ts =>
  (if shouldComputeTangents then tangents[i]?.map fun t => [t.x, t.y, t.z, t.w]
    else some []).map fun gs =>
    [p.x, p.y, p.z] ++ ns ++ ts ++ gs

/-- The loop of `load` that builds the vertex buffer. -/
def buildVertexData (haveNormals haveTexCoords shouldComputeTangents : Bool)
    (positions normals : List Vec3) (texcoords : List TexCoord) (tangents : List Vec4)
    (numVertices : Nat) : Option (List GLfloat) :=
  (forEachIndex numVertices
    (vertexFloats haveNormals haveTexCoords shouldComputeTangents positions normals texcoords
      tangents)).map List.flatten

/-- The file behind `path` as `load` sees it: the lines that `getline` reads,
each as its tokens, and whether the read that ends the loop fails without
reaching end of file. -/
structure FileContents where
  lines : List (List (List Char))
  readFails : Bool

/-- The object names handed out by OpenGL (`glGenVertexArrays`, `glGenBuffers`). -/
structure GLNames where
  vao : Nat
  vbo : Nat
  ibo : Nat

/-- What a successful `load` leaves behind: the mesh fields, the working arrays
after reindexing and the data uploaded to the two buffers. -/
structure Loaded where
  mesh : OBJMesh
  haveNormals : Bool
  haveTexCoords : Bool
  positions : List Vec3
  normals : List Vec3
  texcoords : List TexCoord
  tangents : List Vec4
  newFaces : List IndexTriangle
  vertexData : List GLfloat
deriving DecidableEq, Repr

/-- Outcome of a call of `load`. -/
inductive LoadResult where
  /-- The call returned `false`; `mesh` holds the fields as the call left them. -/
  | failed (e : LoadError) (mesh : OBJMesh)
  /-- An array was read out of bounds (undefined behaviour in the source). -/
  | undefined
  /-- The call returned `true`. -/
  | loaded (r : Loaded)
deriving DecidableEq, Repr

/-- The part of `load` after the parse loop. The two `glBufferData` calls take
`&vertexData[0]` and `&newFaces[0]`: element 0 of each vector is accessed, which
is out of bounds when the mesh has no vertex or no triangle. -/
def finishLoad (lib : Library) (gl : GLNames) (shouldComputeTangents : Bool) (m : OBJMesh)
    (s : ParseState) : LoadResult :=
  let haveNormals0 := s.vertexFormat &&& OBJ_VFF_NORMAL == OBJ_VFF_NORMAL
  let faces := inferNormals haveNormals0 s.normals.length s.positions.length s.faces
  let haveNormals := inferFlag haveNormals0 s.normals.length s.positions.length
  let haveTexCoords0 := s.vertexFormat &&& OBJ_VFF_TEXCOORD == OBJ_VFF_TEXCOORD
  let faces := inferTexCoords haveTexCoords0 s.texcoords.length s.positions.length faces
  let haveTexCoords := inferFlag haveTexCoords0 s.texcoords.length s.positions.length
  let (m, _, shouldComputeTangents) :=
    computeLayout haveNormals haveTexCoords shouldComputeTangents m
  match reindexDispatch haveNormals haveTexCoords s.positions s.normals s.texcoords faces with
  | none => .undefined
  | some (positions, normals, texcoords, newFaces) =>
    -- compute tangents, if needed
    match (if shouldComputeTangents then
        ComputeTangents lib positions normals texcoords newFaces else some []) with
    | none => .undefined
    | some tangents =>
      let m := { m with mNumVertices := positions.length, mNumIndices := 3 * newFaces.length }
      match buildVertexData haveNormals haveTexCoords shouldComputeTangents positions normals
          texcoords tangents m.mNumVertices with
      | none => .undefined
      | some vertexData =>
        -- create a vertex array object (VAO)
        let m := { m with mVAO := gl.vao }
        if m.mVAO = 0 then .failed .vaoFailed m
        else
          -- generate vertex buffer: `&vertexData[0]` is evaluated
          let m := { m with mVBO := gl.vbo }
          match vertexData[0]? with
          | none => .undefined
          | some _ =>
            -- generate index buffer: `&newFaces[0]` is evaluated
            let m := { m with mIBO := gl.ibo }
            match newFaces[0]? with
            | none => .undefined
            | some _ =>
              .loaded { mesh := m, haveNormals := haveNormals, haveTexCoords := haveTexCoords,
                        positions := positions, normals := normals, texcoords := texcoords,
                        tangents := tangents, newFaces := newFaces, vertexData := vertexData }

/-- Function `OBJMesh::load(path, shouldComputeTangents)` on a mesh `m`; `file` is `none`
when the file cannot be opened. -/
def load (lib : Library) (gl : GLNames) (file : Option FileContents)
    (shouldComputeTangents : Bool) (m : OBJMesh) : LoadResult :=
  match file with
  | none => .failed .openFailed m
  | some contents =>
    match parseLines lib ParseState.init contents.lines with
    | .error e => .failed e m
    | .ok s =>
      if contents.readFails then .failed .readFailed m
      else finishLoad lib gl shouldComputeTangents m s

/-- Whether a line declares a value with the keyword `kw` (`v`, `vn` or `vt`):
its first token is `kw`. -/
def declares (kw : List Char) (tokens : List (List Char)) : Bool :=
  decide (tokens.length > 0 ∧ tokenAt tokens 0 = kw)

/-! ## `LoadWavefrontOBJ` -/

/-- The arguments with which `LoadWavefrontOBJ` builds its `glsh::IndexedMesh`:
the three object names and the index count (primitive and index type are the
constants `GL_TRIANGLES` and `GL_UNSIGNED_INT`). -/
structure IndexedMesh where
  vbo : Nat
  ibo : Nat
  vao : Nat
  numIndices : Nat
deriving DecidableEq, Repr

/-- Function `LoadWavefrontOBJ(path)`: a default-constructed `OBJMesh` is loaded
without tangents; the result is the new mesh handle, or `none` for `NULL`. The
outer `none` stands for undefined behaviour inside `load`. -/
def LoadWavefrontOBJ (lib : Library) (gl : GLNames) (file : Option FileContents) :
    Option (Option IndexedMesh) :=
  match load lib gl file false OBJMesh.zero with
  | .loaded r =>
    some (some { vbo := r.mesh.mVBO, ibo := r.mesh.mIBO, vao := r.mesh.mVAO,
                 numIndices := r.mesh.mNumIndices })
  | .failed _ _ => some none
  | .undefined => none

/-! ## Decimal text -/

/-- The character of a decimal digit. -/
def digitChar (d : Nat) : Char := Char.ofNat (d + '0'.toNat)

/-- A natural number written as decimal text, most significant digit first. -/
def decimalNat (n : Nat) : List Char :=
  if n = 0 then ['0'] else ((Nat.digits 10 n).reverse.map digitChar)

/-- An integer written as decimal text, with a leading `-` when negative. -/
def decimalText : Int → List Char
  | Int.ofNat n => decimalNat n
  | Int.negSucc n => '-' :: decimalNat (n + 1)

/-! ## Invariant of the parse loop -/

/-- The format invariant of the parse loop: as long as no format is established
no triangle is stored; an established format has the position flag; and every
corner of every stored triangle has the established format. -/
def FormatInv (s : ParseState) : Prop :=
  (s.vertexFormat = 0 → s.faces = []) ∧
  (s.vertexFormat ≠ 0 → s.vertexFormat &&& OBJ_VFF_POSITION = OBJ_VFF_POSITION) ∧
  (∀ f ∈ s.faces, ∀ c ∈ f.corners, c.getFormat = s.vertexFormat)

/-! ## Sample data -/

/-- Four raw positions (a unit square). -/
def samplePositions : List Vec3 := [⟨0, 0, 0⟩, ⟨1, 0, 0⟩, ⟨1, 1, 0⟩, ⟨0, 1, 0⟩]

/-- Two raw normals. -/
def sampleNormals : List Vec3 := [⟨0, 0, 1⟩, ⟨0, 1, 0⟩]

/-- Three raw texture coordinates. -/
def sampleTexcoords : List TexCoord := [⟨0, 0⟩, ⟨1, 0⟩, ⟨1, 1⟩]

/-- Two raw triangles; position 3 occurs with two different normals, and the
corner `2/3/1` occurs twice. -/
def sampleFaces : List OBJTriangle :=
  [⟨⟨3, 1, 1⟩, ⟨1, 1, 2⟩, ⟨2, 1, 3⟩⟩, ⟨⟨3, 2, 1⟩, ⟨2, 1, 3⟩, ⟨4, 1, 1⟩⟩]

/-- The value of a string of decimal digits. -/
def digitsValue (cs : List Char) : Nat :=
  cs.foldl (fun n c => 10 * n + (c.toNat - '0'.toNat)) 0

/-- A reading of decimal integer text (optional leading `-`), standing in for
`glsh::FromString<int>` on such text. -/
def decimalInt : List Char → Int
  | '-' :: cs => -(digitsValue cs : Int)
  | cs => (digitsValue cs : Int)

/-- Sample instance of the external helpers: decimal integers, coordinates
written as integers, and a `normalize` that leaves vectors as they are. -/
def sampleLibrary : Library :=
  { fromStringInt := decimalInt
    fromStringFloat := fun cs => (decimalInt cs : GLfloat)
    normalize := fun v => v }

/-- Splitting of a line at blanks, standing in for `glsh::Tokenize`; `cur` is
the token being read, in reverse. -/
def splitBlanks : List Char → List Char → List (List Char)
  | [], cur => if cur.isEmpty then [] else [cur.reverse]
  | c :: cs, cur =>
    if c = ' ' then
      if cur.isEmpty then splitBlanks cs [] else cur.reverse :: splitBlanks cs []
    else splitBlanks cs (c :: cur)

/-- A file given by its lines of text, read without error. -/
def fileOfLines (lines : List String) : FileContents :=
  { lines := lines.map fun l => splitBlanks l.toList [], readFails := false }

/-- Sample OpenGL object names (all non-zero). -/
def sampleGL : GLNames := { vao := 1, vbo := 2, ibo := 3 }

/-- A file with three positions, normals and texcoords, a first face
`f 1/1/1 2/2/2 3/3/3` and a second face `f 1/1 2/2 3/3` that omits the normal. -/
def mixedFormatFile : FileContents :=
  fileOfLines ["v 0 0 0", "v 1 0 0", "v 1 1 0", "vn 1 0 0", "vn 2 0 0", "vn 3 0 0",
    "vt 0 0", "vt 1 0", "vt 1 1", "f 1/1/1 2/2/2 3/3/3", "f 1/1 2/2 3/3"]

/-- A file with 4 positions, 4 normals and the faces `f 1 2 3`, `f 1 3 4`
without normal indices. -/
def parallelNormalsFile : FileContents :=
  fileOfLines ["v 0 0 0", "v 1 0 0", "v 1 1 0", "v 0 1 0", "vn 1 0 0", "vn 2 0 0",
    "vn 3 0 0", "vn 4 0 0", "f 1 2 3", "f 1 3 4"]

/-- A file whose first face has no position field in its tokens, after three
positions and one normal have been declared. -/
def noPositionFile : FileContents :=
  fileOfLines ["v 0 0 0", "v 1 0 0", "v 1 1 0", "vn 1 0 0", "f //1 //1 //1"]

/-- The parse state reached after five positions, the face `f -1 -2 -3` and one
more position. -/
def relativeIndexParsed : ParseState :=
  { positions := [⟨0, 0, 0⟩, ⟨1, 0, 0⟩, ⟨1, 1, 0⟩, ⟨0, 1, 0⟩, ⟨2, 2, 2⟩, ⟨9, 9, 9⟩]
    normals := []
    texcoords := []
    faces := [⟨⟨5, 0, 0⟩, ⟨4, 0, 0⟩, ⟨3, 0, 0⟩⟩]
    vertexFormat := 1 }

/-- The corner positions of one triangle in the plane `z = 0`. -/
def trianglePositions : List Vec3 := [⟨0, 0, 0⟩, ⟨1, 0, 0⟩, ⟨0, 1, 0⟩]

/-- Texture coordinates that map the triangle onto itself. -/
def triangleTexcoords : List TexCoord := [⟨0, 0⟩, ⟨1, 0⟩, ⟨0, 1⟩]

/-- Vertex normals pointing down the `z` axis. -/
def downNormals : List Vec3 := [⟨0, 0, -1⟩, ⟨0, 0, -1⟩, ⟨0, 0, -1⟩]

/-- A file with one textured triangle whose three corners share the normal
`(2, 0, 0)`, which is not of unit length. -/
def longNormalFile : FileContents :=
  fileOfLines ["v 0 0 0", "v 1 0 0", "v 0 1 0", "vt 0 0", "vt 1 0", "vt 0 1", "vn 2 0 0",
    "f 1/1/1 2/2/1 3/3/1"]

/-- What `load` leaves for `parallelNormalsFile` without tangents. -/
def parallelNormalsLoaded : Loaded :=
  { mesh := { mVAO := 1, mVBO := 2, mIBO := 3, mPositionSize := 3, mNormalSize := 3,
              mTangentSize := 0, mTexCoordSize := 0, mPositionOffset := 0, mNormalOffset := 12,
              mTangentlOffset := 0, mTexCoordOffset := 0, mStride := 24, mNumVertices := 4,
              mNumIndices := 6 }
    haveNormals := true
    haveTexCoords := false
    positions := [⟨0, 0, 0⟩, ⟨1, 0, 0⟩, ⟨1, 1, 0⟩, ⟨0, 1, 0⟩]
    normals := [⟨4, 0, 0⟩, ⟨4, 0, 0⟩, ⟨4, 0, 0⟩, ⟨4, 0, 0⟩]
    texcoords := []
    tangents := []
    newFaces := [⟨0, 1, 2⟩, ⟨0, 2, 3⟩]
    vertexData := [0, 0, 0, 4, 0, 0, 1, 0, 0, 4, 0, 0, 1, 1, 0, 4, 0, 0, 0, 1, 0, 4, 0, 0] }

/-- The faces `f 1 2 3`, `f 1 3 4` followed by the 4 positions and 4 normals
they refer to. -/
def facesFirstFile : FileContents :=
  fileOfLines ["f 1 2 3", "f 1 3 4", "v 0 0 0", "v 1 0 0", "v 1 1 0", "v 0 1 0", "vn 1 0 0",
    "vn 2 0 0", "vn 3 0 0", "vn 4 0 0"]

/-- What `load` leaves for `facesFirstFile` without tangents. -/
def facesFirstLoaded : Loaded :=
  { mesh := { mVAO := 1, mVBO := 2, mIBO := 3, mPositionSize := 3, mNormalSize := 3,
              mTangentSize := 0, mTexCoordSize := 0, mPositionOffset := 0, mNormalOffset := 12,
              mTangentlOffset := 0, mTexCoordOffset := 0, mStride := 24, mNumVertices := 4,
              mNumIndices := 6 }
    haveNormals := true
    haveTexCoords := false
    positions := [⟨0, 0, 0⟩, ⟨1, 0, 0⟩, ⟨1, 1, 0⟩, ⟨0, 1, 0⟩]
    normals := [⟨1, 0, 0⟩, ⟨2, 0, 0⟩, ⟨3, 0, 0⟩, ⟨4, 0, 0⟩]
    texcoords := []
    tangents := []
    newFaces := [⟨0, 1, 2⟩, ⟨0, 2, 3⟩]
    vertexData := [0, 0, 0, 1, 0, 0, 1, 0, 0, 2, 0, 0, 1, 1, 0, 3, 0, 0, 0, 1, 0, 4, 0, 0] }

/-- The parse state at the end of `mixedFormatFile`. -/
def mixedFormatParsed : ParseState :=
  { positions := [⟨0, 0, 0⟩, ⟨1, 0, 0⟩, ⟨1, 1, 0⟩]
    normals := [⟨1, 0, 0⟩, ⟨2, 0, 0⟩, ⟨3, 0, 0⟩]
    texcoords := [⟨0, 0⟩, ⟨1, 0⟩, ⟨1, 1⟩]
    faces := [⟨⟨1, 1, 1⟩, ⟨2, 2, 2⟩, ⟨3, 3, 3⟩⟩, ⟨⟨1, 3, 1⟩, ⟨2, 3, 2⟩, ⟨3, 3, 3⟩⟩]
    vertexFormat := 7 }

/-- Vertex normals of length 2 along the `x` axis. -/
def longNormals : List Vec3 := [⟨2, 0, 0⟩, ⟨2, 0, 0⟩, ⟨2, 0, 0⟩]

/-! ## Further sample data -/

/-- The triangle `f` with the normal index of every corner set to `cn` and the
texcoord index of every corner set to `ct`. -/
def withConstAttrs (cn ct : Int) (f : OBJTriangle) : OBJTriangle :=
  { v0 := { f.v0 with vn := cn, vt := ct }
    v1 := { f.v1 with vn := cn, vt := ct }
    v2 := { f.v2 with vn := cn, vt := ct } }

/-- Whether a text is a decimal integer: an optional leading `-` followed by at
least one digit. -/
def isDecimalText : List Char → Bool
  | '-' :: ds => !ds.isEmpty && ds.all Char.isDigit
  | ds => !ds.isEmpty && ds.all Char.isDigit

/-- Sample instance of the external helpers in which a text that is not a
decimal integer reads as 0, the value a failed stream extraction leaves. -/
def zeroOnFailureLibrary : Library :=
  { fromStringInt := fun cs => if isDecimalText cs then decimalInt cs else 0
    fromStringFloat := fun cs => (decimalInt cs : GLfloat)
    normalize := fun v => v }

/-- A file with three positions and the face `f 1/x 2/x 3/x`, whose texcoord
fields are not integers. -/
def malformedIndexFile : FileContents :=
  fileOfLines ["v 0 0 0", "v 1 0 0", "v 0 1 0", "f 1/x 2/x 3/x"]

/-- A file with three positions and the face `f 1 2 9`. -/
def outOfRangeFile : FileContents :=
  fileOfLines ["v 0 0 0", "v 1 0 0", "v 0 1 0", "f 1 2 9"]

/-- A file that holds a comment and a blank line only. -/
def commentOnlyFile : FileContents :=
  fileOfLines ["# nothing to load", ""]

/-- The face vertex that the `f` branch of the parse loop stores for the token
`tok` in the state `s`: the parsed token with its negative indices resolved. -/
def resolvedVertex (lib : Library) (s : ParseState) (tok : List Char) : OBJVertex :=
  vertAt (faceVerts lib s [['f'], tok]) 0

/-- The parse state at the end of `outOfRangeFile`. -/
def outOfRangeParsed : ParseState :=
  { positions := [⟨0, 0, 0⟩, ⟨1, 0, 0⟩, ⟨0, 1, 0⟩]
    normals := []
    texcoords := []
    faces := [⟨⟨1, 0, 0⟩, ⟨2, 0, 0⟩, ⟨9, 0, 0⟩⟩]
    vertexFormat := 1 }

/-- What `load` leaves for `malformedIndexFile` without tangents when the
texcoord fields read as 0. -/
def malformedIndexLoaded : Loaded :=
  { mesh := { mVAO := 1, mVBO := 2, mIBO := 3, mPositionSize := 3, mNormalSize := 0,
              mTangentSize := 0, mTexCoordSize := 0, mPositionOffset := 0, mNormalOffset := 0,
              mTangentlOffset := 0, mTexCoordOffset := 0, mStride := 12, mNumVertices := 3,
              mNumIndices := 3 }
    haveNormals := false
    haveTexCoords := false
    positions := [⟨0, 0, 0⟩, ⟨1, 0, 0⟩, ⟨0, 1, 0⟩]
    normals := []
    texcoords := []
    tangents := []
    newFaces := [⟨0, 1, 2⟩]
    vertexData := [0, 0, 0, 1, 0, 0, 0, 1, 0] }

/-- Sample `glm::normalize` that is exact on the vectors along the `x` axis:
`(x, 0, 0)` with `x ≠ 0` becomes `(1, 0, 0)` or `(-1, 0, 0)` by the sign of `x`.
A stand-in on all other vectors, which are left as they are. -/
def axisNormalize (v : Vec3) : Vec3 :=
  if v.y = 0 ∧ v.z = 0 ∧ v.x ≠ 0 then ⟨if v.x < 0 then -1 else 1, 0, 0⟩ else v

/-- Sample instance of the external helpers with `axisNormalize`. -/
def axisLibrary : Library :=
  { fromStringInt := decimalInt
    fromStringFloat := fun cs => (decimalInt cs : GLfloat)
    normalize := axisNormalize }

/-- The face `f 1 2 3` followed by the 3 positions, 3 normals and 3 texcoords
it refers to: when the face is read no normal and no texcoord is declared. -/
def inferBothFile : FileContents :=
  fileOfLines ["f 1 2 3", "v 0 0 0", "v 1 0 0", "v 0 1 0", "vn 1 0 0", "vn 2 0 0", "vn 3 0 0",
    "vt 0 0", "vt 1 0", "vt 0 1"]

/-- The parse state at the end of `inferBothFile`. -/
def inferBothParsed : ParseState :=
  { positions := [⟨0, 0, 0⟩, ⟨1, 0, 0⟩, ⟨0, 1, 0⟩]
    normals := [⟨1, 0, 0⟩, ⟨2, 0, 0⟩, ⟨3, 0, 0⟩]
    texcoords := [⟨0, 0⟩, ⟨1, 0⟩, ⟨0, 1⟩]
    faces := [⟨⟨1, 0, 0⟩, ⟨2, 0, 0⟩, ⟨3, 0, 0⟩⟩]
    vertexFormat := 1 }

/-- OpenGL object names when `glGenVertexArrays` hands out no name. -/
def noVaoGL : GLNames := { vao := 0, vbo := 0, ibo := 0 }

/-! ## Lemmas on lists of distinct keys -/

section Distinct
variable {K : Type} [DecidableEq K]

theorem mem_addKey (seen : List K) (k a : K) : a ∈ addKey seen k ↔ a ∈ seen ∨ a = k := by
  unfold addKey
  split
  · rename_i hk
    constructor
    · exact Or.inl
    · rintro (h | h)
      · exact h
      · exact h ▸ hk
  · simp

theorem mem_addKey_self (seen : List K) (k : K) : k ∈ addKey seen k :=
  (mem_addKey seen k k).2 (Or.inr rfl)

theorem indexOf_addKey (seen : List K) (k a : K) (h : a ∈ seen) :
    (addKey seen k).indexOf a = seen.indexOf a := by
  unfold addKey
  split
  · rfl
  · exact List.indexOf_append_of_mem h

theorem addKey_nodup (seen : List K) (k : K) (h : seen.Nodup) : (addKey seen k).Nodup := by
  unfold addKey
  split
  · exact h
  · rename_i hk
    rw [List.nodup_append]
    refine ⟨h, List.nodup_singleton k, ?_⟩
    intro a ha hb
    simp at hb
    subst hb
    exact hk ha

theorem distinctFrom_extends (ks seen : List K) : ∃ t, distinctFrom seen ks = seen ++ t := by
  induction ks generalizing seen with
  | nil => exact ⟨[], by simp [distinctFrom]⟩
  | cons k ks ih =>
    simp only [distinctFrom]
    obtain ⟨t, ht⟩ := ih (addKey seen k)
    rw [ht]
    unfold addKey
    split
    · exact ⟨t, rfl⟩
    · exact ⟨k :: t, by simp⟩

theorem distinctFrom_nodup (ks seen : List K) (h : seen.Nodup) : (distinctFrom seen ks).Nodup := by
  induction ks generalizing seen with
  | nil => simpa [distinctFrom] using h
  | cons k ks ih => exact ih _ (addKey_nodup seen k h)

theorem mem_distinctFrom (ks seen : List K) (a : K) :
    a ∈ distinctFrom seen ks ↔ a ∈ seen ∨ a ∈ ks := by
  induction ks generalizing seen with
  | nil => simp [distinctFrom]
  | cons k ks ih =>
    simp only [distinctFrom, ih, mem_addKey, List.mem_cons]
    tauto

theorem indexOf_distinctFrom (ks seen : List K) (a : K) (h : a ∈ seen) :
    (distinctFrom seen ks).indexOf a = seen.indexOf a := by
  obtain ⟨t, ht⟩ := distinctFrom_extends ks seen
  rw [ht, List.indexOf_append_of_mem h]

theorem distinctInOrder_nodup (ks : List K) : (distinctInOrder ks).Nodup :=
  distinctFrom_nodup ks [] List.nodup_nil

theorem mem_distinctInOrder (ks : List K) (a : K) : a ∈ distinctInOrder ks ↔ a ∈ ks := by
  simp [distinctInOrder, mem_distinctFrom]

end Distinct

/-! ## The generic reindexer -/

section Generic
variable {K A : Type} [DecidableEq K]

theorem Dedup_corner_spec (key : OBJVertex → K) (fetch : K → Option A) (s : Dedup K A)
    (seen : List K) (c : OBJVertex) (hinv : DedupInv fetch s seen)
    (hf : (fetch (key c)).isSome = true) :
    ∃ s', Dedup.corner key fetch s c = some (s', (addKey seen (key c)).indexOf (key c)) ∧
      DedupInv fetch s' (addKey seen (key c)) := by
  obtain ⟨hc, ht, ho⟩ := hinv
  by_cases hk : key c ∈ seen
  · refine ⟨s, ?_, ?_⟩
    · simp [Dedup.corner, ht (key c), hk, addKey]
    · simpa [hk, addKey] using ⟨hc, ht, ho⟩
  · obtain ⟨a, ha⟩ := Option.isSome_iff_exists.mp hf
    have hidx : (seen ++ [key c]).indexOf (key c) = seen.length := by
      rw [List.indexOf_append_of_not_mem hk]; simp
    refine ⟨{ table := fun k => if k = key c then some s.counter else s.table k
              counter := s.counter + 1
              out := s.out ++ [a] }, ?_, ?_⟩
    · simp only [Dedup.corner, ht (key c), hk, if_false, ha, Option.map_some', addKey]
      rw [hidx, hc]
    · simp only [addKey, hk, if_false]
      refine ⟨by simp [hc], ?_, by simp [ho, ha]⟩
      intro k
      by_cases hkc : k = key c
      · subst hkc
        simp [hidx, hc]
      · by_cases hks : k ∈ seen
        · simp [hkc, hks, ht k, List.indexOf_append_of_mem hks]
        · simp [hkc, hks, ht k]

theorem allCorners_cons (f : OBJTriangle) (fs : List OBJTriangle) :
    allCorners (f :: fs) = f.v0 :: f.v1 :: f.v2 :: allCorners fs := by
  simp [allCorners, OBJTriangle.corners]

theorem reindexLoop_generic (key : OBJVertex → K) (fetch : K → Option A)
    (faces : List OBJTriangle) (s : Dedup K A) (seen : List K)
    (hinv : DedupInv fetch s seen)
    (hr : ∀ c ∈ allCorners faces, (fetch (key c)).isSome = true) :
    ∃ s', reindexLoop (Dedup.corner key fetch) s faces
        = some (s', faces.map
            (denseTriangle key (distinctFrom seen ((allCorners faces).map key)))) ∧
      DedupInv fetch s' (distinctFrom seen ((allCorners faces).map key)) := by
  induction faces generalizing s seen with
  | nil => exact ⟨s, by simp [reindexLoop, allCorners, distinctFrom], by
      simpa [allCorners, distinctFrom] using hinv⟩
  | cons f fs ih =>
    have hr0 : (fetch (key f.v0)).isSome = true := hr _ (by simp [allCorners_cons])
    have hr1 : (fetch (key f.v1)).isSome = true := hr _ (by simp [allCorners_cons])
    have hr2 : (fetch (key f.v2)).isSome = true := hr _ (by simp [allCorners_cons])
    have hrs : ∀ c ∈ allCorners fs, (fetch (key c)).isSome = true := by
      intro c hc
      exact hr c (by simp [allCorners_cons, hc])
    obtain ⟨s0, e0, i0⟩ := Dedup_corner_spec key fetch s seen f.v0 hinv hr0
    obtain ⟨s1, e1, i1⟩ := Dedup_corner_spec key fetch s0 _ f.v1 i0 hr1
    obtain ⟨s2, e2, i2⟩ := Dedup_corner_spec key fetch s1 _ f.v2 i1 hr2
    obtain ⟨s3, e3, i3⟩ := ih s2 _ i2 hrs
    have hfin : distinctFrom seen ((allCorners (f :: fs)).map key)
        = distinctFrom (addKey (addKey (addKey seen (key f.v0)) (key f.v1)) (key f.v2))
            ((allCorners fs).map key) := by
      rw [allCorners_cons]; rfl
    have m0 := mem_addKey_self seen (key f.v0)
    have m1 := mem_addKey_self (addKey seen (key f.v0)) (key f.v1)
    have m2 := mem_addKey_self (addKey (addKey seen (key f.v0)) (key f.v1)) (key f.v2)
    have m01 : key f.v0 ∈ addKey (addKey seen (key f.v0)) (key f.v1) :=
      (mem_addKey _ _ _).2 (Or.inl m0)
    have m02 : key f.v0 ∈ addKey (addKey (addKey seen (key f.v0)) (key f.v1)) (key f.v2) :=
      (mem_addKey _ _ _).2 (Or.inl m01)
    have m12 : key f.v1 ∈ addKey (addKey (addKey seen (key f.v0)) (key f.v1)) (key f.v2) :=
      (mem_addKey _ _ _).2 (Or.inl m1)
    refine ⟨s3, ?_, ?_⟩
    · simp only [reindexLoop, OBJTriangle.verts, e0, e1, e2, e3, Option.some_bind,
        Option.map_some', List.map_cons]
      rw [hfin]
      simp only [denseTriangle, indexOf_distinctFrom _ _ _ m02, indexOf_addKey _ _ _ m01,
        indexOf_addKey _ _ _ m0, indexOf_distinctFrom _ _ _ m12, indexOf_addKey _ _ _ m1,
        indexOf_distinctFrom _ _ _ m2]
    · rw [hfin]; exact i3

theorem reindexGeneric_spec (key : OBJVertex → K) (fetch : K → Option A)
    (faces : List OBJTriangle)
    (hr : ∀ c ∈ allCorners faces, (fetch (key c)).isSome = true) :
    ∃ out, reindexGeneric key fetch faces
        = some (out, faces.map
            (denseTriangle key (distinctInOrder ((allCorners faces).map key)))) ∧
      out.map some = (distinctInOrder ((allCorners faces).map key)).map fetch := by
  have h0 : DedupInv fetch ({ table := fun _ => none, counter := 0, out := [] } : Dedup K A) [] := by
    simp [DedupInv]
  obtain ⟨s', e, _, _, ho⟩ := reindexLoop_generic key fetch faces _ [] h0 hr
  exact ⟨s'.out, by simp [reindexGeneric, e, distinctInOrder], ho⟩

end Generic

/-! ## The four overloads simulate the generic reindexer -/

theorem IntMap_sub_set {V : Type} (m : IntMap (IntMap V)) (k a : Int) (x : IntMap V) :
    (m.set k x).sub a = if a = k then x else m.sub a := by
  unfold IntMap.sub IntMap.set
  split <;> simp

theorem IntMap_set_apply {V : Type} (m : IntMap V) (k a : Int) (x : V) :
    (m.set k x) a = if a = k then some x else m a := rfl

theorem reindexLoop_sim {σ τ : Type} (c1 : σ → OBJVertex → Option (σ × Nat))
    (c2 : τ → OBJVertex → Option (τ × Nat)) (R : σ → τ → Prop)
    (hstep : ∀ s t c, R s t → (c1 s c = none ∧ c2 t c = none) ∨
      ∃ s' t' i, c1 s c = some (s', i) ∧ c2 t c = some (t', i) ∧ R s' t')
    (faces : List OBJTriangle) (s : σ) (t : τ) (h : R s t) :
    (reindexLoop c1 s faces = none ∧ reindexLoop c2 t faces = none) ∨
      ∃ s' t' nf, reindexLoop c1 s faces = some (s', nf) ∧
        reindexLoop c2 t faces = some (t', nf) ∧ R s' t' := by
  induction faces generalizing s t with
  | nil => exact Or.inr ⟨s, t, [], rfl, rfl, h⟩
  | cons f fs ih =>
    rcases hstep s t (f.verts 0) h with ⟨a, b⟩ | ⟨s0, t0, j0, a0, b0, r0⟩
    · exact Or.inl ⟨by simp [reindexLoop, a], by simp [reindexLoop, b]⟩
    rcases hstep s0 t0 (f.verts 1) r0 with ⟨a, b⟩ | ⟨s1, t1, j1, a1, b1, r1⟩
    · exact Or.inl ⟨by simp [reindexLoop, a0, a], by simp [reindexLoop, b0, b]⟩
    rcases hstep s1 t1 (f.verts 2) r1 with ⟨a, b⟩ | ⟨s2, t2, j2, a2, b2, r2⟩
    · exact Or.inl ⟨by simp [reindexLoop, a0, a1, a], by simp [reindexLoop, b0, b1, b]⟩
    rcases ih s2 t2 r2 with ⟨a, b⟩ | ⟨s3, t3, nf, a3, b3, r3⟩
    · exact Or.inl ⟨by simp [reindexLoop, a0, a1, a2, a], by simp [reindexLoop, b0, b1, b2, b]⟩
    · exact Or.inr ⟨s3, t3, { i0 := j0, i1 := j1, i2 := j2 } :: nf,
        by simp [reindexLoop, a0, a1, a2, a3],
        by simp [reindexLoop, b0, b1, b2, b3], r3⟩

theorem ReindexP_corner_sim (positions normals : List Vec3) (texcoords : List TexCoord)
    (s : ReindexP) (g : Dedup DedupKey (Vec3 × Vec3 × TexCoord)) (c : OBJVertex)
    (h : SimP s g) :
    (ReindexP.corner positions s c = none ∧
      Dedup.corner (dedupKey false false) (fetchAttrs positions normals texcoords) g c = none) ∨
    ∃ s' g' i, ReindexP.corner positions s c = some (s', i) ∧
      Dedup.corner (dedupKey false false) (fetchAttrs positions normals texcoords) g c
        = some (g', i) ∧ SimP s' g' := by
  obtain ⟨hc, ht, hp⟩ := h
  have hk : g.table { v := c.v, vn := none, vt := none } = s.indexTable c.v := ht c.v
  cases hl : s.indexTable c.v with
  | some e =>
    refine Or.inr ⟨s, g, e, ?_, ?_, hc, ht, hp⟩
    · simp [ReindexP.corner, IntMap.insert, hl]
    · simp [Dedup.corner, dedupKey, hk, hl]
  | none =>
    cases hv : vecAt positions (c.v - 1) with
    | none =>
      refine Or.inl ⟨?_, ?_⟩
      · simp [ReindexP.corner, IntMap.insert, hl, hv]
      · simp [Dedup.corner, hk, hl, fetchAttrs, dedupKey, hv]
    | some p =>
      refine Or.inr ⟨{ newPositions := s.newPositions ++ [p],
                       indexTable := s.indexTable.set c.v s.index, index := s.index + 1 },
        { table := fun k => if k = dedupKey false false c then some g.counter else g.table k
          counter := g.counter + 1
          out := g.out ++ [(p, ⟨0, 0, 0⟩, ⟨0, 0⟩)] }, s.index, ?_, ?_, ?_⟩
      · simp [ReindexP.corner, IntMap.insert, hl, hv]
      · simp [Dedup.corner, hk, hl, fetchAttrs, dedupKey, hv, hc]
      · refine ⟨by simp [hc], ?_, by simp [hp]⟩
        intro v
        simp [dedupKey, IntMap_set_apply, ht v, hc]

theorem ReindexPN_corner_sim (positions normals : List Vec3) (texcoords : List TexCoord)
    (s : ReindexPN) (g : Dedup DedupKey (Vec3 × Vec3 × TexCoord)) (c : OBJVertex)
    (h : SimPN s g) :
    (ReindexPN.corner positions normals s c = none ∧
      Dedup.corner (dedupKey true false) (fetchAttrs positions normals texcoords) g c = none) ∨
    ∃ s' g' i, ReindexPN.corner positions normals s c = some (s', i) ∧
      Dedup.corner (dedupKey true false) (fetchAttrs positions normals texcoords) g c
        = some (g', i) ∧ SimPN s' g' := by
  obtain ⟨hc, ht, hp, hn⟩ := h
  have hk : g.table { v := c.v, vn := some c.vn, vt := none } = (s.indexTable.sub c.v) c.vn :=
    ht c.v c.vn
  cases hl : (s.indexTable.sub c.v) c.vn with
  | some e =>
    refine Or.inr ⟨{ s with indexTable := s.indexTable.set c.v (s.indexTable.sub c.v) },
      g, e, ?_, ?_, hc, ?_, hp, hn⟩
    · simp [ReindexPN.corner, IntMap.insert, hl]
    · simp [Dedup.corner, dedupKey, hk, hl]
    · intro v vn
      rw [ht v vn, IntMap_sub_set]
      split
      · rename_i hv; rw [hv]
      · rfl
  | none =>
    cases hv : vecAt positions (c.v - 1) with
    | none =>
      refine Or.inl ⟨?_, ?_⟩
      · simp [ReindexPN.corner, IntMap.insert, hl, hv]
      · simp [Dedup.corner, hk, hl, fetchAttrs, dedupKey, hv]
    | some p =>
      cases hvn : vecAt normals (c.vn - 1) with
      | none =>
        refine Or.inl ⟨?_, ?_⟩
        · simp [ReindexPN.corner, IntMap.insert, hl, hv, hvn]
        · simp [Dedup.corner, hk, hl, fetchAttrs, dedupKey, hv, hvn]
      | some n =>
        refine Or.inr ⟨{ newPositions := s.newPositions ++ [p],
                         newNormals := s.newNormals ++ [n],
                         indexTable := s.indexTable.set c.v
                            ((s.indexTable.sub c.v).set c.vn s.index),
                         index := s.index + 1 },
          { table := fun k => if k = dedupKey true false c then some g.counter else g.table k
            counter := g.counter + 1
            out := g.out ++ [(p, n, ⟨0, 0⟩)] }, s.index, ?_, ?_, ?_⟩
        · simp [ReindexPN.corner, IntMap.insert, hl, hv, hvn]
        · simp [Dedup.corner, hk, hl, fetchAttrs, dedupKey, hv, hvn, hc]
        · refine ⟨by simp [hc], ?_, by simp [hp], by simp [hn]⟩
          intro v vn
          simp only [dedupKey, IntMap_sub_set, DedupKey.mk.injEq, if_true, and_true, ht v vn, hc]
          by_cases h1 : v = c.v
          · subst h1
            simp [IntMap_set_apply]
          · simp [h1]

theorem ReindexPT_corner_sim (positions normals : List Vec3) (texcoords : List TexCoord)
    (s : ReindexPT) (g : Dedup DedupKey (Vec3 × Vec3 × TexCoord)) (c : OBJVertex)
    (h : SimPT s g) :
    (ReindexPT.corner positions texcoords s c = none ∧
      Dedup.corner (dedupKey false true) (fetchAttrs positions normals texcoords) g c = none) ∨
    ∃ s' g' i, ReindexPT.corner positions texcoords s c = some (s', i) ∧
      Dedup.corner (dedupKey false true) (fetchAttrs positions normals texcoords) g c
        = some (g', i) ∧ SimPT s' g' := by
  obtain ⟨hc, ht, hp, hn⟩ := h
  have hk : g.table { v := c.v, vn := none, vt := some c.vt } = (s.indexTable.sub c.v) c.vt :=
    ht c.v c.vt
  cases hl : (s.indexTable.sub c.v) c.vt with
  | some e =>
    refine Or.inr ⟨{ s with indexTable := s.indexTable.set c.v (s.indexTable.sub c.v) },
      g, e, ?_, ?_, hc, ?_, hp, hn⟩
    · simp [ReindexPT.corner, IntMap.insert, hl]
    · simp [Dedup.corner, dedupKey, hk, hl]
    · intro v vt
      rw [ht v vt, IntMap_sub_set]
      split
      · rename_i hv; rw [hv]
      · rfl
  | none =>
    cases hv : vecAt positions (c.v - 1) with
    | none =>
      refine Or.inl ⟨?_, ?_⟩
      · simp [ReindexPT.corner, IntMap.insert, hl, hv]
      · simp [Dedup.corner, hk, hl, fetchAttrs, dedupKey, hv]
    | some p =>
      cases hvt : vecAt texcoords (c.vt - 1) with
      | none =>
        refine Or.inl ⟨?_, ?_⟩
        · simp [ReindexPT.corner, IntMap.insert, hl, hv, hvt]
        · simp [Dedup.corner, hk, hl, fetchAttrs, dedupKey, hv, hvt]
      | some t =>
        refine Or.inr ⟨{ newPositions := s.newPositions ++ [p],
                         newTexcoords := s.newTexcoords ++ [t],
                         indexTable := s.indexTable.set c.v
                            ((s.indexTable.sub c.v).set c.vt s.index),
                         index := s.index + 1 },
          { table := fun k => if k = dedupKey false true c then some g.counter else g.table k
            counter := g.counter + 1
            out := g.out ++ [(p, ⟨0, 0, 0⟩, t)] }, s.index, ?_, ?_, ?_⟩
        · simp [ReindexPT.corner, IntMap.insert, hl, hv, hvt]
        · simp [Dedup.corner, hk, hl, fetchAttrs, dedupKey, hv, hvt, hc]
        · refine ⟨by simp [hc], ?_, by simp [hp], by simp [hn]⟩
          intro v vt
          simp only [dedupKey, IntMap_sub_set, DedupKey.mk.injEq, if_true, true_and, ht v vt, hc]
          by_cases h1 : v = c.v
          · subst h1
            simp [IntMap_set_apply]
          · simp [h1]

theorem ReindexPNT_corner_sim (positions normals : List Vec3) (texcoords : List TexCoord)
    (s : ReindexPNT) (g : Dedup DedupKey (Vec3 × Vec3 × TexCoord)) (c : OBJVertex)
    (h : SimPNT s g) :
    (ReindexPNT.corner positions normals texcoords s c = none ∧
      Dedup.corner (dedupKey true true) (fetchAttrs positions normals texcoords) g c = none) ∨
    ∃ s' g' i, ReindexPNT.corner positions normals texcoords s c = some (s', i) ∧
      Dedup.corner (dedupKey true true) (fetchAttrs positions normals texcoords) g c
        = some (g', i) ∧ SimPNT s' g' := by
  obtain ⟨hc, ht, hp, hn, hx⟩ := h
  have hk : g.table { v := c.v, vn := some c.vn, vt := some c.vt }
      = ((s.indexTable.sub c.v).sub c.vn) c.vt := ht c.v c.vn c.vt
  cases hl : ((s.indexTable.sub c.v).sub c.vn) c.vt with
  | some e =>
    refine Or.inr ⟨{ s with indexTable := (s.indexTable.set c.v
        ((s.indexTable.sub c.v).set c.vn ((s.indexTable.sub c.v).sub c.vn))) },
      g, e, ?_, ?_, hc, ?_, hp, hn, hx⟩
    · simp [ReindexPNT.corner, IntMap.insert, hl]
    · simp [Dedup.corner, dedupKey, hk, hl]
    · intro v vn vt
      rw [ht v vn vt, IntMap_sub_set]
      by_cases h1 : v = c.v
      · subst h1
        rw [if_pos rfl, IntMap_sub_set]
        split
        · rename_i h2; rw [h2]
        · rfl
      · rw [if_neg h1]
  | none =>
    cases hv : vecAt positions (c.v - 1) with
    | none =>
      refine Or.inl ⟨?_, ?_⟩
      · simp [ReindexPNT.corner, IntMap.insert, hl, hv]
      · simp [Dedup.corner, hk, hl, fetchAttrs, dedupKey, hv]
    | some p =>
      cases hvn : vecAt normals (c.vn - 1) with
      | none =>
        refine Or.inl ⟨?_, ?_⟩
        · simp [ReindexPNT.corner, IntMap.insert, hl, hv, hvn]
        · simp [Dedup.corner, hk, hl, fetchAttrs, dedupKey, hv, hvn]
      | some n =>
        cases hvt : vecAt texcoords (c.vt - 1) with
        | none =>
          refine Or.inl ⟨?_, ?_⟩
          · simp [ReindexPNT.corner, IntMap.insert, hl, hv, hvn, hvt]
          · simp [Dedup.corner, hk, hl, fetchAttrs, dedupKey, hv, hvn, hvt]
        | some t =>
          refine Or.inr ⟨{ newPositions := s.newPositions ++ [p],
                           newNormals := s.newNormals ++ [n],
                           newTexcoords := s.newTexcoords ++ [t],
                           indexTable := s.indexTable.set c.v
                             ((s.indexTable.sub c.v).set c.vn
                               (((s.indexTable.sub c.v).sub c.vn).set c.vt s.index)),
                           index := s.index + 1 },
            { table := fun k => if k = dedupKey true true c then some g.counter else g.table k
              counter := g.counter + 1
              out := g.out ++ [(p, n, t)] }, s.index, ?_, ?_, ?_⟩
          · simp [ReindexPNT.corner, IntMap.insert, hl, hv, hvn, hvt]
          · simp [Dedup.corner, hk, hl, fetchAttrs, dedupKey, hv, hvn, hvt, hc]
          · refine ⟨by simp [hc], ?_, by simp [hp], by simp [hn], by simp [hx]⟩
            intro v vn vt
            simp only [dedupKey, IntMap_sub_set, DedupKey.mk.injEq, if_true, ht v vn vt, hc]
            by_cases h1 : v = c.v
            · subst h1
              by_cases h2 : vn = c.vn
              · subst h2
                simp [IntMap_set_apply, IntMap_sub_set]
              · simp [h2, IntMap_sub_set]
            · simp [h1]

/-- The overload dispatch of `load` computes what the generic reindexer computes
on the key made of the active index fields. -/
theorem reindexDispatch_eq_generic (hn ht : Bool) (positions normals : List Vec3)
    (texcoords : List TexCoord) (faces : List OBJTriangle) :
    reindexDispatch hn ht positions normals texcoords faces
      = (reindexGeneric (dedupKey hn ht) (fetchAttrs positions normals texcoords) faces).map
          fun r => (r.1.map (fun a => a.1),
            if hn then r.1.map (fun a => a.2.1) else normals,
            if ht then r.1.map (fun a => a.2.2) else texcoords, r.2) := by
  cases hn <;> cases ht
  · have h0 : SimP { newPositions := [], indexTable := IntMap.empty, index := 0 }
        { table := fun _ => none, counter := 0, out := [] } := by
      simp [SimP, IntMap.empty]
    rcases reindexLoop_sim _ _ SimP (ReindexP_corner_sim positions normals texcoords) faces
      _ _ h0 with ⟨a, b⟩ | ⟨s', g', nf, a, b, r⟩
    · simp [reindexDispatch, Reindex1, reindexGeneric, a, b]
    · simp [reindexDispatch, Reindex1, reindexGeneric, a, b, r.2.2]
  · have h0 : SimPT ⟨[], [], IntMap.empty, 0⟩
        { table := fun _ => none, counter := 0, out := [] } := by
      simp [SimPT, IntMap.empty, IntMap.sub]
    rcases reindexLoop_sim _ _ SimPT (ReindexPT_corner_sim positions normals texcoords) faces
      _ _ h0 with ⟨a, b⟩ | ⟨s', g', nf, a, b, r⟩
    · simp [reindexDispatch, Reindex2T, reindexGeneric, a, b]
    · simp [reindexDispatch, Reindex2T, reindexGeneric, a, b, r.2.2.1, r.2.2.2]
  · have h0 : SimPN ⟨[], [], IntMap.empty, 0⟩
        { table := fun _ => none, counter := 0, out := [] } := by
      simp [SimPN, IntMap.empty, IntMap.sub]
    rcases reindexLoop_sim _ _ SimPN (ReindexPN_corner_sim positions normals texcoords) faces
      _ _ h0 with ⟨a, b⟩ | ⟨s', g', nf, a, b, r⟩
    · simp [reindexDispatch, Reindex2N, reindexGeneric, a, b]
    · simp [reindexDispatch, Reindex2N, reindexGeneric, a, b, r.2.2.1, r.2.2.2]
  · have h0 : SimPNT ⟨[], [], [], IntMap.empty, 0⟩
        { table := fun _ => none, counter := 0, out := [] } := by
      simp [SimPNT, IntMap.empty, IntMap.sub]
    rcases reindexLoop_sim _ _ SimPNT (ReindexPNT_corner_sim positions normals texcoords) faces
      _ _ h0 with ⟨a, b⟩ | ⟨s', g', nf, a, b, r⟩
    · simp [reindexDispatch, Reindex3, reindexGeneric, a, b]
    · simp [reindexDispatch, Reindex3, reindexGeneric, a, b, r.2.2.1, r.2.2.2.1, r.2.2.2.2]

theorem reindexDispatch_both (positions normals : List Vec3) (texcoords : List TexCoord)
    (faces : List OBJTriangle) :
    reindexDispatch true true positions normals texcoords faces
      = Reindex3 positions normals texcoords faces := rfl

theorem reindexDispatch_position_only (positions normals : List Vec3)
    (texcoords : List TexCoord) (faces : List OBJTriangle) :
    reindexDispatch false false positions normals texcoords faces
      = (Reindex1 positions faces).map fun r => (r.1, normals, texcoords, r.2) := rfl

/-! ## What `Reindex` computes on indices in range -/

theorem vecAt_of_inRange {α : Type} (xs : List α) (i : Int) (h1 : 1 ≤ i)
    (h2 : i ≤ xs.length) : ∃ x, vecAt xs (i - 1) = some x := by
  have h0 : 0 ≤ i - 1 := by omega
  have hlt : (i - 1).toNat < xs.length := by omega
  exact ⟨xs[(i - 1).toNat], by simp [vecAt, h0, List.getElem?_eq_getElem hlt]⟩

theorem fetchAttrs_isSome (hn ht : Bool) (positions normals : List Vec3)
    (texcoords : List TexCoord) (faces : List OBJTriangle)
    (hr : IndicesInRange hn ht positions normals texcoords faces) :
    ∀ c ∈ allCorners faces,
      (fetchAttrs positions normals texcoords (dedupKey hn ht c)).isSome = true := by
  intro c hc
  simp only [allCorners, List.mem_flatMap] at hc
  obtain ⟨f, hf, hcf⟩ := hc
  obtain ⟨⟨p1, p2⟩, hN, hT⟩ := hr f hf c hcf
  obtain ⟨p, hp⟩ := vecAt_of_inRange positions c.v p1 p2
  cases hn <;> cases ht
  · simp [fetchAttrs, dedupKey, hp]
  · obtain ⟨t, ht'⟩ := vecAt_of_inRange texcoords c.vt (hT rfl).1 (hT rfl).2
    simp [fetchAttrs, dedupKey, hp, ht']
  · obtain ⟨n, hn'⟩ := vecAt_of_inRange normals c.vn (hN rfl).1 (hN rfl).2
    simp [fetchAttrs, dedupKey, hp, hn']
  · obtain ⟨n, hn'⟩ := vecAt_of_inRange normals c.vn (hN rfl).1 (hN rfl).2
    obtain ⟨t, ht'⟩ := vecAt_of_inRange texcoords c.vt (hT rfl).1 (hT rfl).2
    simp [fetchAttrs, dedupKey, hp, hn', ht']

/-- On indices in range the overload chosen by `load` returns, and its result
is determined by the distinct keys in order of first occurrence. -/
theorem reindexDispatch_spec (hn ht : Bool) (positions normals : List Vec3)
    (texcoords : List TexCoord) (faces : List OBJTriangle)
    (hr : IndicesInRange hn ht positions normals texcoords faces) :
    ∃ out : List (Vec3 × Vec3 × TexCoord),
      reindexDispatch hn ht positions normals texcoords faces
        = some (out.map (fun a => a.1),
            (if hn then out.map (fun a => a.2.1) else normals),
            (if ht then out.map (fun a => a.2.2) else texcoords),
            faces.map (denseTriangle (dedupKey hn ht) (faceKeys hn ht faces))) ∧
      out.map some = (faceKeys hn ht faces).map (fetchAttrs positions normals texcoords) := by
  obtain ⟨out, e, ho⟩ := reindexGeneric_spec (dedupKey hn ht)
    (fetchAttrs positions normals texcoords) faces (fetchAttrs_isSome hn ht _ _ _ _ hr)
  exact ⟨out, by rw [reindexDispatch_eq_generic, e]; rfl, ho⟩

/-- The attributes stored at the dense index of a key are the raw attributes
the key refers to. -/
theorem out_at_indexOf {K A : Type} [DecidableEq K] (fetch : K → Option A) (ks : List K)
    (out : List A) (ho : out.map some = ks.map fetch) (k : K) (hk : k ∈ ks) :
    ∃ a, fetch k = some a ∧ out[ks.indexOf k]? = some a := by
  have hlt : ks.indexOf k < ks.length := List.indexOf_lt_length.2 hk
  have hlen : out.length = ks.length := by
    simpa using congrArg List.length ho
  have hlt' : ks.indexOf k < out.length := hlen ▸ hlt
  refine ⟨out[ks.indexOf k], ?_, List.getElem?_eq_getElem hlt'⟩
  have h1 : (out.map some)[ks.indexOf k]? = (ks.map fetch)[ks.indexOf k]? := by rw [ho]
  simp only [List.getElem?_map, List.getElem?_eq_getElem hlt', List.getElem?_eq_getElem hlt,
    Option.map_some'] at h1
  rw [List.getElem_indexOf hlt] at h1
  exact (Option.some.inj h1).symm

theorem mem_faceKeys_of_corner (hn ht : Bool) (faces : List OBJTriangle) (f : OBJTriangle)
    (hf : f ∈ faces) (j : Fin 3) : dedupKey hn ht (f.verts j) ∈ faceKeys hn ht faces := by
  rw [faceKeys, mem_distinctInOrder]
  apply List.mem_map_of_mem
  simp only [allCorners, List.mem_flatMap]
  refine ⟨f, hf, ?_⟩
  fin_cases j <;> simp [OBJTriangle.verts, OBJTriangle.corners]

theorem denseTriangle_index {K : Type} [DecidableEq K] (key : OBJVertex → K) (ks : List K)
    (f : OBJTriangle) (j : Fin 3) :
    (denseTriangle key ks f).index j = ks.indexOf (key (f.verts j)) := by
  fin_cases j <;> rfl

theorem fetchAttrs_some (hn ht : Bool) (positions normals : List Vec3)
    (texcoords : List TexCoord) (c : OBJVertex) (a : Vec3 × Vec3 × TexCoord)
    (h : fetchAttrs positions normals texcoords (dedupKey hn ht c) = some a) :
    vecAt positions (c.v - 1) = some a.1 ∧
    (hn = true → vecAt normals (c.vn - 1) = some a.2.1) ∧
    (ht = true → vecAt texcoords (c.vt - 1) = some a.2.2) := by
  unfold fetchAttrs at h
  cases hp : vecAt positions (c.v - 1) with
  | none => simp [dedupKey, hp] at h
  | some p =>
    cases hn <;> cases ht <;>
      simp only [dedupKey, hp, Option.some_bind, Bool.false_eq_true, if_false, if_true,
        Option.map_some'] at h
    · cases h; simp
    · cases hx : vecAt texcoords (c.vt - 1) with
      | none => simp [hx] at h
      | some x => simp [hx] at h; cases h; simp
    · cases hx : vecAt normals (c.vn - 1) with
      | none => simp [hx] at h
      | some x => simp [hx] at h; cases h; simp
    · cases hx : vecAt normals (c.vn - 1) with
      | none => simp [hx] at h
      | some x =>
        cases hy : vecAt texcoords (c.vt - 1) with
        | none => simp [hx, hy] at h
        | some y => simp [hx, hy] at h; cases h; simp

theorem map_some_transfer {K A B : Type} (f : K → Option A) (g : K → Option B) (h : A → B)
    (ks : List K) (out : List A) (ho : out.map some = ks.map f)
    (hfg : ∀ k ∈ ks, ∀ a, f k = some a → g k = some (h a)) :
    (out.map h).map some = ks.map g := by
  induction ks generalizing out with
  | nil => cases out <;> simp_all
  | cons k ks ih =>
    cases out with
    | nil => simp at ho
    | cons a out =>
      simp only [List.map_cons, List.cons.injEq] at ho ⊢
      refine ⟨(hfg k (List.mem_cons_self _ _) a ho.1.symm).symm, ?_⟩
      exact ih out ho.2 (fun k' hk' => hfg k' (List.mem_cons_of_mem _ hk'))

theorem faceKeys_mem (hn ht : Bool) (faces : List OBJTriangle) (k : DedupKey)
    (hk : k ∈ faceKeys hn ht faces) : ∃ c ∈ allCorners faces, k = dedupKey hn ht c := by
  rw [faceKeys, mem_distinctInOrder, List.mem_map] at hk
  obtain ⟨c, hc, rfl⟩ := hk
  exact ⟨c, hc, rfl⟩

theorem faceKeys_length (hn ht : Bool) (faces : List OBJTriangle) :
    (faceKeys hn ht faces).length
      = ((allCorners faces).map (dedupKey hn ht)).toFinset.card := by
  unfold faceKeys
  rw [← List.toFinset_card_of_nodup (distinctInOrder_nodup _)]
  congr 1
  ext a
  simp only [List.mem_toFinset]
  exact mem_distinctInOrder _ a

/-! ## Triangulation -/

theorem foldl_set_length {α : Type} (g : Nat → α) (ks : List Nat) (l0 : List α) :
    (ks.foldl (fun l k => l.set k (g k)) l0).length = l0.length := by
  induction ks generalizing l0 with
  | nil => rfl
  | cons k ks ih => simp [List.foldl_cons, ih]

theorem foldl_set_range {α : Type} (g : Nat → α) (m : Nat) (l0 : List α) (i : Nat) :
    ((List.range m).foldl (fun l k => l.set k (g k)) l0)[i]?
      = if i < m ∧ i < l0.length then some (g i) else l0[i]? := by
  induction m with
  | zero => simp
  | succ m ih =>
    rw [List.range_succ, List.foldl_append, List.foldl_cons, List.foldl_nil, List.getElem?_set,
      foldl_set_length, ih]
    by_cases h1 : m = i
    · subst h1
      by_cases h2 : m < l0.length
      · simp [h2]
      · simp [h2]
        omega
    · by_cases h3 : i < m
      · have : i < m + 1 := by omega
        simp [h1, h3, this]
      · have : ¬ i < m + 1 := by omega
        simp [h1, h3, this]

theorem Tesselate_eq_foldl (v : List OBJVertex) (h : 3 ≤ v.length) :
    Tesselate v = (List.range (v.length - 2)).foldl
      (fun tris k => tris.set k
        { v0 := vertAt v 0, v1 := vertAt v (k + 1), v2 := vertAt v (k + 2) })
      (List.replicate (v.length - 2)
        { v0 := OBJVertex.default, v1 := OBJVertex.default, v2 := OBJVertex.default }) := by
  have hlt : ¬ v.length < 3 := by omega
  unfold Tesselate
  rw [if_neg hlt, List.range'_eq_map_range, List.foldl_map]
  congr 1
  funext tris k
  have e1 : 2 + k - 2 = k := by omega
  have e2 : 2 + k - 1 = k + 1 := by omega
  have e3 : 2 + k = k + 2 := by omega
  rw [e1, e2, e3]

theorem Tesselate_length (v : List OBJVertex) (h : 3 ≤ v.length) :
    (Tesselate v).length = v.length - 2 := by
  rw [Tesselate_eq_foldl v h, foldl_set_length, List.length_replicate]

theorem Tesselate_getElem? (v : List OBJVertex) (h : 3 ≤ v.length) (i : Nat)
    (hi : i < v.length - 2) :
    (Tesselate v)[i]?
      = some { v0 := vertAt v 0, v1 := vertAt v (i + 1), v2 := vertAt v (i + 2) } := by
  rw [Tesselate_eq_foldl v h, foldl_set_range]
  simp [hi]

theorem vertAt_eq (v : List OBJVertex) (i : Nat) (c : OBJVertex) (h : v[i]? = some c) :
    vertAt v i = c := by
  simp [vertAt, List.getD, h]

/-! ## The parse loop -/

theorem toInt32_of_range (x : Int) (h1 : -2 ^ 31 ≤ x) (h2 : x < 2 ^ 31) : toInt32 x = x := by
  unfold toInt32
  omega

theorem resolveIndex_neg (n : Nat) (k : Int) (hn : n < 2 ^ 31) (hk : -2 ^ 31 ≤ k)
    (hneg : k < 0) : resolveIndex n k = n + k + 1 := by
  unfold resolveIndex
  rw [if_pos hneg]
  apply toInt32_of_range
  · have : (0 : Int) ≤ n := Int.natCast_nonneg n
    omega
  · have : (n : Int) < 2 ^ 31 := by exact_mod_cast hn
    omega

theorem parseLines_append (lib : Library) (s : ParseState) (a b : List (List (List Char))) :
    parseLines lib s (a ++ b)
      = match parseLines lib s a with
        | .ok s' => parseLines lib s' b
        | .error e => .error e := by
  induction a generalizing s with
  | nil => rfl
  | cons l a ih =>
    simp only [List.cons_append, parseLines]
    cases parseLine lib s l with
    | ok s' => exact ih s'
    | error e => rfl

/-- An accepted `f` line appends the triangles of its vertices, resolved
against the array sizes of the state it is read in, and fixes the format. -/
theorem parseFace_ok (lib : Library) (s s' : ParseState) (tokens : List (List Char))
    (h : parseFace lib s tokens = .ok s') :
    s' = { s with faces := s.faces ++ Tesselate (faceVerts lib s tokens),
                  vertexFormat := establishedFormat s (faceVerts lib s tokens) } := by
  unfold parseFace at h
  by_cases h4 : tokens.length < 4
  · rw [if_pos h4] at h; cases h
  · rw [if_neg h4] at h
    simp only [] at h
    by_cases hp : s.vertexFormat = 0 ∧
        establishedFormat s (faceVerts lib s tokens) &&& OBJ_VFF_POSITION ≠ OBJ_VFF_POSITION
    · rw [if_pos hp] at h; cases h
    · rw [if_neg hp] at h
      by_cases hc : ((faceVerts lib s tokens).any fun c =>
          c.getFormat != establishedFormat s (faceVerts lib s tokens)) = true
      · rw [if_pos hc] at h; cases h
      · rw [if_neg hc] at h
        cases h
        rfl

/-- What one line does to the parse state when it is accepted: at most one of
the arrays grows, by one declared value or by the triangles of a face. -/
theorem parseLine_ok (lib : Library) (s s' : ParseState) (tokens : List (List Char))
    (h : parseLine lib s tokens = .ok s') :
    s'.positions.length = s.positions.length + (if declares ['v'] tokens then 1 else 0) ∧
    s'.normals.length = s.normals.length + (if declares ['v', 'n'] tokens then 1 else 0) ∧
    s'.texcoords.length = s.texcoords.length + (if declares ['v', 't'] tokens then 1 else 0) ∧
    ∃ added, s'.faces = s.faces ++ added := by
  unfold parseLine at h
  unfold declares
  by_cases hlen : tokens.length > 0
  · rw [if_pos hlen] at h
    by_cases hc : (tokenAt tokens 0).head? = some '#'
    · rw [if_pos hc] at h
      cases h
      have h1 : tokenAt tokens 0 ≠ ['v'] := by intro e; rw [e] at hc; simp at hc
      have h2 : tokenAt tokens 0 ≠ ['v', 'n'] := by intro e; rw [e] at hc; simp at hc
      have h3 : tokenAt tokens 0 ≠ ['v', 't'] := by intro e; rw [e] at hc; simp at hc
      simp [h1, h2, h3]
    · rw [if_neg hc] at h
      by_cases hv : tokenAt tokens 0 = ['v']
      · rw [if_pos hv] at h
        by_cases h4 : tokens.length < 4
        · rw [if_pos h4] at h; cases h
        · rw [if_neg h4] at h; cases h
          simp [hv, hlen]
      · rw [if_neg hv] at h
        by_cases hvn : tokenAt tokens 0 = ['v', 'n']
        · rw [if_pos hvn] at h
          by_cases h4 : tokens.length < 4
          · rw [if_pos h4] at h; cases h
          · rw [if_neg h4] at h; cases h
            simp [hvn, hlen]
        · rw [if_neg hvn] at h
          by_cases hvt : tokenAt tokens 0 = ['v', 't']
          · rw [if_pos hvt] at h
            by_cases h3 : tokens.length < 3
            · rw [if_pos h3] at h; cases h
            · rw [if_neg h3] at h; cases h
              simp [hvt, hlen]
          · rw [if_neg hvt] at h
            by_cases hf : tokenAt tokens 0 = ['f']
            · rw [if_pos hf] at h
              rw [parseFace_ok lib s s' tokens h]
              simp [hv, hvn, hvt]
            · rw [if_neg hf] at h
              cases h
              simp [hv, hvn, hvt]
  · rw [if_neg hlen] at h
    cases h
    simp [hlen]

theorem parseLines_ok (lib : Library) (lines : List (List (List Char))) (s s' : ParseState)
    (h : parseLines lib s lines = .ok s') :
    s'.positions.length = s.positions.length + lines.countP (declares ['v']) ∧
    s'.normals.length = s.normals.length + lines.countP (declares ['v', 'n']) ∧
    s'.texcoords.length = s.texcoords.length + lines.countP (declares ['v', 't']) ∧
    ∃ added, s'.faces = s.faces ++ added := by
  induction lines generalizing s with
  | nil =>
    cases h
    exact ⟨by simp, by simp, by simp, [], by simp⟩
  | cons l lines ih =>
    simp only [parseLines] at h
    cases h1 : parseLine lib s l with
    | error e => rw [h1] at h; cases h
    | ok s1 =>
      rw [h1] at h
      obtain ⟨a1, a2, a3, f1, a4⟩ := parseLine_ok lib s s1 l h1
      obtain ⟨b1, b2, b3, f2, b4⟩ := ih s1 h
      refine ⟨?_, ?_, ?_, f1 ++ f2, by rw [b4, a4, List.append_assoc]⟩
      · rw [b1, a1, List.countP_cons]; omega
      · rw [b2, a2, List.countP_cons]; omega
      · rw [b3, a3, List.countP_cons]; omega

theorem parseLine_face (lib : Library) (s : ParseState) (toks : List (List Char)) :
    parseLine lib s (['f'] :: toks) = parseFace lib s (['f'] :: toks) := by
  simp [parseLine, tokenAt]

/-! ## `ComputeTangents` -/

theorem allReads_eq_some {α : Type} (l : List (Option α)) (r : List α) :
    allReads l = some r ↔ l = r.map some := by
  induction l generalizing r with
  | nil =>
    cases r with
    | nil => simp [allReads]
    | cons a r => simp [allReads]
  | cons x l ih =>
    cases x with
    | none => cases r <;> simp [allReads]
    | some a =>
      cases hl : allReads l with
      | none =>
        cases r with
        | nil => simp [allReads, hl]
        | cons b r =>
          have := (ih r).not.1 (by rw [hl]; simp)
          simp [allReads, hl, this]
      | some r' =>
        have h1 := (ih r').1 hl
        cases r with
        | nil => simp [allReads, hl]
        | cons b r =>
          simp only [allReads, hl, Option.some_bind, Option.map_some', Option.some.injEq,
            List.cons.injEq, List.map_cons]
          constructor
          · rintro ⟨rfl, rfl⟩
            exact ⟨rfl, h1⟩
          · rintro ⟨rfl, h2⟩
            refine ⟨rfl, ?_⟩
            rw [h1] at h2
            exact List.map_injective_iff.2 (Option.some_injective α) h2

theorem allReads_isSome {α : Type} (l : List (Option α)) (h : ∀ x ∈ l, x.isSome = true) :
    ∃ r, allReads l = some r := by
  induction l with
  | nil => exact ⟨[], rfl⟩
  | cons x l ih =>
    obtain ⟨r, hr⟩ := ih (fun y hy => h y (List.mem_cons_of_mem _ hy))
    obtain ⟨a, ha⟩ := Option.isSome_iff_exists.1 (h x (List.mem_cons_self _ _))
    exact ⟨a :: r, by simp [allReads, ha, hr]⟩

theorem forEachIndex_spec {α : Type} (n : Nat) (body : Nat → Option α)
    (h : ∀ a, a < n → (body a).isSome = true) :
    ∃ r, forEachIndex n body = some r ∧ r.length = n ∧ ∀ a, a < n → r[a]? = body a := by
  obtain ⟨r, hr⟩ := allReads_isSome ((List.range n).map body) (by
    intro x hx
    rw [List.mem_map] at hx
    obtain ⟨a, ha, rfl⟩ := hx
    exact h a (List.mem_range.1 ha))
  have e := (allReads_eq_some _ r).1 hr
  have hlen : r.length = n := by
    have := congrArg List.length e
    simpa using this.symm
  refine ⟨r, hr, hlen, ?_⟩
  intro a ha
  have h1 : ((List.range n).map body)[a]? = (r.map some)[a]? := by rw [e]
  have ha' : a < r.length := hlen ▸ ha
  simp only [List.getElem?_map, List.getElem?_range ha, Option.map_some',
    List.getElem?_eq_getElem ha'] at h1
  rw [List.getElem?_eq_getElem ha']
  exact (Option.some.inj h1).symm

theorem addAt_some (acc : List Vec3) (i : Nat) (d : Vec3) (h : i < acc.length) :
    ∃ r, addAt acc i d = some r ∧ r.length = acc.length := by
  refine ⟨acc.set i ((acc[i]).add d), ?_, by simp⟩
  simp [addAt, List.getElem?_eq_getElem h]

theorem accumulateTriangle_some (positions : List Vec3) (texcoords : List TexCoord)
    (acc : List Vec3 × List Vec3) (tri : IndexTriangle)
    (hp : ∀ j : Fin 3, tri.index j < positions.length)
    (ht : positions.length ≤ texcoords.length)
    (h1 : acc.1.length = positions.length) (h2 : acc.2.length = positions.length) :
    ∃ r, accumulateTriangle positions texcoords acc tri = some r ∧
      r.1.length = positions.length ∧ r.2.length = positions.length := by
  have p0 := hp 0
  have p1 := hp 1
  have p2 := hp 2
  obtain ⟨v1, hv1⟩ : ∃ v, positions[tri.index 0]? = some v :=
    ⟨_, List.getElem?_eq_getElem p0⟩
  obtain ⟨v2, hv2⟩ : ∃ v, positions[tri.index 1]? = some v :=
    ⟨_, List.getElem?_eq_getElem p1⟩
  obtain ⟨v3, hv3⟩ : ∃ v, positions[tri.index 2]? = some v :=
    ⟨_, List.getElem?_eq_getElem p2⟩
  obtain ⟨w1, hw1⟩ : ∃ w, texcoords[tri.index 0]? = some w :=
    ⟨_, List.getElem?_eq_getElem (by omega)⟩
  obtain ⟨w2, hw2⟩ : ∃ w, texcoords[tri.index 1]? = some w :=
    ⟨_, List.getElem?_eq_getElem (by omega)⟩
  obtain ⟨w3, hw3⟩ : ∃ w, texcoords[tri.index 2]? = some w :=
    ⟨_, List.getElem?_eq_getElem (by omega)⟩
  obtain ⟨a1, ea1, la1⟩ := addAt_some acc.1 (tri.index 0)
    (triangleSdir v1 v2 v3 w1 w2 w3) (by omega)
  obtain ⟨a2, ea2, la2⟩ := addAt_some a1 (tri.index 1)
    (triangleSdir v1 v2 v3 w1 w2 w3) (by omega)
  obtain ⟨a3, ea3, la3⟩ := addAt_some a2 (tri.index 2)
    (triangleSdir v1 v2 v3 w1 w2 w3) (by omega)
  obtain ⟨b1, eb1, lb1⟩ := addAt_some acc.2 (tri.index 0)
    (triangleTdir v1 v2 v3 w1 w2 w3) (by omega)
  obtain ⟨b2, eb2, lb2⟩ := addAt_some b1 (tri.index 1)
    (triangleTdir v1 v2 v3 w1 w2 w3) (by omega)
  obtain ⟨b3, eb3, lb3⟩ := addAt_some b2 (tri.index 2)
    (triangleTdir v1 v2 v3 w1 w2 w3) (by omega)
  refine ⟨(a3, b3), ?_, by simp only; omega, by simp only; omega⟩
  simp only [accumulateTriangle, hv1, hv2, hv3, hw1, hw2, hw3, Option.some_bind, ea1, ea2, ea3,
    eb1, eb2, eb3, Option.map_some']

theorem accumulateTangents_some (positions : List Vec3) (texcoords : List TexCoord)
    (triangles : List IndexTriangle) (acc : List Vec3 × List Vec3)
    (hp : ∀ t ∈ triangles, ∀ j : Fin 3, t.index j < positions.length)
    (ht : positions.length ≤ texcoords.length)
    (h1 : acc.1.length = positions.length) (h2 : acc.2.length = positions.length) :
    ∃ r, accumulateTangents positions texcoords acc triangles = some r ∧
      r.1.length = positions.length ∧ r.2.length = positions.length := by
  induction triangles generalizing acc with
  | nil => exact ⟨acc, rfl, h1, h2⟩
  | cons t ts ih =>
    obtain ⟨r1, e1, l1, l2⟩ := accumulateTriangle_some positions texcoords acc t
      (hp t (List.mem_cons_self _ _)) ht h1 h2
    obtain ⟨r, e, l⟩ := ih r1 (fun t' ht' => hp t' (List.mem_cons_of_mem _ ht')) l1 l2
    exact ⟨r, by simp [accumulateTangents, e1, e], l⟩

/-- On valid input `ComputeTangents` returns one tangent per vertex, each the
result of the second loop body on the vertex normal and its accumulators. -/
theorem ComputeTangents_spec (lib : Library) (positions normals : List Vec3)
    (texcoords : List TexCoord) (triangles : List IndexTriangle)
    (hidx : ∀ t ∈ triangles, ∀ j : Fin 3, t.index j < positions.length)
    (hn : positions.length ≤ normals.length) (ht : positions.length ≤ texcoords.length) :
    ∃ tan1 tan2 tangents,
      accumulateTangents positions texcoords
          (List.replicate positions.length ⟨0, 0, 0⟩, List.replicate positions.length ⟨0, 0, 0⟩)
          triangles = some (tan1, tan2) ∧
      ComputeTangents lib positions normals texcoords triangles = some tangents ∧
      tangents.length = positions.length ∧
      ∀ a, a < positions.length → ∃ n t b,
        normals[a]? = some n ∧ tan1[a]? = some t ∧ tan2[a]? = some b ∧
        tangents[a]? = some (vertexTangent lib n t b) := by
  obtain ⟨acc, eacc, l1, l2⟩ := accumulateTangents_some positions texcoords triangles
    (List.replicate positions.length ⟨0, 0, 0⟩, List.replicate positions.length ⟨0, 0, 0⟩)
    hidx ht (by simp) (by simp)
  have hbody : ∀ a, a < positions.length →
      (normals[a]?.bind fun n => acc.1[a]?.bind fun t => acc.2[a]?.map fun b =>
        vertexTangent lib n t b).isSome = true := by
    intro a ha
    rw [List.getElem?_eq_getElem (show a < normals.length by omega),
      List.getElem?_eq_getElem (show a < acc.1.length by omega),
      List.getElem?_eq_getElem (show a < acc.2.length by omega)]
    rfl
  obtain ⟨tangents, et, lt, ht'⟩ := forEachIndex_spec positions.length _ hbody
  refine ⟨acc.1, acc.2, tangents, eacc, ?_, lt, ?_⟩
  · simp only [ComputeTangents, eacc, Option.some_bind]
    exact et
  · intro a ha
    have hna : a < normals.length := by omega
    have h1a : a < acc.1.length := by omega
    have h2a : a < acc.2.length := by omega
    refine ⟨normals[a], acc.1[a], acc.2[a], List.getElem?_eq_getElem hna,
      List.getElem?_eq_getElem h1a, List.getElem?_eq_getElem h2a, ?_⟩
    rw [ht' a ha, List.getElem?_eq_getElem hna, List.getElem?_eq_getElem h1a,
      List.getElem?_eq_getElem h2a]
    rfl

theorem gramSchmidt_dot (n t : Vec3) :
    n.dot (t.sub (n.scale (n.dot t))) = n.dot t * (1 - n.dot n) := by
  simp only [Vec3.dot, Vec3.sub, Vec3.scale]
  ring

theorem dot_scale (n v : Vec3) (k : GLfloat) : n.dot (v.scale k) = n.dot v * k := by
  simp only [Vec3.dot, Vec3.scale]
  ring

/-! ## What a successful `load` leaves behind -/

theorem load_loaded_inv (lib : Library) (gl : GLNames) (file : Option FileContents)
    (sct : Bool) (m : OBJMesh) (r : Loaded) (h : load lib gl file sct m = .loaded r) :
    ∃ contents s, file = some contents ∧
      parseLines lib ParseState.init contents.lines = .ok s ∧
      contents.readFails = false ∧ finishLoad lib gl sct m s = .loaded r := by
  unfold load at h
  cases file with
  | none => cases h
  | some contents =>
    simp only [] at h
    cases hp : parseLines lib ParseState.init contents.lines with
    | error e => rw [hp] at h; cases h
    | ok s =>
      rw [hp] at h
      simp only [] at h
      cases hr : contents.readFails with
      | true => rw [hr] at h; simp at h
      | false =>
        rw [hr] at h
        exact ⟨contents, s, rfl, hp, hr, by simpa using h⟩

theorem finishLoad_loaded_inv (lib : Library) (gl : GLNames) (sct : Bool) (m : OBJMesh)
    (s : ParseState) (r : Loaded) (h : finishLoad lib gl sct m s = .loaded r) :
    r.haveNormals = inferFlag (s.vertexFormat &&& OBJ_VFF_NORMAL == OBJ_VFF_NORMAL)
      s.normals.length s.positions.length ∧
    r.haveTexCoords = inferFlag (s.vertexFormat &&& OBJ_VFF_TEXCOORD == OBJ_VFF_TEXCOORD)
      s.texcoords.length s.positions.length ∧
    reindexDispatch r.haveNormals r.haveTexCoords s.positions s.normals s.texcoords
      (inferTexCoords (s.vertexFormat &&& OBJ_VFF_TEXCOORD == OBJ_VFF_TEXCOORD)
        s.texcoords.length s.positions.length
        (inferNormals (s.vertexFormat &&& OBJ_VFF_NORMAL == OBJ_VFF_NORMAL)
          s.normals.length s.positions.length s.faces))
      = some (r.positions, r.normals, r.texcoords, r.newFaces) ∧
    (if (computeLayout r.haveNormals r.haveTexCoords sct m).2.2 then
        ComputeTangents lib r.positions r.normals r.texcoords r.newFaces
      else some []) = some r.tangents ∧
    buildVertexData r.haveNormals r.haveTexCoords
      (computeLayout r.haveNormals r.haveTexCoords sct m).2.2
      r.positions r.normals r.texcoords r.tangents r.positions.length = some r.vertexData ∧
    r.mesh = { (computeLayout r.haveNormals r.haveTexCoords sct m).1 with
      mNumVertices := r.positions.length, mNumIndices := 3 * r.newFaces.length,
      mVAO := gl.vao, mVBO := gl.vbo, mIBO := gl.ibo } ∧
    gl.vao ≠ 0 := by
  unfold finishLoad at h
  simp only [] at h
  split at h
  · cases h
  · rename_i positions normals texcoords newFaces hre
    split at h
    · cases h
    · rename_i tangents htan
      split at h
      · cases h
      · rename_i vertexData hbuild
        split at h
        · cases h
        · rename_i hvao
          split at h
          · cases h
          · split at h
            · cases h
            · cases h
              exact ⟨rfl, rfl, hre, htan, hbuild, rfl, hvao⟩

theorem finishLoad_loaded_nonempty (lib : Library) (gl : GLNames) (sct : Bool) (m : OBJMesh)
    (s : ParseState) (r : Loaded) (h : finishLoad lib gl sct m s = .loaded r) :
    r.vertexData ≠ [] ∧ r.newFaces ≠ [] := by
  unfold finishLoad at h
  simp only [] at h
  split at h
  · cases h
  · split at h
    · cases h
    · split at h
      · cases h
      · split at h
        · cases h
        · split at h
          · cases h
          · rename_i x hx
            split at h
            · cases h
            · rename_i y hy
              cases h
              refine ⟨?_, ?_⟩
              · intro e; simp only at e; rw [e] at hx; cases hx
              · intro e; simp only at e; rw [e] at hy; cases hy

theorem computeLayout_tangent_flag (hN hT sct : Bool) (m : OBJMesh) :
    (computeLayout hN hT sct m).2.2 = (sct && hN && hT) := by
  cases hN <;> cases hT <;> cases sct <;> rfl

theorem computeLayout_no_tangent (hN hT sct : Bool) (m : OBJMesh)
    (h : (sct && hN && hT) = false) :
    (computeLayout hN hT sct m).1.mTangentSize = m.mTangentSize ∧
    (computeLayout hN hT sct m).1.mTangentlOffset = m.mTangentlOffset ∧
    (computeLayout hN hT sct m).1.mStride
      = 4 * (3 + (if hN then 3 else 0) + (if hT then 2 else 0)) := by
  cases hN <;> cases hT <;> cases sct <;> simp_all [computeLayout, sizeofGLfloat]

theorem computeLayout_with_tangent (hN hT sct : Bool) (m : OBJMesh)
    (h : (sct && hN && hT) = true) :
    (computeLayout hN hT sct m).1.mTangentSize = 4 ∧
    (computeLayout hN hT sct m).1.mTangentlOffset = 32 ∧
    (computeLayout hN hT sct m).1.mStride = 48 := by
  cases hN <;> cases hT <;> cases sct <;> simp_all [computeLayout, sizeofGLfloat]

theorem inferFlag_eq (present : Bool) (count numPositions : Nat) :
    inferFlag present count numPositions
      = (present || (!present && count == numPositions)) := by
  unfold inferFlag
  cases present <;> cases (count == numPositions) <;> rfl

theorem infer_faces_eq (hN0 hT0 : Bool) (nn nt np : Nat) (faces : List OBJTriangle) :
    inferTexCoords hT0 nt np (inferNormals hN0 nn np faces)
      = faces.map fun f =>
          { v0 := { v := f.v0.v
                    vn := if (!hN0 && nn == np) then f.v0.v else f.v0.vn
                    vt := if (!hT0 && nt == np) then f.v0.v else f.v0.vt }
            v1 := { v := f.v1.v
                    vn := if (!hN0 && nn == np) then f.v1.v else f.v1.vn
                    vt := if (!hT0 && nt == np) then f.v1.v else f.v1.vt }
            v2 := { v := f.v2.v
                    vn := if (!hN0 && nn == np) then f.v2.v else f.v2.vn
                    vt := if (!hT0 && nt == np) then f.v2.v else f.v2.vt } } := by
  unfold inferTexCoords inferNormals
  cases h1 : (!hN0 && nn == np) <;> cases h2 : (!hT0 && nt == np) <;>
    simp [List.map_map, Function.comp_def]

theorem parseFace_error_kind (lib : Library) (s : ParseState) (tokens : List (List Char))
    (e : LoadError) (h : parseFace lib s tokens = .error e) :
    e = .faceElements ∨ e = .invalidFormat ∨ e = .inconsistentFormat := by
  unfold parseFace at h
  by_cases h4 : tokens.length < 4
  · rw [if_pos h4] at h; cases h; exact Or.inl rfl
  · rw [if_neg h4] at h
    simp only [] at h
    by_cases hp : s.vertexFormat = 0 ∧
        establishedFormat s (faceVerts lib s tokens) &&& OBJ_VFF_POSITION ≠ OBJ_VFF_POSITION
    · rw [if_pos hp] at h; cases h; exact Or.inr (Or.inl rfl)
    · rw [if_neg hp] at h
      by_cases hc : ((faceVerts lib s tokens).any fun c =>
          c.getFormat != establishedFormat s (faceVerts lib s tokens)) = true
      · rw [if_pos hc] at h; cases h; exact Or.inr (Or.inr rfl)
      · rw [if_neg hc] at h; cases h

theorem parseLine_error_kind (lib : Library) (s : ParseState) (tokens : List (List Char))
    (e : LoadError) (h : parseLine lib s tokens = .error e) :
    e ∈ [LoadError.positionComponents, LoadError.normalComponents,
      LoadError.texcoordComponents, LoadError.faceElements, LoadError.invalidFormat,
      LoadError.inconsistentFormat] := by
  unfold parseLine at h
  by_cases hlen : tokens.length > 0
  · rw [if_pos hlen] at h
    by_cases hc : (tokenAt tokens 0).head? = some '#'
    · rw [if_pos hc] at h; cases h
    · rw [if_neg hc] at h
      by_cases hv : tokenAt tokens 0 = ['v']
      · rw [if_pos hv] at h
        by_cases h4 : tokens.length < 4
        · rw [if_pos h4] at h; cases h; simp
        · rw [if_neg h4] at h; cases h
      · rw [if_neg hv] at h
        by_cases hvn : tokenAt tokens 0 = ['v', 'n']
        · rw [if_pos hvn] at h
          by_cases h4 : tokens.length < 4
          · rw [if_pos h4] at h; cases h; simp
          · rw [if_neg h4] at h; cases h
        · rw [if_neg hvn] at h
          by_cases hvt : tokenAt tokens 0 = ['v', 't']
          · rw [if_pos hvt] at h
            by_cases h3 : tokens.length < 3
            · rw [if_pos h3] at h; cases h; simp
            · rw [if_neg h3] at h; cases h
          · rw [if_neg hvt] at h
            by_cases hf : tokenAt tokens 0 = ['f']
            · rw [if_pos hf] at h
              rcases parseFace_error_kind lib s tokens e h with rfl | rfl | rfl <;> simp
            · rw [if_neg hf] at h; cases h
  · rw [if_neg hlen] at h; cases h

theorem parseLines_error_kind (lib : Library) (lines : List (List (List Char)))
    (s : ParseState) (e : LoadError) (h : parseLines lib s lines = .error e) :
    e ∈ [LoadError.positionComponents, LoadError.normalComponents,
      LoadError.texcoordComponents, LoadError.faceElements, LoadError.invalidFormat,
      LoadError.inconsistentFormat] := by
  induction lines generalizing s with
  | nil => cases h
  | cons l lines ih =>
    simp only [parseLines] at h
    cases h1 : parseLine lib s l with
    | error e1 =>
      rw [h1] at h
      cases h
      exact parseLine_error_kind lib s l e h1
    | ok s1 =>
      rw [h1] at h
      exact ih s1 h

theorem finishLoad_failed_inv (lib : Library) (gl : GLNames) (sct : Bool) (m : OBJMesh)
    (s : ParseState) (e : LoadError) (mesh : OBJMesh)
    (h : finishLoad lib gl sct m s = .failed e mesh) : e = .vaoFailed := by
  unfold finishLoad at h
  simp only [] at h
  split at h
  · cases h
  · split at h
    · cases h
    · split at h
      · cases h
      · split at h
        · cases h; rfl
        · split at h
          · cases h
          · split at h <;> cases h

theorem load_failed_inv (lib : Library) (gl : GLNames) (file : Option FileContents)
    (sct : Bool) (m : OBJMesh) (e : LoadError) (mesh : OBJMesh)
    (h : load lib gl file sct m = .failed e mesh) : e = .vaoFailed ∨ mesh = m := by
  unfold load at h
  cases file with
  | none => cases h; exact Or.inr rfl
  | some contents =>
    simp only [] at h
    cases hp : parseLines lib ParseState.init contents.lines with
    | error e1 => rw [hp] at h; cases h; exact Or.inr rfl
    | ok s =>
      rw [hp] at h
      simp only [] at h
      cases hr : contents.readFails with
      | true => rw [hr] at h; simp at h; exact Or.inr h.2.symm
      | false =>
        rw [hr] at h
        exact Or.inl (finishLoad_failed_inv lib gl sct m s e mesh (by simpa using h))

/-- A line that is rejected in every parse state makes the parse loop fail, with
the error of that line when the lines before it are accepted. -/
theorem parseLines_rejected_line (lib : Library) (l : List (List Char)) (e0 : LoadError)
    (hl : ∀ s, parseLine lib s l = .error e0) (pre post : List (List (List Char)))
    (s0 : ParseState) :
    ∃ e, parseLines lib s0 (pre ++ l :: post) = .error e ∧
      ∀ sPre, parseLines lib s0 pre = .ok sPre → e = e0 := by
  rw [parseLines_append]
  cases hpre : parseLines lib s0 pre with
  | error e => exact ⟨e, rfl, fun sPre h => by cases h⟩
  | ok sPre =>
    refine ⟨e0, ?_, fun _ _ => rfl⟩
    simp only [parseLines, hl sPre]

theorem parseLine_short_position (lib : Library) (s : ParseState) (toks : List (List Char))
    (h : toks.length < 3) : parseLine lib s (['v'] :: toks) = .error .positionComponents := by
  have h4 : (['v'] :: toks).length < 4 := by simp; omega
  simp [parseLine, tokenAt, h]

theorem parseLine_position (lib : Library) (s : ParseState) (toks : List (List Char))
    (h : 3 ≤ toks.length) :
    parseLine lib s (['v'] :: toks)
      = .ok { s with positions := s.positions ++
          [⟨lib.fromStringFloat (toks.getD 0 []), lib.fromStringFloat (toks.getD 1 []),
            lib.fromStringFloat (toks.getD 2 [])⟩] } := by
  simp [parseLine, tokenAt, h]

theorem parseLine_short_face (lib : Library) (s : ParseState) (toks : List (List Char))
    (h : toks.length < 3) : parseLine lib s (['f'] :: toks) = .error .faceElements := by
  have h4 : (['f'] :: toks).length < 4 := by simp; omega
  rw [parseLine_face, parseFace, if_pos h4]

theorem load_parse_error (lib : Library) (gl : GLNames) (contents : FileContents)
    (sct : Bool) (m : OBJMesh) (e : LoadError)
    (h : parseLines lib ParseState.init contents.lines = .error e) :
    load lib gl (some contents) sct m = .failed e m := by
  simp [load, h]

/-! ## The format invariant -/

theorem mem_Tesselate_corners (v : List OBJVertex) (f : OBJTriangle) (hf : f ∈ Tesselate v)
    (c : OBJVertex) (hc : c ∈ f.corners) : c ∈ v := by
  by_cases h3 : 3 ≤ v.length
  · obtain ⟨i, hi⟩ := List.mem_iff_getElem?.1 hf
    have hlt : i < (Tesselate v).length := by
      by_contra hge
      rw [List.getElem?_eq_none (by omega)] at hi
      cases hi
    rw [Tesselate_length v h3] at hlt
    rw [Tesselate_getElem? v h3 i hlt] at hi
    cases hi
    have hv : ∀ k, k < v.length → vertAt v k ∈ v := by
      intro k hk
      have : vertAt v k = v[k] := by simp [vertAt, List.getD, List.getElem?_eq_getElem hk]
      rw [this]
      exact List.getElem_mem hk
    simp only [OBJTriangle.corners, List.mem_cons, List.mem_singleton, List.not_mem_nil,
      or_false] at hc
    rcases hc with rfl | rfl | rfl
    · exact hv 0 (by omega)
    · exact hv (i + 1) (by omega)
    · exact hv (i + 2) (by omega)
  · have : v.length < 3 := by omega
    simp [Tesselate, this] at hf

theorem parseFace_ok_checks (lib : Library) (s s' : ParseState) (tokens : List (List Char))
    (h : parseFace lib s tokens = .ok s') :
    (s.vertexFormat = 0 →
      establishedFormat s (faceVerts lib s tokens) &&& OBJ_VFF_POSITION = OBJ_VFF_POSITION) ∧
    (∀ c ∈ faceVerts lib s tokens,
      c.getFormat = establishedFormat s (faceVerts lib s tokens)) := by
  unfold parseFace at h
  by_cases h4 : tokens.length < 4
  · rw [if_pos h4] at h; cases h
  · rw [if_neg h4] at h
    simp only [] at h
    by_cases hp : s.vertexFormat = 0 ∧
        establishedFormat s (faceVerts lib s tokens) &&& OBJ_VFF_POSITION ≠ OBJ_VFF_POSITION
    · rw [if_pos hp] at h; cases h
    · rw [if_neg hp] at h
      by_cases hc : ((faceVerts lib s tokens).any fun c =>
          c.getFormat != establishedFormat s (faceVerts lib s tokens)) = true
      · rw [if_pos hc] at h; cases h
      · constructor
        · intro h0
          by_contra hne
          exact hp ⟨h0, hne⟩
        · intro c hcm
          by_contra hne
          apply hc
          rw [List.any_eq_true]
          exact ⟨c, hcm, by simpa using hne⟩

theorem parseFace_inv (lib : Library) (s s' : ParseState) (tokens : List (List Char))
    (h : parseFace lib s tokens = .ok s') (hinv : FormatInv s) :
    FormatInv s' ∧ s'.vertexFormat ≠ 0 ∧ (s.vertexFormat ≠ 0 → s'.vertexFormat = s.vertexFormat) := by
  obtain ⟨hpos, hall⟩ := parseFace_ok_checks lib s s' tokens h
  have hs := parseFace_ok lib s s' tokens h
  obtain ⟨i1, i2, i3⟩ := hinv
  subst hs
  by_cases h0 : s.vertexFormat = 0
  · have hF := hpos h0
    have hne : establishedFormat s (faceVerts lib s tokens) ≠ 0 := by
      intro e
      rw [e] at hF
      simp [OBJ_VFF_POSITION] at hF
    refine ⟨⟨fun e => absurd e hne, fun _ => hF, ?_⟩, hne, fun h => absurd h0 h⟩
    intro f hf c hc
    simp only [i1 h0, List.nil_append] at hf
    exact hall c (mem_Tesselate_corners _ f hf c hc)
  · have hF : establishedFormat s (faceVerts lib s tokens) = s.vertexFormat := by
      simp [establishedFormat, h0]
    refine ⟨⟨fun e => ?_, fun _ => ?_, ?_⟩, ?_, fun _ => hF⟩
    · exact absurd (hF ▸ e) h0
    · simp only [hF]; exact i2 h0
    · intro f hf c hc
      simp only [List.mem_append] at hf
      rcases hf with hf | hf
      · simp only [hF]; exact i3 f hf c hc
      · exact hall c (mem_Tesselate_corners _ f hf c hc)
    · simp only [hF]; exact h0

theorem parseLine_face_or_same (lib : Library) (s s' : ParseState) (tokens : List (List Char))
    (h : parseLine lib s tokens = .ok s') :
    (s'.faces = s.faces ∧ s'.vertexFormat = s.vertexFormat) ∨ parseFace lib s tokens = .ok s' := by
  unfold parseLine at h
  by_cases hlen : tokens.length > 0
  · rw [if_pos hlen] at h
    by_cases hc : (tokenAt tokens 0).head? = some '#'
    · rw [if_pos hc] at h; cases h; exact Or.inl ⟨rfl, rfl⟩
    · rw [if_neg hc] at h
      by_cases hv : tokenAt tokens 0 = ['v']
      · rw [if_pos hv] at h
        by_cases h4 : tokens.length < 4
        · rw [if_pos h4] at h; cases h
        · rw [if_neg h4] at h; cases h; exact Or.inl ⟨rfl, rfl⟩
      · rw [if_neg hv] at h
        by_cases hvn : tokenAt tokens 0 = ['v', 'n']
        · rw [if_pos hvn] at h
          by_cases h4 : tokens.length < 4
          · rw [if_pos h4] at h; cases h
          · rw [if_neg h4] at h; cases h; exact Or.inl ⟨rfl, rfl⟩
        · rw [if_neg hvn] at h
          by_cases hvt : tokenAt tokens 0 = ['v', 't']
          · rw [if_pos hvt] at h
            by_cases h3 : tokens.length < 3
            · rw [if_pos h3] at h; cases h
            · rw [if_neg h3] at h; cases h; exact Or.inl ⟨rfl, rfl⟩
          · rw [if_neg hvt] at h
            by_cases hf : tokenAt tokens 0 = ['f']
            · rw [if_pos hf] at h; exact Or.inr h
            · rw [if_neg hf] at h; cases h; exact Or.inl ⟨rfl, rfl⟩
  · rw [if_neg hlen] at h; cases h; exact Or.inl ⟨rfl, rfl⟩

theorem parseLine_inv (lib : Library) (s s' : ParseState) (tokens : List (List Char))
    (h : parseLine lib s tokens = .ok s') (hinv : FormatInv s) :
    FormatInv s' ∧ (s.vertexFormat ≠ 0 → s'.vertexFormat = s.vertexFormat) := by
  rcases parseLine_face_or_same lib s s' tokens h with ⟨hf, hv⟩ | hface
  · refine ⟨?_, fun _ => hv⟩
    unfold FormatInv
    rw [hf, hv]
    exact hinv
  · obtain ⟨a, _, c⟩ := parseFace_inv lib s s' tokens hface hinv
    exact ⟨a, c⟩

theorem parseLines_inv (lib : Library) (lines : List (List (List Char))) (s s' : ParseState)
    (h : parseLines lib s lines = .ok s') (hinv : FormatInv s) :
    FormatInv s' ∧ (s.vertexFormat ≠ 0 → s'.vertexFormat = s.vertexFormat) := by
  induction lines generalizing s with
  | nil => cases h; exact ⟨hinv, fun _ => rfl⟩
  | cons l lines ih =>
    simp only [parseLines] at h
    cases h1 : parseLine lib s l with
    | error e => rw [h1] at h; cases h
    | ok s1 =>
      rw [h1] at h
      obtain ⟨a1, b1⟩ := parseLine_inv lib s s1 l h1 hinv
      obtain ⟨a2, b2⟩ := ih s1 h a1
      refine ⟨a2, fun h0 => ?_⟩
      have e1 := b1 h0
      rw [b2 (e1 ▸ h0), e1]

theorem FormatInv_init : FormatInv ParseState.init := by
  simp [FormatInv, ParseState.init]

/-! ## Face-vertex tokens -/

theorem findFirstOf_absent (str : List Char) (c : Char) (h : c ∉ str) :
    findFirstOf str c 0 = none := by
  have : ¬ List.indexOf c str < str.length := by
    rw [List.indexOf_lt_length]; exact h
  simp [findFirstOf, this]

theorem findFirstOf_first (a rest : List Char) (c : Char) (h : c ∉ a) :
    findFirstOf (a ++ c :: rest) c 0 = some a.length := by
  have hidx : List.indexOf c (a ++ c :: rest) = a.length := by
    rw [List.indexOf_append_of_not_mem h, List.indexOf_cons_self]; rfl
  simp [findFirstOf, hidx]

theorem findFirstOf_after (a rest : List Char) (c : Char) :
    findFirstOf (a ++ c :: rest) c (a.length + 1)
      = (findFirstOf rest c 0).map fun i => a.length + 1 + i := by
  have hdrop : (a ++ c :: rest).drop (a.length + 1) = rest := by
    rw [List.drop_append_eq_append_drop]
    simp
  simp only [findFirstOf, hdrop, List.drop_zero]
  split <;> simp

theorem substr_left (a rest : List Char) : substr (a ++ rest) 0 a.length = a := by
  simp [substr]

theorem substr_middle (a b rest : List Char) (c : Char) :
    substr (a ++ c :: (b ++ rest)) (a.length + 1) b.length = b := by
  have hdrop : (a ++ c :: (b ++ rest)).drop (a.length + 1) = b ++ rest := by
    rw [List.drop_append_eq_append_drop]
    simp
  simp [substr, hdrop]

/-- A token without a slash is a position index. -/
theorem ofString_plain (lib : Library) (a : List Char) (ha : '/' ∉ a) :
    OBJVertex.ofString lib a = { v := lib.fromStringInt a, vn := -1, vt := -1 } := by
  simp [OBJVertex.ofString, findFirstOf_absent a '/' ha]

/-- A token with one slash holds a position and a texcoord index; an empty
field leaves the corresponding index at `-1`. -/
theorem ofString_one_slash (lib : Library) (a b : List Char) (ha : '/' ∉ a) (hb : '/' ∉ b) :
    OBJVertex.ofString lib (a ++ '/' :: b)
      = { v := if a ≠ [] then lib.fromStringInt a else -1
          vn := -1
          vt := if b ≠ [] then lib.fromStringInt b else -1 } := by
  have hp := findFirstOf_first a b '/' ha
  have hq : findFirstOf (a ++ '/' :: b) '/' (a.length + 1) = none := by
    rw [findFirstOf_after, findFirstOf_absent b '/' hb]; rfl
  have hsa : substr (a ++ '/' :: b) 0 a.length = a := substr_left a _
  have hsb : substr (a ++ '/' :: b) (a.length + 1) ((a ++ '/' :: b).length - a.length - 1) = b := by
    have := substr_middle a b [] '/'
    simp only [List.append_nil] at this
    have hlen : (a ++ '/' :: b).length - a.length - 1 = b.length := by
      simp only [List.length_append, List.length_cons]
      omega
    rw [hlen]
    exact this
  simp only [OBJVertex.ofString, hp, hq, hsa, hsb]
  have h1 : (a.length > 0) ↔ a ≠ [] := by
    rw [gt_iff_lt, List.length_pos]
  have h2 : (a.length < (a ++ '/' :: b).length - 1) ↔ b ≠ [] := by
    rw [← List.length_pos]
    simp only [List.length_append, List.length_cons]
    constructor <;> intro h <;> omega
  simp only [h1, h2]

/-- A token with two slashes holds a position, a texcoord and a normal index;
an empty field leaves the corresponding index at `-1`. -/
theorem ofString_two_slashes (lib : Library) (a b c : List Char) (ha : '/' ∉ a)
    (hb : '/' ∉ b) :
    OBJVertex.ofString lib (a ++ '/' :: (b ++ '/' :: c))
      = { v := if a ≠ [] then lib.fromStringInt a else -1
          vn := if c ≠ [] then lib.fromStringInt c else -1
          vt := if b ≠ [] then lib.fromStringInt b else -1 } := by
  have hp := findFirstOf_first a (b ++ '/' :: c) '/' ha
  have hq : findFirstOf (a ++ '/' :: (b ++ '/' :: c)) '/' (a.length + 1)
      = some (a.length + 1 + b.length) := by
    rw [findFirstOf_after, findFirstOf_first b c '/' hb]; rfl
  have hsa : substr (a ++ '/' :: (b ++ '/' :: c)) 0 a.length = a := substr_left a _
  have hsb : substr (a ++ '/' :: (b ++ '/' :: c)) (a.length + 1)
      (a.length + 1 + b.length - a.length - 1) = b := by
    have := substr_middle a b ('/' :: c) '/'
    have hlen : a.length + 1 + b.length - a.length - 1 = b.length := by omega
    rw [hlen]
    exact this
  have hsc : substr (a ++ '/' :: (b ++ '/' :: c)) (a.length + 1 + b.length + 1)
      ((a ++ '/' :: (b ++ '/' :: c)).length - (a.length + 1 + b.length) - 1) = c := by
    have e : a ++ '/' :: (b ++ '/' :: c) = (a ++ '/' :: b) ++ '/' :: (c ++ []) := by simp
    have hl : (a ++ '/' :: b).length = a.length + 1 + b.length := by
      simp only [List.length_append, List.length_cons]
      omega
    have := substr_middle (a ++ '/' :: b) c [] '/'
    rw [hl, ← e] at this
    have hlen : (a ++ '/' :: (b ++ '/' :: c)).length - (a.length + 1 + b.length) - 1
        = c.length := by
      simp only [List.length_append, List.length_cons]
      omega
    rw [hlen]
    exact this
  simp only [OBJVertex.ofString, hp, hq, hsa, hsb, hsc]
  have h1 : (a.length > 0) ↔ a ≠ [] := by
    rw [gt_iff_lt, List.length_pos]
  have h2 : (a.length + 1 + b.length > a.length + 1) ↔ b ≠ [] := by
    rw [← List.length_pos]
    constructor <;> intro h <;> omega
  have h3 : (a.length + 1 + b.length < (a ++ '/' :: (b ++ '/' :: c)).length - 1) ↔ c ≠ [] := by
    rw [← List.length_pos]
    simp only [List.length_append, List.length_cons]
    constructor <;> intro h <;> omega
  simp only [h1, h2, h3]

theorem digitChar_facts (d : Nat) (h : d < 10) :
    digitChar d ≠ '/' ∧ digitChar d ≠ '-' ∧ (digitChar d).toNat - '0'.toNat = d := by
  interval_cases d <;> decide

theorem digitsValue_append (cs : List Char) (c : Char) :
    digitsValue (cs ++ [c]) = 10 * digitsValue cs + (c.toNat - '0'.toNat) := by
  simp [digitsValue, List.foldl_append]

theorem digitsValue_digits (ds : List Nat) (h : ∀ d ∈ ds, d < 10) :
    digitsValue (ds.reverse.map digitChar) = Nat.ofDigits 10 ds := by
  induction ds with
  | nil => rfl
  | cons d ds ih =>
    rw [List.reverse_cons, List.map_append, List.map_cons, List.map_nil, digitsValue_append,
      ih (fun x hx => h x (List.mem_cons_of_mem _ hx)),
      (digitChar_facts d (h d (List.mem_cons_self _ _))).2.2, Nat.ofDigits_cons]
    omega

theorem digitsValue_decimalNat (n : Nat) : digitsValue (decimalNat n) = n := by
  unfold decimalNat
  split
  · rename_i h; subst h; rfl
  · rw [digitsValue_digits _ (fun d hd => Nat.digits_lt_base (by decide) hd),
      Nat.ofDigits_digits]

theorem decimalNat_chars (n : Nat) : ∀ c ∈ decimalNat n, c ≠ '/' ∧ c ≠ '-' := by
  intro c hc
  unfold decimalNat at hc
  split at hc
  · simp at hc; subst hc; decide
  · rw [List.mem_map] at hc
    obtain ⟨d, hd, rfl⟩ := hc
    have := digitChar_facts d (Nat.digits_lt_base (by decide) (List.mem_reverse.1 hd))
    exact ⟨this.1, this.2.1⟩

theorem decimalNat_ne_nil (n : Nat) : decimalNat n ≠ [] := by
  unfold decimalNat
  split
  · simp
  · rename_i h
    simp [Nat.digits_ne_nil_iff_ne_zero, h]

theorem decimalInt_no_sign (cs : List Char) (h : ∀ c ∈ cs, c ≠ '-') :
    decimalInt cs = (digitsValue cs : Int) := by
  unfold decimalInt
  split
  · rename_i cs'
    exact absurd rfl (h '-' (List.mem_cons_self _ _))
  · rfl

/-- Reading back the decimal text of an integer gives the integer. -/
theorem decimalInt_decimalText (n : Int) : decimalInt (decimalText n) = n := by
  cases n with
  | ofNat k =>
    simp only [decimalText]
    rw [decimalInt_no_sign _ (fun c hc => (decimalNat_chars k c hc).2), digitsValue_decimalNat]
    rfl
  | negSucc k =>
    simp only [decimalText, decimalInt]
    rw [digitsValue_decimalNat]
    rfl

theorem decimalText_no_slash (n : Int) : '/' ∉ decimalText n := by
  intro h
  cases n with
  | ofNat k => exact (decimalNat_chars k '/' h).1 rfl
  | negSucc k =>
    simp only [decimalText, List.mem_cons] at h
    rcases h with h | h
    · exact absurd h (by decide)
    · exact (decimalNat_chars (k + 1) '/' h).1 rfl

theorem decimalText_ne_nil (n : Int) : decimalText n ≠ [] := by
  cases n with
  | ofNat k => exact decimalNat_ne_nil k
  | negSucc k => simp [decimalText]

/-! ## The vertex buffer -/

theorem flatten_uniform {α : Type} (k : Nat) (chunks : List (List α))
    (h : ∀ c ∈ chunks, c.length = k) :
    chunks.flatten.length = chunks.length * k ∧
    ∀ i j, j < k → chunks.flatten[i * k + j]? = chunks[i]?.bind (fun x => x[j]?) := by
  induction chunks with
  | nil => simp
  | cons c cs ih =>
    have hc : c.length = k := h c (List.mem_cons_self _ _)
    obtain ⟨il, ig⟩ := ih (fun x hx => h x (List.mem_cons_of_mem _ hx))
    constructor
    · rw [List.flatten_cons, List.length_append, il, hc, List.length_cons]
      rw [Nat.succ_mul]
      omega
    · intro i j hj
      rw [List.flatten_cons]
      cases i with
      | zero =>
        rw [Nat.zero_mul, Nat.zero_add, List.getElem?_append_left (by omega)]
        simp
      | succ i =>
        have hge : c.length ≤ (i + 1) * k + j := by
          rw [hc, Nat.succ_mul]; omega
        rw [List.getElem?_append_right hge]
        have e : (i + 1) * k + j - c.length = i * k + j := by
          rw [hc, Nat.succ_mul]; omega
        rw [e, ig i j hj]
        simp

theorem vertexFloats_content (hN hT hG : Bool) (positions normals : List Vec3)
    (texcoords : List TexCoord) (tangents : List Vec4) (i : Nat) (chunk : List GLfloat)
    (h : vertexFloats hN hT hG positions normals texcoords tangents i = some chunk) :
    chunk.length
      = 3 + (if hN then 3 else 0) + (if hT then 2 else 0) + (if hG then 4 else 0) ∧
    (∃ p, positions[i]? = some p ∧
      chunk[0]? = some p.x ∧ chunk[1]? = some p.y ∧ chunk[2]? = some p.z) ∧
    (hN = true → ∃ n, normals[i]? = some n ∧
      chunk[3]? = some n.x ∧ chunk[3 + 1]? = some n.y ∧ chunk[3 + 2]? = some n.z) ∧
    (hT = true → ∃ t, texcoords[i]? = some t ∧
      chunk[3 + (if hN then 3 else 0)]? = some t.s ∧
      chunk[3 + (if hN then 3 else 0) + 1]? = some t.t) ∧
    (hG = true → ∃ g, tangents[i]? = some g ∧
      chunk[3 + (if hN then 3 else 0) + (if hT then 2 else 0)]? = some g.x ∧
      chunk[3 + (if hN then 3 else 0) + (if hT then 2 else 0) + 1]? = some g.y ∧
      chunk[3 + (if hN then 3 else 0) + (if hT then 2 else 0) + 2]? = some g.z ∧
      chunk[3 + (if hN then 3 else 0) + (if hT then 2 else 0) + 3]? = some g.w) := by
  unfold vertexFloats at h
  cases hp : positions[i]? with
  | none => simp [hp] at h
  | some p =>
    cases hN <;> cases hT <;> cases hG <;>
      simp only [hp, Option.some_bind, Bool.false_eq_true, if_false, if_true,
        Option.map_some'] at h
    · cases h; simp
    · cases hg : tangents[i]? with
      | none => simp [hg] at h
      | some g => simp [hg] at h; subst h; simp
    · cases ht : texcoords[i]? with
      | none => simp [ht] at h
      | some t => simp [ht] at h; subst h; simp
    · cases ht : texcoords[i]? with
      | none => simp [ht] at h
      | some t =>
        cases hg : tangents[i]? with
        | none => simp [ht, hg] at h
        | some g => simp [ht, hg] at h; subst h; simp
    · cases hn : normals[i]? with
      | none => simp [hn] at h
      | some n => simp [hn] at h; subst h; simp
    · cases hn : normals[i]? with
      | none => simp [hn] at h
      | some n =>
        cases hg : tangents[i]? with
        | none => simp [hn, hg] at h
        | some g => simp [hn, hg] at h; subst h; simp
    · cases hn : normals[i]? with
      | none => simp [hn] at h
      | some n =>
        cases ht : texcoords[i]? with
        | none => simp [hn, ht] at h
        | some t => simp [hn, ht] at h; subst h; simp
    · cases hn : normals[i]? with
      | none => simp [hn] at h
      | some n =>
        cases ht : texcoords[i]? with
        | none => simp [hn, ht] at h
        | some t =>
          cases hg : tangents[i]? with
          | none => simp [hn, ht, hg] at h
          | some g => simp [hn, ht, hg] at h; subst h; simp

/-- The buffer built by `buildVertexData`: one chunk of floats per vertex, each
attribute at its place in the chunk. -/
theorem buildVertexData_content (hN hT hG : Bool) (positions normals : List Vec3)
    (texcoords : List TexCoord) (tangents : List Vec4) (n : Nat) (data : List GLfloat)
    (h : buildVertexData hN hT hG positions normals texcoords tangents n = some data) :
    data.length
      = n * (3 + (if hN then 3 else 0) + (if hT then 2 else 0) + (if hG then 4 else 0)) ∧
    ∀ i, i < n → ∃ chunk,
      vertexFloats hN hT hG positions normals texcoords tangents i = some chunk ∧
      ∀ j, j < 3 + (if hN then 3 else 0) + (if hT then 2 else 0) + (if hG then 4 else 0) →
        data[i * (3 + (if hN then 3 else 0) + (if hT then 2 else 0) + (if hG then 4 else 0))
          + j]? = chunk[j]? := by
  unfold buildVertexData forEachIndex at h
  cases hr : allReads ((List.range n).map
      (vertexFloats hN hT hG positions normals texcoords tangents)) with
  | none => rw [hr] at h; cases h
  | some chunks =>
    rw [hr] at h
    simp only [Option.map_some', Option.some.injEq] at h
    subst h
    have e := (allReads_eq_some _ chunks).1 hr
    have hlen : chunks.length = n := by
      have := congrArg List.length e
      simpa using this.symm
    have hchunk : ∀ i, i < n →
        vertexFloats hN hT hG positions normals texcoords tangents i = some chunks[i]! ∧
        chunks[i]? = some chunks[i]! := by
      intro i hi
      have hi' : i < chunks.length := hlen ▸ hi
      have h1 : ((List.range n).map
          (vertexFloats hN hT hG positions normals texcoords tangents))[i]?
          = (chunks.map some)[i]? := by rw [e]
      simp only [List.getElem?_map, List.getElem?_range hi, Option.map_some',
        List.getElem?_eq_getElem hi'] at h1
      have h2 : chunks[i]! = chunks[i] := by
        simp [getElem!_pos, hi']
      rw [h2]
      exact ⟨Option.some.inj h1, List.getElem?_eq_getElem hi'⟩
    have huni : ∀ x ∈ chunks, x.length
        = 3 + (if hN then 3 else 0) + (if hT then 2 else 0) + (if hG then 4 else 0) := by
      intro x hx
      obtain ⟨i, hi⟩ := List.mem_iff_getElem?.1 hx
      have hi' : i < n := by
        by_contra hge
        rw [List.getElem?_eq_none (by omega)] at hi
        cases hi
      obtain ⟨hv, hc⟩ := hchunk i hi'
      rw [hc] at hi
      cases hi
      exact (vertexFloats_content _ _ _ _ _ _ _ i _ hv).1
    obtain ⟨fl, fg⟩ := flatten_uniform _ chunks huni
    refine ⟨by rw [fl, hlen], ?_⟩
    intro i hi
    obtain ⟨hv, hc⟩ := hchunk i hi
    refine ⟨chunks[i]!, hv, ?_⟩
    intro j hj
    rw [fg i j hj, hc]
    rfl

theorem computeLayout_float_offsets (hN hT sct : Bool) (m : OBJMesh) :
    (computeLayout hN hT sct m).1.mPositionOffset / 4 = 0 ∧
    (hN = true → (computeLayout hN hT sct m).1.mNormalOffset / 4 = 3) ∧
    (hT = true →
      (computeLayout hN hT sct m).1.mTexCoordOffset / 4 = 3 + (if hN then 3 else 0)) ∧
    ((sct && hN && hT) = true → (computeLayout hN hT sct m).1.mTangentlOffset / 4
      = 3 + (if hN then 3 else 0) + (if hT then 2 else 0)) ∧
    (computeLayout hN hT sct m).1.mStride / 4
      = 3 + (if hN then 3 else 0) + (if hT then 2 else 0)
          + (if (sct && hN && hT) then 4 else 0) := by
  cases hN <;> cases hT <;> cases sct <;> simp [computeLayout, sizeofGLfloat]

/-! ## Lines that the parse loop skips, and files without faces -/

theorem parseLine_skip (lib : Library) (s : ParseState) (tokens : List (List Char))
    (h : tokens = [] ∨ (tokenAt tokens 0).head? = some '#' ∨
      tokenAt tokens 0 ∉ [['v'], ['v', 'n'], ['v', 't'], ['f']]) :
    parseLine lib s tokens = .ok s := by
  unfold parseLine
  by_cases hlen : tokens.length > 0
  · rw [if_pos hlen]
    by_cases hc : (tokenAt tokens 0).head? = some '#'
    · rw [if_pos hc]
    · rw [if_neg hc]
      rcases h with h | h | h
      · subst h; simp at hlen
      · exact absurd h hc
      · simp only [List.mem_cons, List.mem_singleton, List.not_mem_nil, or_false, not_or] at h
        rw [if_neg h.1, if_neg h.2.1, if_neg h.2.2.1, if_neg h.2.2.2]
  · rw [if_neg hlen]

theorem parseLine_not_face (lib : Library) (s s' : ParseState) (tokens : List (List Char))
    (hnf : declares ['f'] tokens = false) (h : parseLine lib s tokens = .ok s') :
    s'.faces = s.faces ∧ s'.vertexFormat = s.vertexFormat := by
  unfold parseLine at h
  by_cases hlen : tokens.length > 0
  · rw [if_pos hlen] at h
    by_cases hc : (tokenAt tokens 0).head? = some '#'
    · rw [if_pos hc] at h; cases h; exact ⟨rfl, rfl⟩
    · rw [if_neg hc] at h
      by_cases hv : tokenAt tokens 0 = ['v']
      · rw [if_pos hv] at h
        by_cases h4 : tokens.length < 4
        · rw [if_pos h4] at h; cases h
        · rw [if_neg h4] at h; cases h; exact ⟨rfl, rfl⟩
      · rw [if_neg hv] at h
        by_cases hvn : tokenAt tokens 0 = ['v', 'n']
        · rw [if_pos hvn] at h
          by_cases h4 : tokens.length < 4
          · rw [if_pos h4] at h; cases h
          · rw [if_neg h4] at h; cases h; exact ⟨rfl, rfl⟩
        · rw [if_neg hvn] at h
          by_cases hvt : tokenAt tokens 0 = ['v', 't']
          · rw [if_pos hvt] at h
            by_cases h3 : tokens.length < 3
            · rw [if_pos h3] at h; cases h
            · rw [if_neg h3] at h; cases h; exact ⟨rfl, rfl⟩
          · rw [if_neg hvt] at h
            by_cases hf : tokenAt tokens 0 = ['f']
            · exfalso
              simp [declares, hlen, hf] at hnf
            · rw [if_neg hf] at h; cases h; exact ⟨rfl, rfl⟩
  · rw [if_neg hlen] at h; cases h; exact ⟨rfl, rfl⟩

theorem parseLines_no_face (lib : Library) (lines : List (List (List Char))) (s s' : ParseState)
    (hnf : lines.countP (declares ['f']) = 0) (h : parseLines lib s lines = .ok s') :
    s'.faces = s.faces ∧ s'.vertexFormat = s.vertexFormat := by
  induction lines generalizing s with
  | nil => simp [parseLines] at h; subst h; exact ⟨rfl, rfl⟩
  | cons line rest ih =>
    rw [List.countP_cons] at hnf
    have hline : declares ['f'] line = false := by
      cases hd : declares ['f'] line
      · rfl
      · rw [hd] at hnf; simp at hnf
    have hrest : rest.countP (declares ['f']) = 0 := by omega
    simp only [parseLines] at h
    cases hp : parseLine lib s line with
    | error e => rw [hp] at h; cases h
    | ok s1 =>
      rw [hp] at h
      obtain ⟨h1, h2⟩ := parseLine_not_face lib s s1 line hline hp
      obtain ⟨h3, h4⟩ := ih s1 hrest h
      exact ⟨h3.trans h1, h4.trans h2⟩

theorem getFormat_flags (c : OBJVertex) :
    (c.getFormat &&& OBJ_VFF_POSITION = OBJ_VFF_POSITION ↔ 0 < c.v) ∧
    (c.getFormat &&& OBJ_VFF_NORMAL = OBJ_VFF_NORMAL ↔ 0 < c.vn) ∧
    (c.getFormat &&& OBJ_VFF_TEXCOORD = OBJ_VFF_TEXCOORD ↔ 0 < c.vt) := by
  unfold OBJVertex.getFormat
  by_cases h1 : c.v > 0 <;> by_cases h2 : c.vn > 0 <;> by_cases h3 : c.vt > 0 <;>
    simp [h1, h2, h3, OBJ_VFF_POSITION, OBJ_VFF_NORMAL, OBJ_VFF_TEXCOORD] <;> decide

theorem resolveIndex_sentinel (k : Nat) (hk : k < 2 ^ 31) : resolveIndex k (-1) = k := by
  rw [resolveIndex_neg k (-1) hk (by norm_num) (by norm_num)]
  ring

theorem faceVerts_single (lib : Library) (s : ParseState) (kw tok : List Char) :
    vertAt (faceVerts lib s [kw, tok]) 0
      = { v := resolveIndex s.positions.length (OBJVertex.ofString lib tok).v
          vn := resolveIndex s.normals.length (OBJVertex.ofString lib tok).vn
          vt := resolveIndex s.texcoords.length (OBJVertex.ofString lib tok).vt } := by
  simp [faceVerts, vertAt]

/-! ## Keys under an injective renaming -/

theorem addKey_map {K L : Type} [DecidableEq K] [DecidableEq L] (g : K → L)
    (hg : Function.Injective g) (seen : List K) (k : K) :
    addKey (seen.map g) (g k) = (addKey seen k).map g := by
  unfold addKey
  by_cases h : k ∈ seen
  · rw [if_pos h, if_pos (List.mem_map_of_mem g h)]
  · have h' : g k ∉ seen.map g := by
      intro hm
      obtain ⟨a, ha, hga⟩ := List.mem_map.mp hm
      exact h (hg hga ▸ ha)
    rw [if_neg h, if_neg h']
    simp

theorem distinctFrom_map {K L : Type} [DecidableEq K] [DecidableEq L] (g : K → L)
    (hg : Function.Injective g) (ks seen : List K) :
    distinctFrom (seen.map g) (ks.map g) = (distinctFrom seen ks).map g := by
  induction ks generalizing seen with
  | nil => rfl
  | cons k ks ih =>
    simp only [List.map_cons, distinctFrom]
    rw [addKey_map g hg, ih]

theorem distinctInOrder_map {K L : Type} [DecidableEq K] [DecidableEq L] (g : K → L)
    (hg : Function.Injective g) (ks : List K) :
    distinctInOrder (ks.map g) = (distinctInOrder ks).map g :=
  distinctFrom_map g hg ks []

theorem indexOf_map_injective {K L : Type} [DecidableEq K] [DecidableEq L] (g : K → L)
    (hg : Function.Injective g) (l : List K) (a : K) :
    (l.map g).indexOf (g a) = l.indexOf a := by
  induction l with
  | nil => rfl
  | cons b l ih =>
    simp only [List.map_cons, List.indexOf_cons]
    by_cases hb : b = a
    · subst hb; simp
    · have hb' : g b ≠ g a := fun h => hb (hg h)
      have e1 : (g b == g a) = false := by simpa using hb'
      have e2 : (b == a) = false := by simpa using hb
      rw [e1, e2, ih]

theorem faceKeys_eq_map (hn ht : Bool) (faces : List OBJTriangle) (g : Int → DedupKey)
    (hg : Function.Injective g)
    (hkey : ∀ c ∈ allCorners faces, dedupKey hn ht c = g c.v) :
    faceKeys hn ht faces
      = (distinctInOrder ((allCorners faces).map (fun c => c.v))).map g := by
  unfold faceKeys
  rw [← distinctInOrder_map g hg, List.map_map]
  congr 1
  apply List.map_congr_left
  intro c hc
  exact hkey c hc

/-! ## The four overloads against the generic reindexer -/

theorem Reindex1_eq_generic (positions normals : List Vec3) (texcoords : List TexCoord)
    (faces : List OBJTriangle) :
    Reindex1 positions faces
      = (reindexGeneric (dedupKey false false) (fetchAttrs positions normals texcoords)
          faces).map fun r => (r.1.map (fun a => a.1), r.2) := by
  have h := congrArg (Option.map fun r => (r.1, r.2.2.2))
    (reindexDispatch_eq_generic false false positions normals texcoords faces)
  rw [reindexDispatch_position_only] at h
  simpa [Option.map_map, Function.comp_def] using h

theorem Reindex2N_eq_generic (positions normals : List Vec3) (texcoords : List TexCoord)
    (faces : List OBJTriangle) :
    Reindex2N positions normals faces
      = (reindexGeneric (dedupKey true false) (fetchAttrs positions normals texcoords)
          faces).map fun r => (r.1.map (fun a => a.1), r.1.map (fun a => a.2.1), r.2) := by
  have h := congrArg (Option.map fun r => (r.1, r.2.1, r.2.2.2))
    (reindexDispatch_eq_generic true false positions normals texcoords faces)
  simpa [reindexDispatch, Option.map_map, Function.comp_def] using h

theorem Reindex2T_eq_generic (positions normals : List Vec3) (texcoords : List TexCoord)
    (faces : List OBJTriangle) :
    Reindex2T positions texcoords faces
      = (reindexGeneric (dedupKey false true) (fetchAttrs positions normals texcoords)
          faces).map fun r => (r.1.map (fun a => a.1), r.1.map (fun a => a.2.2), r.2) := by
  have h := congrArg (Option.map fun r => (r.1, r.2.2.1, r.2.2.2))
    (reindexDispatch_eq_generic false true positions normals texcoords faces)
  simpa [reindexDispatch, Option.map_map, Function.comp_def] using h

theorem Reindex3_eq_generic (positions normals : List Vec3) (texcoords : List TexCoord)
    (faces : List OBJTriangle) :
    Reindex3 positions normals texcoords faces
      = (reindexGeneric (dedupKey true true) (fetchAttrs positions normals texcoords)
          faces).map fun r => (r.1.map (fun a => a.1), r.1.map (fun a => a.2.1),
            r.1.map (fun a => a.2.2), r.2) := by
  have h := reindexDispatch_eq_generic true true positions normals texcoords faces
  rw [reindexDispatch_both] at h
  simpa using h

theorem fetchAttrs_position (positions normals : List Vec3) (texcoords : List TexCoord)
    (k : DedupKey) (a : Vec3 × Vec3 × TexCoord)
    (h : fetchAttrs positions normals texcoords k = some a) :
    vecAt positions (k.v - 1) = some a.1 := by
  unfold fetchAttrs at h
  obtain ⟨p, hp, h⟩ := Option.bind_eq_some.mp h
  obtain ⟨n, _, h⟩ := Option.bind_eq_some.mp h
  obtain ⟨t, _, h⟩ := Option.map_eq_some'.mp h
  rw [hp, ← h]

theorem allCorners_map_withConstAttrs (cn ct : Int) (faces : List OBJTriangle) :
    allCorners (faces.map (withConstAttrs cn ct))
      = (allCorners faces).map fun c => { c with vn := cn, vt := ct } := by
  induction faces with
  | nil => rfl
  | cons f fs ih =>
    rw [List.map_cons, allCorners_cons, allCorners_cons, ih]
    rfl

theorem positionKey_injective :
    Function.Injective (fun v : Int => ({ v := v, vn := none, vt := none } : DedupKey)) := by
  intro a b h
  simpa using h

theorem constKey_injective (cn ct : Int) :
    Function.Injective
      (fun v : Int => ({ v := v, vn := some cn, vt := some ct } : DedupKey)) := by
  intro a b h
  simpa using h

theorem reindex_const_attrs (positions normals : List Vec3) (texcoords : List TexCoord)
    (faces : List OBJTriangle) (cn ct : Int)
    (hr : ∀ f ∈ faces, ∀ c ∈ f.corners, 1 ≤ c.v ∧ c.v ≤ positions.length)
    (hcn : 1 ≤ cn ∧ cn ≤ normals.length) (hct : 1 ≤ ct ∧ ct ≤ texcoords.length) :
    ∃ np nf nn nt, Reindex1 positions faces = some (np, nf) ∧
      Reindex3 positions normals texcoords (faces.map (withConstAttrs cn ct))
        = some (np, nn, nt, nf) := by
  have hr1 : IndicesInRange false false positions normals texcoords faces := by
    intro f hf c hc
    exact ⟨hr f hf c hc, by simp, by simp⟩
  have hr3 : IndicesInRange true true positions normals texcoords
      (faces.map (withConstAttrs cn ct)) := by
    intro f hf c hc
    obtain ⟨f0, hf0, rfl⟩ := List.mem_map.mp hf
    simp only [withConstAttrs, OBJTriangle.corners, List.mem_cons, List.mem_singleton,
      List.not_mem_nil, or_false] at hc
    rcases hc with rfl | rfl | rfl
    · exact ⟨hr f0 hf0 f0.v0 (by simp [OBJTriangle.corners]), fun _ => hcn, fun _ => hct⟩
    · exact ⟨hr f0 hf0 f0.v1 (by simp [OBJTriangle.corners]), fun _ => hcn, fun _ => hct⟩
    · exact ⟨hr f0 hf0 f0.v2 (by simp [OBJTriangle.corners]), fun _ => hcn, fun _ => hct⟩
  obtain ⟨out1, h1, ho1⟩ := reindexDispatch_spec false false positions normals texcoords faces hr1
  obtain ⟨out3, h3, ho3⟩ := reindexDispatch_spec true true positions normals texcoords
    (faces.map (withConstAttrs cn ct)) hr3
  rw [reindexDispatch_position_only] at h1
  rw [reindexDispatch_both] at h3
  -- the keys of both runs are the distinct position indices, renamed
  have hk1 := faceKeys_eq_map false false faces _ positionKey_injective
    (fun c _ => by simp [dedupKey])
  have hk3 : faceKeys true true (faces.map (withConstAttrs cn ct))
      = (distinctInOrder ((allCorners faces).map (fun c => c.v))).map
          (fun v : Int => ({ v := v, vn := some cn, vt := some ct } : DedupKey)) := by
    unfold faceKeys
    rw [← distinctInOrder_map _ (constKey_injective cn ct), allCorners_map_withConstAttrs,
      List.map_map, List.map_map]
    rfl
  -- same dense triangles
  have hfaces : (faces.map (withConstAttrs cn ct)).map
        (denseTriangle (dedupKey true true) (faceKeys true true (faces.map (withConstAttrs cn ct))))
      = faces.map (denseTriangle (dedupKey false false) (faceKeys false false faces)) := by
    rw [List.map_map, hk1, hk3]
    apply List.map_congr_left
    intro f _
    simp only [Function.comp, denseTriangle, withConstAttrs, dedupKey, if_true]
    have e1 := fun v => indexOf_map_injective _ positionKey_injective
      (distinctInOrder ((allCorners faces).map (fun c => c.v))) v
    have e3 := fun v => indexOf_map_injective _ (constKey_injective cn ct)
      (distinctInOrder ((allCorners faces).map (fun c => c.v))) v
    simp only [e1, e3, Bool.false_eq_true, if_false]
  -- same output positions
  have hpos : out3.map (fun a => a.1) = out1.map (fun a => a.1) := by
    have p1 := map_some_transfer _ (fun k : DedupKey => vecAt positions (k.v - 1))
      (fun a => a.1) _ out1 ho1 (fun k _ a ha => fetchAttrs_position positions normals texcoords k a ha)
    have p3 := map_some_transfer _ (fun k : DedupKey => vecAt positions (k.v - 1))
      (fun a => a.1) _ out3 ho3 (fun k _ a ha => fetchAttrs_position positions normals texcoords k a ha)
    rw [hk1] at p1
    rw [hk3] at p3
    have : (out3.map (fun a => a.1)).map some = (out1.map (fun a => a.1)).map some := by
      rw [p1, p3, List.map_map, List.map_map]; rfl
    exact List.map_injective_iff.mpr (Option.some_injective _) this
  refine ⟨out1.map (fun a => a.1),
    faces.map (denseTriangle (dedupKey false false) (faceKeys false false faces)),
    out3.map (fun a => a.2.1), out3.map (fun a => a.2.2), ?_, ?_⟩
  · cases hR : Reindex1 positions faces with
    | none => rw [hR] at h1; cases h1
    | some r =>
      rw [hR] at h1
      simp only [Option.map_some', Option.some.injEq, Prod.mk.injEq] at h1
      obtain ⟨a1, _, _, a2⟩ := h1
      rw [← a1, ← a2]
  · rw [h3, hpos, hfaces]
    rfl

/-! ## Shape of the reindexed arrays and definedness of the rest of `load` -/

theorem reindexDispatch_shape (hn ht : Bool) (positions normals : List Vec3)
    (texcoords : List TexCoord) (faces : List OBJTriangle)
    (hr : IndicesInRange hn ht positions normals texcoords faces) :
    ∃ np nn nt nf, reindexDispatch hn ht positions normals texcoords faces
        = some (np, nn, nt, nf) ∧
      np.length = (faceKeys hn ht faces).length ∧
      (hn = true → nn.length = np.length) ∧
      (ht = true → nt.length = np.length) ∧
      nf = faces.map (denseTriangle (dedupKey hn ht) (faceKeys hn ht faces)) ∧
      (∀ t ∈ nf, ∀ j : Fin 3, t.index j < np.length) := by
  obtain ⟨out, h, ho⟩ := reindexDispatch_spec hn ht positions normals texcoords faces hr
  have hlen : out.length = (faceKeys hn ht faces).length := by
    have := congrArg List.length ho
    simpa using this
  refine ⟨_, _, _, _, h, by simpa using hlen, ?_, ?_, rfl, ?_⟩
  · intro e; subst e; simp
  · intro e; subst e; simp
  · intro t htm j
    obtain ⟨f, hf, rfl⟩ := List.mem_map.mp htm
    rw [denseTriangle_index, List.length_map, hlen]
    exact List.indexOf_lt_length.mpr (mem_faceKeys_of_corner hn ht faces f hf j)

theorem vertexFloats_isSome (hN hT hG : Bool) (positions normals : List Vec3)
    (texcoords : List TexCoord) (tangents : List Vec4) (i : Nat)
    (hp : i < positions.length) (hn : hN = true → i < normals.length)
    (ht : hT = true → i < texcoords.length) (hg : hG = true → i < tangents.length) :
    (vertexFloats hN hT hG positions normals texcoords tangents i).isSome = true := by
  unfold vertexFloats
  rw [List.getElem?_eq_getElem hp]
  cases hN <;> cases hT <;> cases hG <;>
    simp_all [List.getElem?_eq_getElem]

theorem buildVertexData_some (hN hT hG : Bool) (positions normals : List Vec3)
    (texcoords : List TexCoord) (tangents : List Vec4) (n : Nat)
    (hp : n ≤ positions.length) (hn : hN = true → n ≤ normals.length)
    (ht : hT = true → n ≤ texcoords.length) (hg : hG = true → n ≤ tangents.length) :
    ∃ data, buildVertexData hN hT hG positions normals texcoords tangents n = some data := by
  obtain ⟨r, hr, _, _⟩ := forEachIndex_spec n
    (vertexFloats hN hT hG positions normals texcoords tangents)
    (fun a ha => vertexFloats_isSome hN hT hG positions normals texcoords tangents a
      (by omega) (fun e => by have := hn e; omega) (fun e => by have := ht e; omega)
      (fun e => by have := hg e; omega))
  exact ⟨r.flatten, by unfold buildVertexData; rw [hr]; rfl⟩

theorem tangents_some (lib : Library) (hN hT sct : Bool) (m : OBJMesh)
    (np nn : List Vec3) (nt : List TexCoord) (nf : List IndexTriangle)
    (hnn : hN = true → nn.length = np.length) (hnt : hT = true → nt.length = np.length)
    (hidx : ∀ t ∈ nf, ∀ j : Fin 3, t.index j < np.length) :
    ∃ tangents,
      (if (computeLayout hN hT sct m).2.2 then ComputeTangents lib np nn nt nf else some [])
        = some tangents ∧
      ((computeLayout hN hT sct m).2.2 = true → tangents.length = np.length) := by
  rw [computeLayout_tangent_flag]
  by_cases hG : (sct && hN && hT) = true
  · rw [if_pos hG]
    simp only [Bool.and_eq_true] at hG
    obtain ⟨_, _, tangents, _, hc, hl, _⟩ := ComputeTangents_spec lib np nn nt nf hidx
      (le_of_eq (hnn hG.1.2).symm) (le_of_eq (hnt hG.2).symm)
    exact ⟨tangents, hc, fun _ => hl⟩
  · rw [if_neg hG]
    exact ⟨[], rfl, fun e => absurd e hG⟩

theorem finishLoad_defined (lib : Library) (gl : GLNames) (sct : Bool) (m : OBJMesh)
    (s : ParseState) (hfaces : s.faces ≠ [])
    (hr : IndicesInRange
      (inferFlag (s.vertexFormat &&& OBJ_VFF_NORMAL == OBJ_VFF_NORMAL)
        s.normals.length s.positions.length)
      (inferFlag (s.vertexFormat &&& OBJ_VFF_TEXCOORD == OBJ_VFF_TEXCOORD)
        s.texcoords.length s.positions.length)
      s.positions s.normals s.texcoords
      (inferTexCoords (s.vertexFormat &&& OBJ_VFF_TEXCOORD == OBJ_VFF_TEXCOORD)
        s.texcoords.length s.positions.length
        (inferNormals (s.vertexFormat &&& OBJ_VFF_NORMAL == OBJ_VFF_NORMAL)
          s.normals.length s.positions.length s.faces))) :
    (∃ mesh, gl.vao = 0 ∧ finishLoad lib gl sct m s = .failed .vaoFailed mesh) ∨
    (∃ r, gl.vao ≠ 0 ∧ finishLoad lib gl sct m s = .loaded r) := by
  obtain ⟨np, nn, nt, nf, hd, hnp, hnn, hnt, hnf, hidx⟩ := reindexDispatch_shape _ _ _ _ _ _ hr
  obtain ⟨tangents, htan, hlen⟩ := tangents_some lib _ _ sct m np nn nt nf hnn hnt hidx
  obtain ⟨data, hdata⟩ := buildVertexData_some _ _ _ np nn nt tangents np.length
    (le_refl _) (fun e => le_of_eq (hnn e).symm) (fun e => le_of_eq (hnt e).symm)
    (fun e => le_of_eq (hlen e).symm)
  -- at least one face, hence at least one triangle and one vertex
  obtain ⟨f, fs, hf⟩ : ∃ f fs, inferTexCoords
      (s.vertexFormat &&& OBJ_VFF_TEXCOORD == OBJ_VFF_TEXCOORD)
      s.texcoords.length s.positions.length
      (inferNormals (s.vertexFormat &&& OBJ_VFF_NORMAL == OBJ_VFF_NORMAL)
        s.normals.length s.positions.length s.faces) = f :: fs := by
    rw [infer_faces_eq]
    cases hs : s.faces with
    | nil => exact absurd hs hfaces
    | cons a l => exact ⟨_, _, rfl⟩
  rw [hf] at hnf hnp
  obtain ⟨t0, ht0⟩ : ∃ t0, nf[0]? = some t0 := by
    rw [hnf, List.map_cons]
    exact ⟨_, List.getElem?_cons_zero⟩
  have hpos : 0 < np.length := by
    rw [hnp]
    exact List.length_pos_of_mem (mem_faceKeys_of_corner _ _ (f :: fs) f (by simp) 0)
  obtain ⟨x0, hx0⟩ : ∃ x0, data[0]? = some x0 := by
    have hl := (buildVertexData_content _ _ _ np nn nt tangents np.length data hdata).1
    have : 0 < data.length := by
      rw [hl]
      exact Nat.mul_pos hpos (by omega)
    exact ⟨_, List.getElem?_eq_getElem this⟩
  unfold finishLoad
  simp only []
  rw [hd]
  simp only []
  rw [htan]
  simp only []
  rw [hdata]
  simp only []
  by_cases hv : gl.vao = 0
  · left; rw [if_pos hv]; exact ⟨_, hv, rfl⟩
  · right; rw [if_neg hv, hx0]
    simp only []
    rw [ht0]
    exact ⟨_, hv, rfl⟩

/-! ## The per-triangle step of `ComputeTangents` -/

theorem addAt_get (acc : List Vec3) (i : Nat) (d : Vec3) (r : List Vec3)
    (h : addAt acc i d = some r) (a : Nat) :
    r[a]? = if a = i then acc[a]?.map (fun x => x.add d) else acc[a]? := by
  unfold addAt at h
  obtain ⟨x, hx, rfl⟩ := Option.map_eq_some'.mp h
  by_cases e : a = i
  · subst e
    have hlt : a < acc.length := (List.getElem?_eq_some_iff.mp hx).1
    simp [hx, hlt]
  · rw [if_neg e, List.getElem?_set_ne (Ne.symm e)]

theorem count_three (i1 i2 i3 a : Nat) :
    [i1, i2, i3].count a
      = (if a = i1 then 1 else 0) + (if a = i2 then 1 else 0) + (if a = i3 then 1 else 0) := by
  simp only [List.count_cons, List.count_nil, beq_iff_eq, zero_add]
  split_ifs <;> omega

theorem add_thrice (acc a1 a2 r : List Vec3) (i1 i2 i3 : Nat) (d : Vec3)
    (h1 : addAt acc i1 d = some a1) (h2 : addAt a1 i2 d = some a2)
    (h3 : addAt a2 i3 d = some r) (a : Nat) :
    r[a]? = acc[a]?.map fun x => x.add (d.scale (([i1, i2, i3].count a : Nat) : GLfloat)) := by
  rw [addAt_get a2 i3 d r h3 a, addAt_get a1 i2 d a2 h2 a, addAt_get acc i1 d a1 h1 a,
    count_three]
  cases acc[a]? with
  | none => split_ifs <;> rfl
  | some x =>
    split_ifs <;>
      simp only [Option.map_some', Vec3.add, Vec3.scale, Option.some.injEq, Vec3.mk.injEq] <;>
      norm_num <;> (try (refine ⟨?_, ?_, ?_⟩ <;> ring))

theorem tangent_system (v1 v2 v3 : Vec3) (w1 w2 w3 : TexCoord)
    (hdet : (w2.s - w1.s) * (w3.t - w1.t) - (w3.s - w1.s) * (w2.t - w1.t) ≠ 0) :
    v2.sub v1 = ((triangleSdir v1 v2 v3 w1 w2 w3).scale (w2.s - w1.s)).add
        ((triangleTdir v1 v2 v3 w1 w2 w3).scale (w2.t - w1.t)) ∧
    v3.sub v1 = ((triangleSdir v1 v2 v3 w1 w2 w3).scale (w3.s - w1.s)).add
        ((triangleTdir v1 v2 v3 w1 w2 w3).scale (w3.t - w1.t)) := by
  simp only [Vec3.sub, Vec3.add, Vec3.scale, triangleSdir, triangleTdir, Vec3.mk.injEq]
  refine ⟨⟨?_, ?_, ?_⟩, ⟨?_, ?_, ?_⟩⟩ <;> field_simp <;> ring

theorem accumulateTriangle_spec (positions : List Vec3) (texcoords : List TexCoord)
    (acc : List Vec3 × List Vec3) (tri : IndexTriangle)
    (hp : ∀ j : Fin 3, tri.index j < positions.length)
    (ht : positions.length ≤ texcoords.length)
    (h1 : acc.1.length = positions.length) (h2 : acc.2.length = positions.length) :
    ∃ v1 v2 v3 w1 w2 w3 r,
      positions[tri.index 0]? = some v1 ∧ positions[tri.index 1]? = some v2 ∧
      positions[tri.index 2]? = some v3 ∧ texcoords[tri.index 0]? = some w1 ∧
      texcoords[tri.index 1]? = some w2 ∧ texcoords[tri.index 2]? = some w3 ∧
      accumulateTriangle positions texcoords acc tri = some r ∧
      ∀ a, r.1[a]? = acc.1[a]?.map (fun x : Vec3 =>
            x.add ((triangleSdir v1 v2 v3 w1 w2 w3).scale ((tri.indices.count a : Nat) : GLfloat))) ∧
        r.2[a]? = acc.2[a]?.map (fun x : Vec3 =>
            x.add ((triangleTdir v1 v2 v3 w1 w2 w3).scale ((tri.indices.count a : Nat) : GLfloat))) := by
  have p0 := hp 0
  have p1 := hp 1
  have p2 := hp 2
  obtain ⟨v1, hv1⟩ : ∃ v, positions[tri.index 0]? = some v :=
    ⟨_, List.getElem?_eq_getElem p0⟩
  obtain ⟨v2, hv2⟩ : ∃ v, positions[tri.index 1]? = some v :=
    ⟨_, List.getElem?_eq_getElem p1⟩
  obtain ⟨v3, hv3⟩ : ∃ v, positions[tri.index 2]? = some v :=
    ⟨_, List.getElem?_eq_getElem p2⟩
  obtain ⟨w1, hw1⟩ : ∃ w, texcoords[tri.index 0]? = some w :=
    ⟨_, List.getElem?_eq_getElem (lt_of_lt_of_le p0 ht)⟩
  obtain ⟨w2, hw2⟩ : ∃ w, texcoords[tri.index 1]? = some w :=
    ⟨_, List.getElem?_eq_getElem (lt_of_lt_of_le p1 ht)⟩
  obtain ⟨w3, hw3⟩ : ∃ w, texcoords[tri.index 2]? = some w :=
    ⟨_, List.getElem?_eq_getElem (lt_of_lt_of_le p2 ht)⟩
  obtain ⟨a1, ha1, la1⟩ := addAt_some acc.1 (tri.index 0)
    (triangleSdir v1 v2 v3 w1 w2 w3) (h1 ▸ p0)
  obtain ⟨a2, ha2, la2⟩ := addAt_some a1 (tri.index 1)
    (triangleSdir v1 v2 v3 w1 w2 w3) (by rw [la1, h1]; exact p1)
  obtain ⟨a3, ha3, _⟩ := addAt_some a2 (tri.index 2)
    (triangleSdir v1 v2 v3 w1 w2 w3) (by rw [la2, la1, h1]; exact p2)
  obtain ⟨b1, hb1, lb1⟩ := addAt_some acc.2 (tri.index 0)
    (triangleTdir v1 v2 v3 w1 w2 w3) (h2 ▸ p0)
  obtain ⟨b2, hb2, lb2⟩ := addAt_some b1 (tri.index 1)
    (triangleTdir v1 v2 v3 w1 w2 w3) (by rw [lb1, h2]; exact p1)
  obtain ⟨b3, hb3, _⟩ := addAt_some b2 (tri.index 2)
    (triangleTdir v1 v2 v3 w1 w2 w3) (by rw [lb2, lb1, h2]; exact p2)
  refine ⟨v1, v2, v3, w1, w2, w3, (a3, b3), hv1, hv2, hv3, hw1, hw2, hw3, ?_, ?_⟩
  · unfold accumulateTriangle
    simp only [hv1, hv2, hv3, hw1, hw2, hw3, Option.some_bind, ha1, ha2, ha3, hb1, hb2, hb3,
      Option.map_some']
  · intro a
    exact ⟨add_thrice acc.1 a1 a2 a3 _ _ _ _ ha1 ha2 ha3 a,
      add_thrice acc.2 b1 b2 b3 _ _ _ _ hb1 hb2 hb3 a⟩

/-! ## Indices that reach `Reindex` -/

theorem inferred_corner_in_range (s : ParseState) (c : OBJVertex)
    (hfmt : c.getFormat = s.vertexFormat)
    (hpos : s.vertexFormat &&& OBJ_VFF_POSITION = OBJ_VFF_POSITION)
    (hub : c.v ≤ s.positions.length ∧ c.vn ≤ s.normals.length ∧ c.vt ≤ s.texcoords.length) :
    (1 ≤ c.v ∧ c.v ≤ s.positions.length) ∧
    (inferFlag (s.vertexFormat &&& OBJ_VFF_NORMAL == OBJ_VFF_NORMAL)
        s.normals.length s.positions.length = true →
      1 ≤ (if (!(s.vertexFormat &&& OBJ_VFF_NORMAL == OBJ_VFF_NORMAL)
            && s.normals.length == s.positions.length) then c.v else c.vn) ∧
      (if (!(s.vertexFormat &&& OBJ_VFF_NORMAL == OBJ_VFF_NORMAL)
            && s.normals.length == s.positions.length) then c.v else c.vn)
        ≤ s.normals.length) ∧
    (inferFlag (s.vertexFormat &&& OBJ_VFF_TEXCOORD == OBJ_VFF_TEXCOORD)
        s.texcoords.length s.positions.length = true →
      1 ≤ (if (!(s.vertexFormat &&& OBJ_VFF_TEXCOORD == OBJ_VFF_TEXCOORD)
            && s.texcoords.length == s.positions.length) then c.v else c.vt) ∧
      (if (!(s.vertexFormat &&& OBJ_VFF_TEXCOORD == OBJ_VFF_TEXCOORD)
            && s.texcoords.length == s.positions.length) then c.v else c.vt)
        ≤ s.texcoords.length) := by
  obtain ⟨fp, fn, ft⟩ := getFormat_flags c
  rw [hfmt] at fp fn ft
  have hv : 0 < c.v := fp.mp hpos
  refine ⟨⟨by omega, hub.1⟩, ?_, ?_⟩
  · intro hflag
    rw [inferFlag_eq] at hflag
    by_cases h0 : (s.vertexFormat &&& OBJ_VFF_NORMAL == OBJ_VFF_NORMAL) = true
    · have hvn : 0 < c.vn := fn.mp (by simpa using h0)
      simp only [h0, Bool.not_true, Bool.false_and, Bool.false_eq_true, if_false]
      exact ⟨by omega, hub.2.1⟩
    · simp only [Bool.not_eq_true] at h0
      simp only [h0, Bool.not_false, Bool.true_and, Bool.false_or, beq_iff_eq] at hflag ⊢
      rw [if_pos hflag, hflag]
      exact ⟨by omega, hub.1⟩
  · intro hflag
    rw [inferFlag_eq] at hflag
    by_cases h0 : (s.vertexFormat &&& OBJ_VFF_TEXCOORD == OBJ_VFF_TEXCOORD) = true
    · have hvt : 0 < c.vt := ft.mp (by simpa using h0)
      simp only [h0, Bool.not_true, Bool.false_and, Bool.false_eq_true, if_false]
      exact ⟨by omega, hub.2.2⟩
    · simp only [Bool.not_eq_true] at h0
      simp only [h0, Bool.not_false, Bool.true_and, Bool.false_or, beq_iff_eq] at hflag ⊢
      rw [if_pos hflag, hflag]
      exact ⟨by omega, hub.1⟩

theorem parsed_indices_in_range (s : ParseState) (hinv : FormatInv s)
    (hub : ∀ f ∈ s.faces, ∀ c ∈ f.corners,
      c.v ≤ s.positions.length ∧ c.vn ≤ s.normals.length ∧ c.vt ≤ s.texcoords.length) :
    IndicesInRange
      (inferFlag (s.vertexFormat &&& OBJ_VFF_NORMAL == OBJ_VFF_NORMAL)
        s.normals.length s.positions.length)
      (inferFlag (s.vertexFormat &&& OBJ_VFF_TEXCOORD == OBJ_VFF_TEXCOORD)
        s.texcoords.length s.positions.length)
      s.positions s.normals s.texcoords
      (inferTexCoords (s.vertexFormat &&& OBJ_VFF_TEXCOORD == OBJ_VFF_TEXCOORD)
        s.texcoords.length s.positions.length
        (inferNormals (s.vertexFormat &&& OBJ_VFF_NORMAL == OBJ_VFF_NORMAL)
          s.normals.length s.positions.length s.faces)) := by
  rw [infer_faces_eq]
  intro f hf c hc
  obtain ⟨f0, hf0, rfl⟩ := List.mem_map.mp hf
  have hne : s.vertexFormat ≠ 0 := by
    intro h0
    have := hinv.1 h0
    rw [this] at hf0
    cases hf0
  have hpos := hinv.2.1 hne
  simp only [OBJTriangle.corners, List.mem_cons, List.mem_singleton, List.not_mem_nil,
    or_false] at hc
  rcases hc with rfl | rfl | rfl
  · exact inferred_corner_in_range s f0.v0
      (hinv.2.2 f0 hf0 f0.v0 (by simp [OBJTriangle.corners])) hpos
      (hub f0 hf0 f0.v0 (by simp [OBJTriangle.corners]))
  · exact inferred_corner_in_range s f0.v1
      (hinv.2.2 f0 hf0 f0.v1 (by simp [OBJTriangle.corners])) hpos
      (hub f0 hf0 f0.v1 (by simp [OBJTriangle.corners]))
  · exact inferred_corner_in_range s f0.v2
      (hinv.2.2 f0 hf0 f0.v2 (by simp [OBJTriangle.corners])) hpos
      (hub f0 hf0 f0.v2 (by simp [OBJTriangle.corners]))

theorem FormatInv_parsed (lib : Library) (lines : List (List (List Char))) (s : ParseState)
    (h : parseLines lib ParseState.init lines = .ok s) : FormatInv s :=
  (parseLines_inv lib lines ParseState.init s h FormatInv_init).1

/-! ## When an `f` line is accepted -/

theorem parseFace_accepts (lib : Library) (s : ParseState) (tokens : List (List Char))
    (h4 : 4 ≤ tokens.length)
    (hpos : s.vertexFormat = 0 →
      establishedFormat s (faceVerts lib s tokens) &&& OBJ_VFF_POSITION = OBJ_VFF_POSITION)
    (hall : ∀ c ∈ faceVerts lib s tokens,
      c.getFormat = establishedFormat s (faceVerts lib s tokens)) :
    parseFace lib s tokens
      = .ok { s with faces := s.faces ++ Tesselate (faceVerts lib s tokens),
                     vertexFormat := establishedFormat s (faceVerts lib s tokens) } := by
  unfold parseFace
  rw [if_neg (by omega)]
  simp only []
  rw [if_neg (fun h => h.2 (hpos h.1))]
  rw [if_neg]
  simp only [List.any_eq_true, bne_iff_ne, ne_eq, not_exists, not_and, not_not]
  exact hall

theorem getFormat_congr (c d : OBJVertex) (hc : 0 < c.v) (hd : 0 < d.v) (hn : c.vn = d.vn)
    (ht : c.vt = d.vt) : c.getFormat = d.getFormat := by
  unfold OBJVertex.getFormat
  simp only [gt_iff_lt, hc, hd, hn, ht, if_true]

theorem faceVerts_slash_tokens (lib : Library) (s : ParseState) (bad : List Char)
    (vs : List Int) (hbad : '/' ∉ bad) (hpos : ∀ v ∈ vs, 0 < v)
    (hread : ∀ v ∈ vs, lib.fromStringInt (decimalText v) = v) :
    faceVerts lib s (['f'] :: vs.map (fun v => decimalText v ++ '/' :: bad))
      = vs.map fun v =>
          { v := v
            vn := resolveIndex s.normals.length (-1)
            vt := resolveIndex s.texcoords.length
              (if bad ≠ [] then lib.fromStringInt bad else -1) } := by
  unfold faceVerts
  rw [List.drop_one, List.tail_cons, List.map_map]
  apply List.map_congr_left
  intro v hv
  simp only [Function.comp]
  rw [ofString_one_slash lib (decimalText v) bad (decimalText_no_slash v) hbad]
  simp only [ne_eq, decimalText_ne_nil, not_false_eq_true, if_true, hread v hv]
  have : ¬ v < 0 := not_lt.mpr (le_of_lt (hpos v hv))
  simp only [resolveIndex, this, if_false]

theorem slash_tokens_accepted (lib : Library) (s : ParseState) (bad : List Char)
    (vs : List Int) (hfirst : s.vertexFormat = 0) (hbad : '/' ∉ bad) (hvs : 3 ≤ vs.length)
    (hpos : ∀ v ∈ vs, 0 < v) (hread : ∀ v ∈ vs, lib.fromStringInt (decimalText v) = v) :
    ∃ s', parseLine lib s (['f'] :: vs.map (fun v => decimalText v ++ '/' :: bad)) = .ok s' ∧
      s'.faces = s.faces ++ Tesselate (vs.map fun v =>
        { v := v
          vn := resolveIndex s.normals.length (-1)
          vt := resolveIndex s.texcoords.length
            (if bad ≠ [] then lib.fromStringInt bad else -1) }) := by
  have hverts := faceVerts_slash_tokens lib s bad vs hbad hpos hread
  obtain ⟨v0, rest, rfl⟩ : ∃ v0 rest, vs = v0 :: rest := by
    cases vs with
    | nil => simp at hvs
    | cons a l => exact ⟨a, l, rfl⟩
  have hv0 : 0 < v0 := hpos v0 (by simp)
  have hest : establishedFormat s
      (faceVerts lib s (['f'] :: (v0 :: rest).map (fun v => decimalText v ++ '/' :: bad)))
      = ({ v := v0
           vn := resolveIndex s.normals.length (-1)
           vt := resolveIndex s.texcoords.length
             (if bad ≠ [] then lib.fromStringInt bad else -1) } : OBJVertex).getFormat := by
    rw [hverts]
    simp [establishedFormat, hfirst, vertAt]
  have hacc := parseFace_accepts lib s
    (['f'] :: (v0 :: rest).map (fun v => decimalText v ++ '/' :: bad))
    (by simp only [List.length_cons, List.length_map] at hvs ⊢; omega)
    (by
      intro _
      rw [hest]
      exact (getFormat_flags _).1.mpr hv0)
    (by
      intro c hc
      rw [hest]
      rw [hverts] at hc
      obtain ⟨v, hv, rfl⟩ := List.mem_map.mp hc
      exact getFormat_congr _ _ (hpos v hv) hv0 rfl rfl)
  rw [parseLine_face, hacc]
  refine ⟨_, rfl, ?_⟩
  simp only []
  rw [hverts]

/-! ## The rest of `load` for a file without faces -/

theorem finishLoad_no_faces (lib : Library) (gl : GLNames) (sct : Bool) (m : OBJMesh)
    (s : ParseState) (hf : s.faces = []) (hv : s.vertexFormat = 0)
    (hn : s.normals.length = s.positions.length)
    (ht : s.texcoords.length = s.positions.length) :
    finishLoad lib gl sct m s
      = if gl.vao = 0 then
          .failed .vaoFailed
            { (computeLayout true true sct m).1 with
              mNumVertices := 0, mNumIndices := 0, mVAO := gl.vao }
        else .undefined := by
  obtain ⟨positions, normals, texcoords, faces, vf⟩ := s
  simp only at hf hv hn ht
  subst hf hv
  have hN : inferFlag (0 &&& OBJ_VFF_NORMAL == OBJ_VFF_NORMAL) normals.length positions.length
      = true := by
    simp [inferFlag, hn, OBJ_VFF_NORMAL]
  have hT : inferFlag (0 &&& OBJ_VFF_TEXCOORD == OBJ_VFF_TEXCOORD) texcoords.length
      positions.length = true := by
    simp [inferFlag, ht, OBJ_VFF_TEXCOORD]
  have hfaces : inferTexCoords (0 &&& OBJ_VFF_TEXCOORD == OBJ_VFF_TEXCOORD) texcoords.length
      positions.length
      (inferNormals (0 &&& OBJ_VFF_NORMAL == OBJ_VFF_NORMAL) normals.length positions.length [])
      = [] := by
    rw [infer_faces_eq]; rfl
  have hre : reindexDispatch true true positions normals texcoords []
      = some ([], [], [], []) := rfl
  have htan : (if (computeLayout true true sct m).2.2 then
      ComputeTangents lib [] [] [] [] else some []) = some [] := by
    split <;> rfl
  unfold finishLoad
  simp only []
  rw [hN, hT, hfaces, hre]
  simp only []
  rw [htan]
  simp only [List.length_nil, Nat.mul_zero]
  have hb : buildVertexData true true (computeLayout true true sct m).2.2 [] [] [] [] 0
      = some [] := rfl
  rw [hb]
  simp only []
  by_cases hvao : gl.vao = 0
  · rw [if_pos hvao, if_pos hvao]
  · rw [if_neg hvao, if_neg hvao]
    rfl

theorem computeLayout_full_stride (sct : Bool) (m : OBJMesh) :
    (computeLayout true true sct m).1.mStride = if sct then 48 else 32 := by
  cases sct <;> rfl

/-! ## Every output vertex is referenced -/

theorem allCorners_length (faces : List OBJTriangle) :
    (allCorners faces).length = 3 * faces.length := by
  induction faces with
  | nil => rfl
  | cons f fs ih =>
    rw [allCorners_cons]
    simp only [List.length_cons, ih]
    omega

theorem faceKeys_length_le (hn ht : Bool) (faces : List OBJTriangle) :
    (faceKeys hn ht faces).length ≤ 3 * faces.length := by
  rw [faceKeys_length, ← allCorners_length faces]
  calc ((allCorners faces).map (dedupKey hn ht)).toFinset.card
      ≤ ((allCorners faces).map (dedupKey hn ht)).length := List.toFinset_card_le _
    _ = (allCorners faces).length := List.length_map _ _

theorem mem_allCorners (faces : List OBJTriangle) (c : OBJVertex) (hc : c ∈ allCorners faces) :
    ∃ (i : Nat) (f : OBJTriangle) (j : Fin 3), faces[i]? = some f ∧ f.verts j = c := by
  unfold allCorners at hc
  obtain ⟨f, hf, hcf⟩ := List.mem_flatMap.mp hc
  obtain ⟨i, hi⟩ := List.mem_iff_getElem?.mp hf
  simp only [OBJTriangle.corners, List.mem_cons, List.mem_singleton, List.not_mem_nil,
    or_false] at hcf
  rcases hcf with rfl | rfl | rfl
  · exact ⟨i, f, 0, hi, rfl⟩
  · exact ⟨i, f, 1, hi, rfl⟩
  · exact ⟨i, f, 2, hi, rfl⟩

theorem dense_index_referenced (hn ht : Bool) (positions normals : List Vec3)
    (texcoords : List TexCoord) (faces : List OBJTriangle)
    (out : List (Vec3 × Vec3 × TexCoord))
    (ho : out.map some = (faceKeys hn ht faces).map (fetchAttrs positions normals texcoords))
    (k : Nat) (hk : k < out.length) :
    ∃ (i : Nat) (f : OBJTriangle) (t : IndexTriangle) (j : Fin 3), faces[i]? = some f ∧
      (faces.map (denseTriangle (dedupKey hn ht) (faceKeys hn ht faces)))[i]? = some t ∧
      t.index j = k ∧
      (out.map (fun a => a.1))[k]? = vecAt positions ((f.verts j).v - 1) := by
  have hlen : out.length = (faceKeys hn ht faces).length := by
    have := congrArg List.length ho
    simpa using this
  have hk' : k < (faceKeys hn ht faces).length := hlen ▸ hk
  have hnd : (faceKeys hn ht faces).Nodup := distinctInOrder_nodup _
  have hmem : (faceKeys hn ht faces)[k] ∈ faceKeys hn ht faces := List.getElem_mem hk'
  obtain ⟨c, hc, hkey⟩ := faceKeys_mem hn ht faces _ hmem
  obtain ⟨i, f, j, hi, rfl⟩ := mem_allCorners faces c hc
  have hidx : (faceKeys hn ht faces).indexOf (dedupKey hn ht (f.verts j)) = k := by
    rw [← hkey]
    exact List.indexOf_getElem hnd k hk'
  obtain ⟨a, hfa, hoa⟩ := out_at_indexOf (fetchAttrs positions normals texcoords)
    (faceKeys hn ht faces) out ho (dedupKey hn ht (f.verts j)) (hkey ▸ hmem)
  rw [hidx] at hoa
  refine ⟨i, f, denseTriangle (dedupKey hn ht) (faceKeys hn ht faces) f, j, hi, ?_, ?_, ?_⟩
  · rw [List.getElem?_map, hi]; rfl
  · rw [denseTriangle_index, hidx]
  · rw [List.getElem?_map, hoa]
    have := fetchAttrs_position positions normals texcoords _ a hfa
    simp only [dedupKey] at this
    rw [this]; rfl

/-! ## The sample normalisation -/

theorem axisNormalize_scale (v : Vec3) : ∃ k, axisNormalize v = v.scale k := by
  unfold axisNormalize
  by_cases h : v.y = 0 ∧ v.z = 0 ∧ v.x ≠ 0
  · rw [if_pos h]
    obtain ⟨hy, hz, hx⟩ := h
    refine ⟨(if v.x < 0 then -1 else 1) / v.x, ?_⟩
    simp only [Vec3.scale, hy, hz, zero_mul, Vec3.mk.injEq, and_true]
    field_simp
  · rw [if_neg h]
    exact ⟨1, by simp [Vec3.scale]⟩

/-! ## Reindexing: claims C1 to C4 -/

/-- C1 (Reindex attribute fidelity). For every raw triangle list whose indices
are within `1..count` of their arrays, the overload selected by the active
attributes returns, and for every triangle `i` and corner `j` the output vertex
at the dense index `newFaces[i].index[j]` has the position `positions[v-1]`, and
when normals (texcoords) are active the normal `normals[vn-1]` (the texcoord
`texcoords[vt-1]`), where `(v, vn, vt)` is that corner's reference. -/
theorem reindex_attribute_fidelity (haveNormals haveTexCoords : Bool)
    (positions normals : List Vec3) (texcoords : List TexCoord) (faces : List OBJTriangle)
    (hr : IndicesInRange haveNormals haveTexCoords positions normals texcoords faces) :
    ∃ newPositions newNormals newTexcoords newFaces,
      reindexDispatch haveNormals haveTexCoords positions normals texcoords faces
        = some (newPositions, newNormals, newTexcoords, newFaces) ∧
      newFaces.length = faces.length ∧
      ∀ (i : Nat) (f : OBJTriangle) (t : IndexTriangle),
        faces[i]? = some f → newFaces[i]? = some t → ∀ j : Fin 3,
          (∃ p, vecAt positions ((f.verts j).v - 1) = some p ∧
            newPositions[t.index j]? = some p) ∧
          (haveNormals = true → ∃ n, vecAt normals ((f.verts j).vn - 1) = some n ∧
            newNormals[t.index j]? = some n) ∧
          (haveTexCoords = true → ∃ x, vecAt texcoords ((f.verts j).vt - 1) = some x ∧
            newTexcoords[t.index j]? = some x) := by
  obtain ⟨out, e, ho⟩ := reindexDispatch_spec haveNormals haveTexCoords positions normals
    texcoords faces hr
  refine ⟨_, _, _, _, e, by simp, ?_⟩
  intro i f t hf ht j
  have hfm : f ∈ faces := List.getElem?_mem hf
  rw [List.getElem?_map, hf, Option.map_some'] at ht
  cases ht
  obtain ⟨a, ha, hoa⟩ := out_at_indexOf _ _ out ho _
    (mem_faceKeys_of_corner haveNormals haveTexCoords faces f hfm j)
  obtain ⟨h1, h2, h3⟩ := fetchAttrs_some _ _ _ _ _ _ a ha
  rw [denseTriangle_index]
  refine ⟨⟨a.1, h1, by simp [List.getElem?_map, hoa]⟩, ?_, ?_⟩
  · intro hN
    exact ⟨a.2.1, h2 hN, by rw [if_pos hN, List.getElem?_map, hoa]; rfl⟩
  · intro hT
    exact ⟨a.2.2, h3 hT, by rw [if_pos hT, List.getElem?_map, hoa]; rfl⟩

theorem reindex_attribute_fidelity_witness :
    IndicesInRange true true samplePositions sampleNormals sampleTexcoords sampleFaces ∧
    ∃ newPositions newNormals newTexcoords newFaces,
      reindexDispatch true true samplePositions sampleNormals sampleTexcoords sampleFaces
        = some (newPositions, newNormals, newTexcoords, newFaces) ∧
      newFaces.length = sampleFaces.length ∧
      ∀ (i : Nat) (f : OBJTriangle) (t : IndexTriangle),
        sampleFaces[i]? = some f → newFaces[i]? = some t → ∀ j : Fin 3,
          (∃ p, vecAt samplePositions ((f.verts j).v - 1) = some p ∧
            newPositions[t.index j]? = some p) ∧
          (true = true → ∃ n, vecAt sampleNormals ((f.verts j).vn - 1) = some n ∧
            newNormals[t.index j]? = some n) ∧
          (true = true → ∃ x, vecAt sampleTexcoords ((f.verts j).vt - 1) = some x ∧
            newTexcoords[t.index j]? = some x) :=
  ⟨by decide, reindex_attribute_fidelity true true samplePositions sampleNormals
    sampleTexcoords sampleFaces (by decide)⟩

/-- C2 (Reindex deduplication). For every raw triangle list with indices in
range, two triangle corners receive the same dense index if and only if they
have the same `DedupKey`; the number of output vertices is the number of
distinct keys referenced by the faces; and two corners that differ in an active
normal or texcoord index get distinct output vertices, also when they share
the position index. -/
theorem reindex_deduplication (haveNormals haveTexCoords : Bool)
    (positions normals : List Vec3) (texcoords : List TexCoord) (faces : List OBJTriangle)
    (hr : IndicesInRange haveNormals haveTexCoords positions normals texcoords faces) :
    ∃ newPositions newNormals newTexcoords newFaces,
      reindexDispatch haveNormals haveTexCoords positions normals texcoords faces
        = some (newPositions, newNormals, newTexcoords, newFaces) ∧
      (∀ (i i' : Nat) (f f' : OBJTriangle) (t t' : IndexTriangle),
        faces[i]? = some f → faces[i']? = some f' →
        newFaces[i]? = some t → newFaces[i']? = some t' → ∀ j j' : Fin 3,
          (t.index j = t'.index j' ↔
              dedupKey haveNormals haveTexCoords (f.verts j)
                = dedupKey haveNormals haveTexCoords (f'.verts j')) ∧
          ((haveNormals = true ∧ (f.verts j).vn ≠ (f'.verts j').vn) ∨
            (haveTexCoords = true ∧ (f.verts j).vt ≠ (f'.verts j').vt) →
              t.index j ≠ t'.index j')) ∧
      newPositions.length
        = ((allCorners faces).map (dedupKey haveNormals haveTexCoords)).toFinset.card := by
  obtain ⟨out, e, ho⟩ := reindexDispatch_spec haveNormals haveTexCoords positions normals
    texcoords faces hr
  have hlen : out.length = (faceKeys haveNormals haveTexCoords faces).length := by
    simpa using congrArg List.length ho
  refine ⟨_, _, _, _, e, ?_, by rw [List.length_map, hlen, faceKeys_length]⟩
  intro i i' f f' t t' hf hf' ht ht' j j'
  rw [List.getElem?_map, hf, Option.map_some'] at ht
  rw [List.getElem?_map, hf', Option.map_some'] at ht'
  cases ht
  cases ht'
  have hiff := List.indexOf_inj
    (mem_faceKeys_of_corner haveNormals haveTexCoords faces f (List.getElem?_mem hf) j)
    (mem_faceKeys_of_corner haveNormals haveTexCoords faces f' (List.getElem?_mem hf') j')
  rw [denseTriangle_index, denseTriangle_index]
  refine ⟨hiff, ?_⟩
  intro hd heq
  have hk := hiff.1 heq
  simp only [dedupKey, DedupKey.mk.injEq] at hk
  rcases hd with ⟨hN, hne⟩ | ⟨hT, hne⟩
  · rw [if_pos hN, if_pos hN] at hk
    exact hne (Option.some.inj hk.2.1)
  · rw [if_pos hT, if_pos hT] at hk
    exact hne (Option.some.inj hk.2.2)

theorem reindex_deduplication_witness :
    IndicesInRange true true samplePositions sampleNormals sampleTexcoords sampleFaces ∧
    ∃ newPositions newNormals newTexcoords newFaces,
      reindexDispatch true true samplePositions sampleNormals sampleTexcoords sampleFaces
        = some (newPositions, newNormals, newTexcoords, newFaces) ∧
      (∀ (i i' : Nat) (f f' : OBJTriangle) (t t' : IndexTriangle),
        sampleFaces[i]? = some f → sampleFaces[i']? = some f' →
        newFaces[i]? = some t → newFaces[i']? = some t' → ∀ j j' : Fin 3,
          (t.index j = t'.index j' ↔
              dedupKey true true (f.verts j) = dedupKey true true (f'.verts j')) ∧
          ((true = true ∧ (f.verts j).vn ≠ (f'.verts j').vn) ∨
            (true = true ∧ (f.verts j).vt ≠ (f'.verts j').vt) →
              t.index j ≠ t'.index j')) ∧
      newPositions.length = ((allCorners sampleFaces).map (dedupKey true true)).toFinset.card :=
  ⟨by decide, reindex_deduplication true true samplePositions sampleNormals
    sampleTexcoords sampleFaces (by decide)⟩

/-- C3 (index validity). For every input with raw indices in range `Reindex`
completes, and every dense index written into `newFaces` is strictly less than
the number of output vertices (the length of the replaced `positions`). -/
theorem reindex_index_validity (haveNormals haveTexCoords : Bool)
    (positions normals : List Vec3) (texcoords : List TexCoord) (faces : List OBJTriangle)
    (hr : IndicesInRange haveNormals haveTexCoords positions normals texcoords faces) :
    ∃ newPositions newNormals newTexcoords newFaces,
      reindexDispatch haveNormals haveTexCoords positions normals texcoords faces
        = some (newPositions, newNormals, newTexcoords, newFaces) ∧
      ∀ t ∈ newFaces, ∀ j : Fin 3, t.index j < newPositions.length := by
  obtain ⟨out, e, ho⟩ := reindexDispatch_spec haveNormals haveTexCoords positions normals
    texcoords faces hr
  have hlen : out.length = (faceKeys haveNormals haveTexCoords faces).length := by
    simpa using congrArg List.length ho
  refine ⟨_, _, _, _, e, ?_⟩
  intro t ht j
  rw [List.mem_map] at ht
  obtain ⟨f, hf, rfl⟩ := ht
  rw [denseTriangle_index, List.length_map, hlen]
  exact List.indexOf_lt_length.2 (mem_faceKeys_of_corner haveNormals haveTexCoords faces f hf j)

theorem reindex_index_validity_witness :
    IndicesInRange false false samplePositions sampleNormals sampleTexcoords sampleFaces ∧
    ∃ newPositions newNormals newTexcoords newFaces,
      reindexDispatch false false samplePositions sampleNormals sampleTexcoords sampleFaces
        = some (newPositions, newNormals, newTexcoords, newFaces) ∧
      ∀ t ∈ newFaces, ∀ j : Fin 3, t.index j < newPositions.length :=
  ⟨by decide, reindex_index_validity false false samplePositions sampleNormals
    sampleTexcoords sampleFaces (by decide)⟩

/-- C4 (Reindex first-occurrence order). Dense indices follow the order in
which distinct keys first occur in the triangle/corner traversal: every corner
gets the position of its key in `faceKeys` (the distinct keys in order of first
occurrence), output vertex `k` carries the attributes of the `k`-th key of that
list, and the first corner of the first triangle gets index 0. -/
theorem reindex_first_occurrence_order (haveNormals haveTexCoords : Bool)
    (positions normals : List Vec3) (texcoords : List TexCoord) (faces : List OBJTriangle)
    (hr : IndicesInRange haveNormals haveTexCoords positions normals texcoords faces) :
    ∃ newPositions newNormals newTexcoords newFaces,
      reindexDispatch haveNormals haveTexCoords positions normals texcoords faces
        = some (newPositions, newNormals, newTexcoords, newFaces) ∧
      newFaces = faces.map (fun f => IndexTriangle.mk
        ((faceKeys haveNormals haveTexCoords faces).indexOf
          (dedupKey haveNormals haveTexCoords f.v0))
        ((faceKeys haveNormals haveTexCoords faces).indexOf
          (dedupKey haveNormals haveTexCoords f.v1))
        ((faceKeys haveNormals haveTexCoords faces).indexOf
          (dedupKey haveNormals haveTexCoords f.v2))) ∧
      newPositions.map some
        = (faceKeys haveNormals haveTexCoords faces).map (fun k => vecAt positions (k.v - 1)) ∧
      (haveNormals = true → newNormals.map some
        = (faceKeys haveNormals haveTexCoords faces).map
            (fun k => k.vn.bind fun vn => vecAt normals (vn - 1))) ∧
      (haveTexCoords = true → newTexcoords.map some
        = (faceKeys haveNormals haveTexCoords faces).map
            (fun k => k.vt.bind fun vt => vecAt texcoords (vt - 1))) ∧
      (∀ f fs, faces = f :: fs → ∃ t ts, newFaces = t :: ts ∧ t.index 0 = 0) := by
  obtain ⟨out, e, ho⟩ := reindexDispatch_spec haveNormals haveTexCoords positions normals
    texcoords faces hr
  refine ⟨_, _, _, _, e, rfl, ?_, ?_, ?_, ?_⟩
  · refine map_some_transfer _ _ _ _ out ho ?_
    intro k hk a ha
    obtain ⟨c, _, rfl⟩ := faceKeys_mem _ _ _ k hk
    exact (fetchAttrs_some _ _ _ _ _ c a ha).1
  · intro hN
    rw [if_pos hN]
    refine map_some_transfer _ _ _ _ out ho ?_
    intro k hk a ha
    obtain ⟨c, _, rfl⟩ := faceKeys_mem _ _ _ k hk
    have := (fetchAttrs_some _ _ _ _ _ c a ha).2.1 hN
    simpa [dedupKey, hN] using this
  · intro hT
    rw [if_pos hT]
    refine map_some_transfer _ _ _ _ out ho ?_
    intro k hk a ha
    obtain ⟨c, _, rfl⟩ := faceKeys_mem _ _ _ k hk
    have := (fetchAttrs_some _ _ _ _ _ c a ha).2.2 hT
    simpa [dedupKey, hT] using this
  · intro f fs hfs
    subst hfs
    refine ⟨_, _, List.map_cons _ _ _, ?_⟩
    rw [denseTriangle_index]
    unfold faceKeys distinctInOrder
    have hv : f.verts 0 = f.v0 := rfl
    rw [allCorners_cons, List.map_cons, distinctFrom, hv,
      indexOf_distinctFrom _ _ _ (mem_addKey_self _ _)]
    simp [addKey]

theorem reindex_first_occurrence_order_witness :
    IndicesInRange true false samplePositions sampleNormals sampleTexcoords sampleFaces ∧
    ∃ newPositions newNormals newTexcoords newFaces,
      reindexDispatch true false samplePositions sampleNormals sampleTexcoords sampleFaces
        = some (newPositions, newNormals, newTexcoords, newFaces) ∧
      newFaces = sampleFaces.map (fun f => IndexTriangle.mk
        ((faceKeys true false sampleFaces).indexOf (dedupKey true false f.v0))
        ((faceKeys true false sampleFaces).indexOf (dedupKey true false f.v1))
        ((faceKeys true false sampleFaces).indexOf (dedupKey true false f.v2))) ∧
      newPositions.map some
        = (faceKeys true false sampleFaces).map (fun k => vecAt samplePositions (k.v - 1)) ∧
      (true = true → newNormals.map some
        = (faceKeys true false sampleFaces).map
            (fun k => k.vn.bind fun vn => vecAt sampleNormals (vn - 1))) ∧
      (false = true → newTexcoords.map some
        = (faceKeys true false sampleFaces).map
            (fun k => k.vt.bind fun vt => vecAt sampleTexcoords (vt - 1))) ∧
      (∀ f fs, sampleFaces = f :: fs → ∃ t ts, newFaces = t :: ts ∧ t.index 0 = 0) :=
  ⟨by decide, reindex_first_occurrence_order true false samplePositions sampleNormals
    sampleTexcoords sampleFaces (by decide)⟩

/-! ## Triangulation: claim C5 -/

/-- C5 (triangulation correctness). For every face vertex list `v` of length
`n >= 3`, `Tesselate` returns exactly `n - 2` triangles, and for every `i` in
`[0, n-3]` triangle `i` is `(v[0], v[i+1], v[i+2])`. -/
theorem tesselate_fan (v : List OBJVertex) (h : 3 ≤ v.length) :
    (Tesselate v).length = v.length - 2 ∧
    ∀ i, i ≤ v.length - 3 → ∃ a b c,
      v[0]? = some a ∧ v[i + 1]? = some b ∧ v[i + 2]? = some c ∧
      (Tesselate v)[i]? = some { v0 := a, v1 := b, v2 := c } := by
  refine ⟨Tesselate_length v h, ?_⟩
  intro i hi
  have h0 : 0 < v.length := by omega
  have h1 : i + 1 < v.length := by omega
  have h2 : i + 2 < v.length := by omega
  refine ⟨v[0], v[i + 1], v[i + 2], List.getElem?_eq_getElem h0, List.getElem?_eq_getElem h1,
    List.getElem?_eq_getElem h2, ?_⟩
  rw [Tesselate_getElem? v h i (by omega),
    vertAt_eq v 0 _ (List.getElem?_eq_getElem h0),
    vertAt_eq v (i + 1) _ (List.getElem?_eq_getElem h1),
    vertAt_eq v (i + 2) _ (List.getElem?_eq_getElem h2)]

theorem tesselate_fan_witness :
    (Tesselate [⟨1, 1, 1⟩, ⟨2, 2, 2⟩, ⟨3, 3, 3⟩, ⟨4, 4, 4⟩, ⟨5, 5, 5⟩]).length = 5 - 2 ∧
    ∀ i, i ≤ 5 - 3 → ∃ a b c,
      [(⟨1, 1, 1⟩ : OBJVertex), ⟨2, 2, 2⟩, ⟨3, 3, 3⟩, ⟨4, 4, 4⟩, ⟨5, 5, 5⟩][0]? = some a ∧
      [(⟨1, 1, 1⟩ : OBJVertex), ⟨2, 2, 2⟩, ⟨3, 3, 3⟩, ⟨4, 4, 4⟩, ⟨5, 5, 5⟩][i + 1]? = some b ∧
      [(⟨1, 1, 1⟩ : OBJVertex), ⟨2, 2, 2⟩, ⟨3, 3, 3⟩, ⟨4, 4, 4⟩, ⟨5, 5, 5⟩][i + 2]? = some c ∧
      (Tesselate [⟨1, 1, 1⟩, ⟨2, 2, 2⟩, ⟨3, 3, 3⟩, ⟨4, 4, 4⟩, ⟨5, 5, 5⟩])[i]?
        = some { v0 := a, v1 := b, v2 := c } :=
  tesselate_fan [⟨1, 1, 1⟩, ⟨2, 2, 2⟩, ⟨3, 3, 3⟩, ⟨4, 4, 4⟩, ⟨5, 5, 5⟩] (by decide)

/-! ## Format checks and inference: claims C6, C7 and C9 -/

/-- C6 (format consistency), evaluation at the failing input: the file with
first face `f 1/1/1 2/2/2 3/3/3` and second face `f 1/1 2/2 3/3` is loaded,
not rejected: the omitted normal index is resolved like `-1` to the last
declared normal, so the second face has the format of the first. -/
theorem mixed_format_file_is_loaded :
    ∃ r, load sampleLibrary sampleGL (some mixedFormatFile) false OBJMesh.zero
        = LoadResult.loaded r ∧
      r.newFaces = [⟨0, 1, 2⟩, ⟨3, 4, 2⟩] ∧
      r.normals = [⟨1, 0, 0⟩, ⟨2, 0, 0⟩, ⟨3, 0, 0⟩, ⟨3, 0, 0⟩, ⟨3, 0, 0⟩] := by
  refine ⟨_, rfl, ?_, ?_⟩ <;> decide

/-- C7 (inference fallback), evaluation at the failing input: for the file with
4 positions, 4 normals and faces `f 1 2 3`, `f 1 3 4`, `load` succeeds with
normals present, but every output vertex carries the last raw normal
`normal[3]`, not `normal[p-1]`: the first output normal is not raw `normal[0]`. -/
theorem parallel_normals_file_gets_last_normal :
    ∃ r, load sampleLibrary sampleGL (some parallelNormalsFile) false OBJMesh.zero
        = LoadResult.loaded r ∧
      r.haveNormals = true ∧
      r.normals = [⟨4, 0, 0⟩, ⟨4, 0, 0⟩, ⟨4, 0, 0⟩, ⟨4, 0, 0⟩] ∧
      r.normals[0]? ≠ some (⟨1, 0, 0⟩ : Vec3) := by
  refine ⟨_, rfl, ?_, ?_, ?_⟩ <;> decide

/-- C9 (missing position), evaluation at the failing input: a file whose first
face is `f //1 //1 //1`, after three declared positions, is loaded, not
rejected: the missing position index is resolved like `-1` to the last declared
position. -/
theorem no_position_file_is_loaded :
    ∃ r, load sampleLibrary sampleGL (some noPositionFile) false OBJMesh.zero
        = LoadResult.loaded r ∧
      r.positions = [⟨1, 1, 0⟩] ∧ r.newFaces = [⟨0, 0, 0⟩] := by
  refine ⟨_, rfl, ?_, ?_⟩ <;> decide

/-! ## Negative indices: claim C8 -/

/-- C8 (negative-index resolution). A negative index `k` in a face-vertex field
is resolved to `n + k + 1`, where `n` is the number of values of that attribute
declared on the lines before the face line (`-1` with 5 positions gives 5); the
triangles stored for the face line are those of the vertices so resolved,
whatever lines follow it. Here `pre` are the lines before the face line
`f toks`, `post` the lines after it, and the counts are 32-bit `int` values. -/
theorem negative_index_resolution (lib : Library) (pre post : List (List (List Char)))
    (toks : List (List Char)) (sEnd : ParseState)
    (h : parseLines lib ParseState.init (pre ++ (['f'] :: toks) :: post) = .ok sEnd) :
    (∃ rest, sEnd.faces
      = (match parseLines lib ParseState.init pre with
          | .ok sPre => sPre.faces
          | .error _ => []) ++
        Tesselate (toks.map fun tok =>
          { v := resolveIndex (pre.countP (declares ['v'])) (OBJVertex.ofString lib tok).v
            vn := resolveIndex (pre.countP (declares ['v', 'n'])) (OBJVertex.ofString lib tok).vn
            vt := resolveIndex (pre.countP (declares ['v', 't']))
                    (OBJVertex.ofString lib tok).vt }) ++ rest) ∧
    (∀ (n : Nat) (k : Int), n < 2 ^ 31 → -2 ^ 31 ≤ k → k < 0 →
      resolveIndex n k = n + k + 1) ∧
    resolveIndex 5 (-1) = 5 := by
  refine ⟨?_, resolveIndex_neg, by decide⟩
  rw [parseLines_append] at h
  cases hpre : parseLines lib ParseState.init pre with
  | error e => rw [hpre] at h; cases h
  | ok sPre =>
    rw [hpre] at h
    simp only [parseLines] at h
    cases hmid : parseLine lib sPre (['f'] :: toks) with
    | error e => rw [hmid] at h; cases h
    | ok sMid =>
      rw [hmid] at h
      rw [parseLine_face] at hmid
      have e1 := parseFace_ok lib sPre sMid _ hmid
      obtain ⟨c1, c2, c3, _⟩ := parseLines_ok lib pre _ sPre hpre
      obtain ⟨_, _, _, rest, e2⟩ := parseLines_ok lib post sMid sEnd h
      refine ⟨rest, ?_⟩
      rw [e2, e1]
      simp only [faceVerts, List.drop_one, List.tail_cons, c1, c2, c3, ParseState.init,
        List.length_nil, Nat.zero_add]

theorem negative_index_resolution_witness :
    (∃ rest, relativeIndexParsed.faces
      = (match parseLines sampleLibrary ParseState.init
            ((fileOfLines ["v 0 0 0", "v 1 0 0", "v 1 1 0", "v 0 1 0", "v 2 2 2"]).lines) with
          | .ok sPre => sPre.faces
          | .error _ => []) ++
        Tesselate (["-1".toList, "-2".toList, "-3".toList].map fun tok =>
          { v := resolveIndex
              ((fileOfLines ["v 0 0 0", "v 1 0 0", "v 1 1 0", "v 0 1 0", "v 2 2 2"]).lines.countP
                (declares ['v'])) (OBJVertex.ofString sampleLibrary tok).v
            vn := resolveIndex
              ((fileOfLines ["v 0 0 0", "v 1 0 0", "v 1 1 0", "v 0 1 0", "v 2 2 2"]).lines.countP
                (declares ['v', 'n'])) (OBJVertex.ofString sampleLibrary tok).vn
            vt := resolveIndex
              ((fileOfLines ["v 0 0 0", "v 1 0 0", "v 1 1 0", "v 0 1 0", "v 2 2 2"]).lines.countP
                (declares ['v', 't'])) (OBJVertex.ofString sampleLibrary tok).vt }) ++ rest) ∧
    (∀ (n : Nat) (k : Int), n < 2 ^ 31 → -2 ^ 31 ≤ k → k < 0 →
      resolveIndex n k = n + k + 1) ∧
    resolveIndex 5 (-1) = 5 :=
  negative_index_resolution sampleLibrary
    ((fileOfLines ["v 0 0 0", "v 1 0 0", "v 1 1 0", "v 0 1 0", "v 2 2 2"]).lines)
    ((fileOfLines ["v 9 9 9"]).lines) ["-1".toList, "-2".toList, "-3".toList]
    relativeIndexParsed (by rfl)

/-! ## Tangent handedness: claim C10 -/

/-- C10 as stated fails: for the triangle `(0,0,0) (1,0,0) (0,1,0)` with
texture coordinates `(0,0) (1,0) (0,1)` and normal `(0,0,-1)`, vertex 0 has
accumulated tangent `(1,0,0)` and bitangent `(0,1,0)`, the value
`dot(cross(n, t), b)` is `-1 < 0`, and the 4th tangent component is `+1`. -/
theorem tangent_handedness_counterexample :
    accumulateTangents trianglePositions triangleTexcoords
        (List.replicate 3 ⟨0, 0, 0⟩, List.replicate 3 ⟨0, 0, 0⟩) [⟨0, 1, 2⟩]
      = some ([⟨1, 0, 0⟩, ⟨1, 0, 0⟩, ⟨1, 0, 0⟩], [⟨0, 1, 0⟩, ⟨0, 1, 0⟩, ⟨0, 1, 0⟩]) ∧
    ComputeTangents sampleLibrary trianglePositions downNormals triangleTexcoords [⟨0, 1, 2⟩]
      = some [⟨1, 0, 0, 1⟩, ⟨1, 0, 0, 1⟩, ⟨1, 0, 0, 1⟩] ∧
    ((⟨0, 0, -1⟩ : Vec3).cross ⟨1, 0, 0⟩).dot ⟨0, 1, 0⟩ < 0 := by
  have hacc : accumulateTangents trianglePositions triangleTexcoords
        (List.replicate 3 ⟨0, 0, 0⟩, List.replicate 3 ⟨0, 0, 0⟩) [⟨0, 1, 2⟩]
      = some ([⟨1, 0, 0⟩, ⟨1, 0, 0⟩, ⟨1, 0, 0⟩], [⟨0, 1, 0⟩, ⟨0, 1, 0⟩, ⟨0, 1, 0⟩]) := by
    simp [accumulateTangents, accumulateTriangle, trianglePositions, triangleTexcoords,
      IndexTriangle.index, addAt, triangleSdir, triangleTdir, Vec3.add, List.replicate]
  refine ⟨hacc, ?_, ?_⟩
  · have h3 : trianglePositions.length = 3 := rfl
    simp only [ComputeTangents, h3, hacc, Option.some_bind]
    simp [forEachIndex, List.range, List.range.loop, allReads, downNormals, vertexTangent,
      sampleLibrary, Vec3.cross, Vec3.dot, Vec3.sub, Vec3.scale]
  · simp [Vec3.cross, Vec3.dot]

/-- C10 amended (tangent handedness). When every triangle index is below the
number of vertices and there are at least as many normals and texcoords as
positions, `ComputeTangents` returns one tangent per vertex, and for every
vertex the 4th tangent component is `+1` if `dot(cross(n, t), b) < 0` and `-1`
otherwise, where `n` is the vertex normal and `t`, `b` are the values of the
accumulators `tan1`, `tan2` for that vertex after the loop over the triangles. -/
theorem tangent_handedness (lib : Library) (positions normals : List Vec3)
    (texcoords : List TexCoord) (triangles : List IndexTriangle)
    (hidx : ∀ t ∈ triangles, ∀ j : Fin 3, t.index j < positions.length)
    (hn : positions.length ≤ normals.length) (ht : positions.length ≤ texcoords.length) :
    ∃ tan1 tan2 tangents,
      accumulateTangents positions texcoords
          (List.replicate positions.length ⟨0, 0, 0⟩, List.replicate positions.length ⟨0, 0, 0⟩)
          triangles = some (tan1, tan2) ∧
      ComputeTangents lib positions normals texcoords triangles = some tangents ∧
      tangents.length = positions.length ∧
      ∀ a, a < positions.length → ∃ n t b tg,
        normals[a]? = some n ∧ tan1[a]? = some t ∧ tan2[a]? = some b ∧
        tangents[a]? = some tg ∧
        tg.w = if (n.cross t).dot b < 0 then 1 else -1 := by
  obtain ⟨acc, eacc, l1, l2⟩ := accumulateTangents_some positions texcoords triangles
    (List.replicate positions.length ⟨0, 0, 0⟩, List.replicate positions.length ⟨0, 0, 0⟩)
    hidx ht (by simp) (by simp)
  have hbody : ∀ a, a < positions.length →
      (normals[a]?.bind fun n => acc.1[a]?.bind fun t => acc.2[a]?.map fun b =>
        vertexTangent lib n t b).isSome = true := by
    intro a ha
    rw [List.getElem?_eq_getElem (show a < normals.length by omega),
      List.getElem?_eq_getElem (show a < acc.1.length by omega),
      List.getElem?_eq_getElem (show a < acc.2.length by omega)]
    rfl
  obtain ⟨tangents, et, lt, ht'⟩ := forEachIndex_spec positions.length _ hbody
  refine ⟨acc.1, acc.2, tangents, eacc, ?_, lt, ?_⟩
  · simp only [ComputeTangents, eacc, Option.some_bind]
    exact et
  · intro a ha
    have hna : a < normals.length := by omega
    have h1a : a < acc.1.length := by omega
    have h2a : a < acc.2.length := by omega
    refine ⟨normals[a], acc.1[a], acc.2[a], vertexTangent lib normals[a] acc.1[a] acc.2[a],
      List.getElem?_eq_getElem hna, List.getElem?_eq_getElem h1a,
      List.getElem?_eq_getElem h2a, ?_, rfl⟩
    rw [ht' a ha, List.getElem?_eq_getElem hna, List.getElem?_eq_getElem h1a,
      List.getElem?_eq_getElem h2a]
    rfl

theorem tangent_handedness_witness :
    ∃ tan1 tan2 tangents,
      accumulateTangents trianglePositions triangleTexcoords
          (List.replicate trianglePositions.length ⟨0, 0, 0⟩,
            List.replicate trianglePositions.length ⟨0, 0, 0⟩)
          [⟨0, 1, 2⟩] = some (tan1, tan2) ∧
      ComputeTangents sampleLibrary trianglePositions downNormals triangleTexcoords [⟨0, 1, 2⟩]
        = some tangents ∧
      tangents.length = trianglePositions.length ∧
      ∀ a, a < trianglePositions.length → ∃ n t b tg,
        downNormals[a]? = some n ∧ tan1[a]? = some t ∧ tan2[a]? = some b ∧
        tangents[a]? = some tg ∧
        tg.w = if (n.cross t).dot b < 0 then 1 else -1 :=
  tangent_handedness sampleLibrary trianglePositions downNormals triangleTexcoords [⟨0, 1, 2⟩]
    (by decide) (by decide) (by decide)

/-! ## Layout: claim C14 -/

/-- C14 (layout arithmetic). For every combination of `haveNormals`,
`haveTexCoords` and the tangent request, the layout computed by `load` has
position offset 0 and size 3, normal offset 12 (if present), texcoord offset
`12 + 12*[normals]` (if present), tangent offset `12 + 12*[normals] +
8*[texcoords]` (if tangents are computed), and stride
`4 * (3 + 3*[normals] + 2*[texcoords] + 4*[tangents])` bytes, where the number of
floats per vertex is a quarter of the stride. -/
theorem layout_arithmetic (haveNormals haveTexCoords shouldComputeTangents : Bool)
    (m : OBJMesh) :
    (computeLayout haveNormals haveTexCoords shouldComputeTangents m).1.mPositionOffset = 0 ∧
    (computeLayout haveNormals haveTexCoords shouldComputeTangents m).1.mPositionSize = 3 ∧
    (haveNormals = true →
      (computeLayout haveNormals haveTexCoords shouldComputeTangents m).1.mNormalOffset = 12 ∧
      (computeLayout haveNormals haveTexCoords shouldComputeTangents m).1.mNormalSize = 3) ∧
    (haveTexCoords = true →
      (computeLayout haveNormals haveTexCoords shouldComputeTangents m).1.mTexCoordOffset
        = 12 + 12 * (if haveNormals then 1 else 0) ∧
      (computeLayout haveNormals haveTexCoords shouldComputeTangents m).1.mTexCoordSize = 2) ∧
    ((computeLayout haveNormals haveTexCoords shouldComputeTangents m).2.2 = true →
      (computeLayout haveNormals haveTexCoords shouldComputeTangents m).1.mTangentlOffset
        = 12 + 12 * (if haveNormals then 1 else 0) + 8 * (if haveTexCoords then 1 else 0) ∧
      (computeLayout haveNormals haveTexCoords shouldComputeTangents m).1.mTangentSize = 4) ∧
    (computeLayout haveNormals haveTexCoords shouldComputeTangents m).1.mStride
      = 4 * (3 + 3 * (if haveNormals then 1 else 0) + 2 * (if haveTexCoords then 1 else 0)
          + 4 * (if (computeLayout haveNormals haveTexCoords shouldComputeTangents m).2.2
              then 1 else 0)) ∧
    (computeLayout haveNormals haveTexCoords shouldComputeTangents m).2.1
      = 3 + 3 * (if haveNormals then 1 else 0) + 2 * (if haveTexCoords then 1 else 0)
          + 4 * (if (computeLayout haveNormals haveTexCoords shouldComputeTangents m).2.2
              then 1 else 0) := by
  cases haveNormals <;> cases haveTexCoords <;> cases shouldComputeTangents <;>
    simp [computeLayout, sizeofGLfloat]

/-! ## Tangent request: claim C20 -/

/-- C20 (tangents only with normals and texcoords). For a successful `load`,
tangents are computed exactly when they were requested and both normals and
texcoords are present after inference: then `tangents` is the result of
`ComputeTangents` on the reindexed arrays and the layout holds a 4-component
tangent (offset 32, stride 48). Otherwise the request is dropped: `tangents` is
empty, the tangent size and offset keep the values they had before the call,
and the stride covers position, normal and texcoord only. -/
theorem tangent_request (lib : Library) (gl : GLNames) (file : Option FileContents)
    (shouldComputeTangents : Bool) (m : OBJMesh) (r : Loaded)
    (h : load lib gl file shouldComputeTangents m = .loaded r) :
    ((shouldComputeTangents && r.haveNormals && r.haveTexCoords) = true →
      ComputeTangents lib r.positions r.normals r.texcoords r.newFaces = some r.tangents ∧
      r.mesh.mTangentSize = 4 ∧ r.mesh.mTangentlOffset = 32 ∧ r.mesh.mStride = 48) ∧
    ((shouldComputeTangents && r.haveNormals && r.haveTexCoords) = false →
      r.tangents = [] ∧
      r.mesh.mTangentSize = m.mTangentSize ∧ r.mesh.mTangentlOffset = m.mTangentlOffset ∧
      r.mesh.mStride
        = 4 * (3 + (if r.haveNormals then 3 else 0) + (if r.haveTexCoords then 2 else 0))) := by
  obtain ⟨contents, s, _, _, _, hfin⟩ := load_loaded_inv lib gl file shouldComputeTangents m r h
  obtain ⟨_, _, _, htan, _, hmesh, _⟩ :=
    finishLoad_loaded_inv lib gl shouldComputeTangents m s r hfin
  rw [computeLayout_tangent_flag] at htan
  constructor
  · intro hc
    rw [if_pos hc] at htan
    obtain ⟨a, b, c⟩ := computeLayout_with_tangent _ _ _ m hc
    rw [hmesh]
    exact ⟨htan, a, b, c⟩
  · intro hc
    rw [hc] at htan
    obtain ⟨a, b, c⟩ := computeLayout_no_tangent _ _ _ m hc
    rw [hmesh]
    refine ⟨?_, a, b, c⟩
    simpa using htan.symm

theorem tangent_request_witness :
    ((true && parallelNormalsLoaded.haveNormals && parallelNormalsLoaded.haveTexCoords) = true →
      ComputeTangents sampleLibrary parallelNormalsLoaded.positions parallelNormalsLoaded.normals
        parallelNormalsLoaded.texcoords parallelNormalsLoaded.newFaces
          = some parallelNormalsLoaded.tangents ∧
      parallelNormalsLoaded.mesh.mTangentSize = 4 ∧
      parallelNormalsLoaded.mesh.mTangentlOffset = 32 ∧
      parallelNormalsLoaded.mesh.mStride = 48) ∧
    ((true && parallelNormalsLoaded.haveNormals && parallelNormalsLoaded.haveTexCoords) = false →
      parallelNormalsLoaded.tangents = [] ∧
      parallelNormalsLoaded.mesh.mTangentSize = OBJMesh.zero.mTangentSize ∧
      parallelNormalsLoaded.mesh.mTangentlOffset = OBJMesh.zero.mTangentlOffset ∧
      parallelNormalsLoaded.mesh.mStride
        = 4 * (3 + (if parallelNormalsLoaded.haveNormals then 3 else 0)
            + (if parallelNormalsLoaded.haveTexCoords then 2 else 0))) :=
  tangent_request sampleLibrary sampleGL (some parallelNormalsFile) true OBJMesh.zero
    parallelNormalsLoaded (by rfl)

/-! ## Attribute inference: claim C16 -/

/-- C16 (attribute inference step). Let `s` be the state after all lines are
parsed, `fN` / `fT` whether the established format has normals / texcoords, and
`iN` / `iT` whether the format lacks the attribute while as many values of it
as positions are declared. The inference step of `load` turns every corner
`(v, vn, vt)` of every triangle into `(v, if iN then v else vn, if iT then v
else vt)` and marks normals present exactly when `fN` or `iN`, texcoords
exactly when `fT` or `iT`, each attribute independently. A `load` that returns
`true` has these flags and has run `Reindex` on these triangles; and `load`
does return `true` when the file is read to its end, a VAO is created, there is
at least one triangle and no stored index exceeds the count of its array. -/
theorem attribute_inference_step (lib : Library) (gl : GLNames) (contents : FileContents)
    (sct : Bool) (m : OBJMesh) (s : ParseState) (fN fT iN iT : Bool)
    (hparse : parseLines lib ParseState.init contents.lines = .ok s)
    (hfN : fN = (s.vertexFormat &&& OBJ_VFF_NORMAL == OBJ_VFF_NORMAL))
    (hfT : fT = (s.vertexFormat &&& OBJ_VFF_TEXCOORD == OBJ_VFF_TEXCOORD))
    (hiN : iN = (!fN && s.normals.length == s.positions.length))
    (hiT : iT = (!fT && s.texcoords.length == s.positions.length)) :
    inferTexCoords fT s.texcoords.length s.positions.length
        (inferNormals fN s.normals.length s.positions.length s.faces)
      = s.faces.map (fun f =>
          { v0 := { v := f.v0.v, vn := if iN then f.v0.v else f.v0.vn,
                    vt := if iT then f.v0.v else f.v0.vt }
            v1 := { v := f.v1.v, vn := if iN then f.v1.v else f.v1.vn,
                    vt := if iT then f.v1.v else f.v1.vt }
            v2 := { v := f.v2.v, vn := if iN then f.v2.v else f.v2.vn,
                    vt := if iT then f.v2.v else f.v2.vt } }) ∧
    inferFlag fN s.normals.length s.positions.length = (fN || iN) ∧
    inferFlag fT s.texcoords.length s.positions.length = (fT || iT) ∧
    (∀ r, load lib gl (some contents) sct m = .loaded r →
      r.haveNormals = (fN || iN) ∧ r.haveTexCoords = (fT || iT) ∧
      reindexDispatch (fN || iN) (fT || iT) s.positions s.normals s.texcoords
          (s.faces.map (fun f =>
            { v0 := { v := f.v0.v, vn := if iN then f.v0.v else f.v0.vn,
                      vt := if iT then f.v0.v else f.v0.vt }
              v1 := { v := f.v1.v, vn := if iN then f.v1.v else f.v1.vn,
                      vt := if iT then f.v1.v else f.v1.vt }
              v2 := { v := f.v2.v, vn := if iN then f.v2.v else f.v2.vn,
                      vt := if iT then f.v2.v else f.v2.vt } }))
        = some (r.positions, r.normals, r.texcoords, r.newFaces)) ∧
    (contents.readFails = false → gl.vao ≠ 0 → s.faces ≠ [] →
      (∀ f ∈ s.faces, ∀ c ∈ f.corners,
        c.v ≤ s.positions.length ∧ c.vn ≤ s.normals.length ∧ c.vt ≤ s.texcoords.length) →
      ∃ r, load lib gl (some contents) sct m = .loaded r) := by
  have hfaces := infer_faces_eq fN fT s.normals.length s.texcoords.length s.positions.length
    s.faces
  rw [← hiN, ← hiT] at hfaces
  have hflagN : inferFlag fN s.normals.length s.positions.length = (fN || iN) := by
    rw [inferFlag_eq, hiN]
  have hflagT : inferFlag fT s.texcoords.length s.positions.length = (fT || iT) := by
    rw [inferFlag_eq, hiT]
  refine ⟨hfaces, hflagN, hflagT, ?_, ?_⟩
  · intro r h
    obtain ⟨contents', s', hfile, hparse', _, hfin⟩ := load_loaded_inv lib gl _ sct m r h
    cases hfile
    rw [hparse] at hparse'
    cases hparse'
    obtain ⟨hN, hT, hre, _⟩ := finishLoad_loaded_inv lib gl sct m s r hfin
    rw [← hfN] at hN
    rw [← hfT] at hT
    rw [hflagN] at hN
    rw [hflagT] at hT
    rw [← hfN, ← hfT, hfaces, hN, hT] at hre
    exact ⟨hN, hT, hre⟩
  · intro hread hvao hne hub
    have hr := parsed_indices_in_range s (FormatInv_parsed lib contents.lines s hparse) hub
    rcases finishLoad_defined lib gl sct m s hne hr with ⟨_, h0, _⟩ | ⟨r, _, h⟩
    · exact absurd h0 hvao
    · refine ⟨r, ?_⟩
      unfold load
      simp only [hparse, hread, Bool.false_eq_true, if_false]
      exact h

/-- Witness for C16: in the file whose face `f 1 2 3` precedes the 3 positions,
3 normals and 3 texcoords, both attributes are inferred; `load` returns `true`
with both marked present, `Reindex` having run on the corners `1/1/1`, `2/2/2`,
`3/3/3`. -/
theorem attribute_inference_step_witness :
    ∃ r, load sampleLibrary sampleGL (some inferBothFile) false OBJMesh.zero
        = LoadResult.loaded r ∧
      r.haveNormals = true ∧ r.haveTexCoords = true ∧
      reindexDispatch true true inferBothParsed.positions inferBothParsed.normals
          inferBothParsed.texcoords [⟨⟨1, 1, 1⟩, ⟨2, 2, 2⟩, ⟨3, 3, 3⟩⟩]
        = some (r.positions, r.normals, r.texcoords, r.newFaces) := by
  obtain ⟨_, _, _, h4, h5⟩ :=
    attribute_inference_step sampleLibrary sampleGL inferBothFile false OBJMesh.zero
      inferBothParsed false false true true (by rfl) (by decide) (by decide) (by decide)
      (by decide)
  obtain ⟨r, hr⟩ := h5 rfl (by decide) (by decide) (by decide)
  obtain ⟨a, b, c⟩ := h4 r hr
  exact ⟨r, hr, a, b, c⟩

/-! ## Parse errors: claim C17 -/

/-- C17 (parse-error atomicity). When the parse loop stops with an error (one of
the malformed `v` / `vn` / `vt` line, face arity, invalid format and
inconsistent format errors), `load` returns failure with that error and the
mesh fields are exactly those before the call, and `LoadWavefrontOBJ` returns
`NULL`. More generally every failure of `load` other than the failure to create
the vertex array object leaves the mesh fields as they were. -/
theorem parse_error_atomicity (lib : Library) (gl : GLNames) (contents : FileContents)
    (shouldComputeTangents : Bool) (m : OBJMesh) (e : LoadError)
    (h : parseLines lib ParseState.init contents.lines = .error e) :
    load lib gl (some contents) shouldComputeTangents m = .failed e m ∧
    e ∈ [LoadError.positionComponents, LoadError.normalComponents,
      LoadError.texcoordComponents, LoadError.faceElements, LoadError.invalidFormat,
      LoadError.inconsistentFormat] ∧
    LoadWavefrontOBJ lib gl (some contents) = some none ∧
    (∀ file e1 mesh, load lib gl file shouldComputeTangents m = .failed e1 mesh →
      e1 = .vaoFailed ∨ mesh = m) := by
  have hl : ∀ sct m0, load lib gl (some contents) sct m0 = .failed e m0 := by
    intro sct m0
    simp [load, h]
  refine ⟨hl _ _, parseLines_error_kind lib _ _ e h, ?_, ?_⟩
  · simp [LoadWavefrontOBJ, hl]
  · intro file e1 mesh h1
    exact load_failed_inv lib gl file shouldComputeTangents m e1 mesh h1

theorem parse_error_atomicity_witness :
    load sampleLibrary sampleGL (some (fileOfLines ["v 0 0 0", "v 1 2", "v 1 1 0"])) true
        parallelNormalsLoaded.mesh
      = .failed LoadError.positionComponents parallelNormalsLoaded.mesh ∧
    LoadError.positionComponents ∈ [LoadError.positionComponents, LoadError.normalComponents,
      LoadError.texcoordComponents, LoadError.faceElements, LoadError.invalidFormat,
      LoadError.inconsistentFormat] ∧
    LoadWavefrontOBJ sampleLibrary sampleGL
      (some (fileOfLines ["v 0 0 0", "v 1 2", "v 1 1 0"])) = some none ∧
    (∀ file e1 mesh, load sampleLibrary sampleGL file true parallelNormalsLoaded.mesh
        = .failed e1 mesh → e1 = .vaoFailed ∨ mesh = parallelNormalsLoaded.mesh) :=
  parse_error_atomicity sampleLibrary sampleGL (fileOfLines ["v 0 0 0", "v 1 2", "v 1 1 0"])
    true parallelNormalsLoaded.mesh LoadError.positionComponents (by rfl)

/-! ## Line arity: claims C12 and C13 -/

/-- C12 as stated fails: a line `v 1 2 3 4` (four components) is accepted and
stores the position `(1, 2, 3)`; the file that continues with two more
positions and the face `f 1 2 3` is loaded, with `(1, 2, 3)` as its first
output position. -/
theorem position_line_arity_counterexample :
    (∃ r, load sampleLibrary sampleGL
          (some (fileOfLines ["v 1 2 3 4", "v 0 0 0", "v 1 0 0", "f 1 2 3"])) false OBJMesh.zero
        = LoadResult.loaded r ∧
      r.positions[0]? = some (⟨1, 2, 3⟩ : Vec3)) ∧
    parseLines sampleLibrary ParseState.init (fileOfLines ["v 1 2 3 4"]).lines
      = .ok { ParseState.init with positions := [⟨1, 2, 3⟩] } := by
  exact ⟨⟨_, rfl, by decide⟩, rfl⟩

/-- C12 amended (vertex `v` line arity). For every file containing a `v` line
with fewer than 3 components, `load` returns failure and leaves the mesh as it
was; the error is the position-components error when the lines before it are
accepted. A `v` line with 3 or more components is accepted and stores its first
three components. -/
theorem position_line_arity (lib : Library) (gl : GLNames)
    (pre post : List (List (List Char))) (toks : List (List Char)) (readFails : Bool)
    (shouldComputeTangents : Bool) (m : OBJMesh) (h : toks.length < 3) :
    (∃ e, load lib gl (some { lines := pre ++ (['v'] :: toks) :: post, readFails := readFails })
          shouldComputeTangents m = .failed e m ∧
        ∀ sPre, parseLines lib ParseState.init pre = .ok sPre →
          e = .positionComponents) ∧
    (∀ (s : ParseState) (more : List (List Char)), 3 ≤ more.length →
      parseLine lib s (['v'] :: more)
        = .ok { s with positions := s.positions ++
            [⟨lib.fromStringFloat (more.getD 0 []), lib.fromStringFloat (more.getD 1 []),
              lib.fromStringFloat (more.getD 2 [])⟩] }) := by
  obtain ⟨e, he, hk⟩ := parseLines_rejected_line lib (['v'] :: toks) .positionComponents
    (fun s => parseLine_short_position lib s toks h) pre post ParseState.init
  exact ⟨⟨e, load_parse_error lib gl _ shouldComputeTangents m e he, hk⟩,
    fun s more hm => parseLine_position lib s more hm⟩

theorem position_line_arity_witness :
    (∃ e, load sampleLibrary sampleGL
          (some { lines := (fileOfLines ["v 0 0 0"]).lines ++
                    (['v'] :: ["1".toList, "2".toList]) :: (fileOfLines ["v 1 1 0"]).lines,
                  readFails := false })
          false OBJMesh.zero = .failed e OBJMesh.zero ∧
        ∀ sPre, parseLines sampleLibrary ParseState.init (fileOfLines ["v 0 0 0"]).lines
            = .ok sPre → e = .positionComponents) ∧
    (∀ (s : ParseState) (more : List (List Char)), 3 ≤ more.length →
      parseLine sampleLibrary s (['v'] :: more)
        = .ok { s with positions := s.positions ++
            [⟨sampleLibrary.fromStringFloat (more.getD 0 []),
              sampleLibrary.fromStringFloat (more.getD 1 []),
              sampleLibrary.fromStringFloat (more.getD 2 [])⟩] }) :=
  position_line_arity sampleLibrary sampleGL (fileOfLines ["v 0 0 0"]).lines
    (fileOfLines ["v 1 1 0"]).lines ["1".toList, "2".toList] false false OBJMesh.zero
    (by decide)

/-- C13 (invalid face). For every file containing an `f` line with fewer than 3
face-vertex references, `load` returns failure (with the face-elements error
when the lines before it are accepted) and leaves the mesh as it was; the line
is rejected in every parse state, so no triangle of it is stored; and
`Tesselate` returns no triangle for fewer than 3 vertices. -/
theorem invalid_face (lib : Library) (gl : GLNames)
    (pre post : List (List (List Char))) (toks : List (List Char)) (readFails : Bool)
    (shouldComputeTangents : Bool) (m : OBJMesh) (h : toks.length < 3) :
    (∃ e, load lib gl (some { lines := pre ++ (['f'] :: toks) :: post, readFails := readFails })
          shouldComputeTangents m = .failed e m ∧
        ∀ sPre, parseLines lib ParseState.init pre = .ok sPre → e = .faceElements) ∧
    (∀ s, parseLine lib s (['f'] :: toks) = .error .faceElements) ∧
    (∀ v : List OBJVertex, v.length < 3 → Tesselate v = []) := by
  obtain ⟨e, he, hk⟩ := parseLines_rejected_line lib (['f'] :: toks) .faceElements
    (fun s => parseLine_short_face lib s toks h) pre post ParseState.init
  refine ⟨⟨e, load_parse_error lib gl _ shouldComputeTangents m e he, hk⟩,
    fun s => parseLine_short_face lib s toks h, ?_⟩
  intro v hv
  simp [Tesselate, hv]

theorem invalid_face_witness :
    (∃ e, load sampleLibrary sampleGL
          (some { lines := (fileOfLines ["v 0 0 0", "v 1 0 0"]).lines ++
                    (['f'] :: ["1".toList, "2".toList]) :: (fileOfLines ["v 1 1 0"]).lines,
                  readFails := false })
          false OBJMesh.zero = .failed e OBJMesh.zero ∧
        ∀ sPre, parseLines sampleLibrary ParseState.init
            (fileOfLines ["v 0 0 0", "v 1 0 0"]).lines = .ok sPre → e = .faceElements) ∧
    (∀ s, parseLine sampleLibrary s (['f'] :: ["1".toList, "2".toList])
      = .error .faceElements) ∧
    (∀ v : List OBJVertex, v.length < 3 → Tesselate v = []) :=
  invalid_face sampleLibrary sampleGL (fileOfLines ["v 0 0 0", "v 1 0 0"]).lines
    (fileOfLines ["v 1 1 0"]).lines ["1".toList, "2".toList] false false OBJMesh.zero
    (by decide)

/-! ## The format invariant: claim C18 -/

/-- C18 (format invariant). In every parse state `s` reached from the start of
the file in which a triangle is stored (at least one face has been accepted),
the established format has the position flag and is the format of the first
vertex of the first accepted face, every stored corner has that format, and
whatever lines are parsed afterwards the format stays the same and every
corner stored afterwards has it too. -/
theorem format_invariant (lib : Library) (lines : List (List (List Char))) (s : ParseState)
    (h : parseLines lib ParseState.init lines = .ok s) (hf : s.faces ≠ []) :
    s.vertexFormat &&& OBJ_VFF_POSITION = OBJ_VFF_POSITION ∧
    (∀ f, s.faces.head? = some f → s.vertexFormat = f.v0.getFormat) ∧
    (∀ f ∈ s.faces, ∀ c ∈ f.corners, c.getFormat = s.vertexFormat) ∧
    (∀ more s', parseLines lib s more = .ok s' →
      s'.vertexFormat = s.vertexFormat ∧
      ∀ f ∈ s'.faces, ∀ c ∈ f.corners, c.getFormat = s.vertexFormat) := by
  obtain ⟨⟨i1, i2, i3⟩, _⟩ := parseLines_inv lib lines _ s h FormatInv_init
  have hne : s.vertexFormat ≠ 0 := fun e => hf (i1 e)
  refine ⟨i2 hne, ?_, i3, ?_⟩
  · intro f hhead
    have hm : f ∈ s.faces := List.mem_of_mem_head? hhead
    exact (i3 f hm f.v0 (by simp [OBJTriangle.corners])).symm
  · intro more s' hmore
    obtain ⟨⟨_, _, j3⟩, hsame⟩ := parseLines_inv lib more s s' hmore ⟨i1, i2, i3⟩
    refine ⟨hsame hne, ?_⟩
    intro f hfm c hc
    rw [← hsame hne]
    exact j3 f hfm c hc

theorem format_invariant_witness :
    mixedFormatParsed.vertexFormat &&& OBJ_VFF_POSITION = OBJ_VFF_POSITION ∧
    (∀ f, mixedFormatParsed.faces.head? = some f →
      mixedFormatParsed.vertexFormat = f.v0.getFormat) ∧
    (∀ f ∈ mixedFormatParsed.faces, ∀ c ∈ f.corners,
      c.getFormat = mixedFormatParsed.vertexFormat) ∧
    (∀ more s', parseLines sampleLibrary mixedFormatParsed more = .ok s' →
      s'.vertexFormat = mixedFormatParsed.vertexFormat ∧
      ∀ f ∈ s'.faces, ∀ c ∈ f.corners, c.getFormat = mixedFormatParsed.vertexFormat) :=
  format_invariant sampleLibrary mixedFormatFile.lines mixedFormatParsed (by rfl) (by decide)

/-! ## Face-vertex tokens: claim C19 -/

/-- C19 (face-vertex token forms). For all integers `a`, `b`, `c` written as
decimal text that `FromString<int>` reads back, the constructor gives: for `a` the position `a` with texcoord and
normal absent (`-1`); for `a/b` position `a`, texcoord `b`, normal absent; for
`a/b/c` position `a`, texcoord `b`, normal `c`; for `a//c` position `a`,
texcoord absent, normal `c`. -/
theorem face_vertex_token_forms (lib : Library) (a b c : Int)
    (ha : lib.fromStringInt (decimalText a) = a) (hb : lib.fromStringInt (decimalText b) = b)
    (hc : lib.fromStringInt (decimalText c) = c) :
    OBJVertex.ofString lib (decimalText a) = { v := a, vn := -1, vt := -1 } ∧
    OBJVertex.ofString lib (decimalText a ++ '/' :: decimalText b)
      = { v := a, vn := -1, vt := b } ∧
    OBJVertex.ofString lib (decimalText a ++ '/' :: (decimalText b ++ '/' :: decimalText c))
      = { v := a, vn := c, vt := b } ∧
    OBJVertex.ofString lib (decimalText a ++ '/' :: '/' :: decimalText c)
      = { v := a, vn := c, vt := -1 } := by
  refine ⟨?_, ?_, ?_, ?_⟩
  · rw [ofString_plain lib _ (decimalText_no_slash a), ha]
  · rw [ofString_one_slash lib _ _ (decimalText_no_slash a) (decimalText_no_slash b),
      if_pos (decimalText_ne_nil a), if_pos (decimalText_ne_nil b), ha, hb]
  · rw [ofString_two_slashes lib _ _ _ (decimalText_no_slash a) (decimalText_no_slash b),
      if_pos (decimalText_ne_nil a), if_pos (decimalText_ne_nil b),
      if_pos (decimalText_ne_nil c), ha, hb, hc]
  · have h := ofString_two_slashes lib (decimalText a) [] (decimalText c)
      (decimalText_no_slash a) (by simp)
    rw [List.nil_append] at h
    rw [h, if_pos (decimalText_ne_nil a), if_pos (decimalText_ne_nil c), ha, hc]
    simp

theorem face_vertex_token_forms_witness :
    OBJVertex.ofString sampleLibrary (decimalText 12) = { v := 12, vn := -1, vt := -1 } ∧
    OBJVertex.ofString sampleLibrary (decimalText 12 ++ '/' :: decimalText (-3))
      = { v := 12, vn := -1, vt := -3 } ∧
    OBJVertex.ofString sampleLibrary
        (decimalText 12 ++ '/' :: (decimalText (-3) ++ '/' :: decimalText 7))
      = { v := 12, vn := 7, vt := -3 } ∧
    OBJVertex.ofString sampleLibrary (decimalText 12 ++ '/' :: '/' :: decimalText 7)
      = { v := 12, vn := 7, vt := -1 } :=
  have h : ∀ n : Int, sampleLibrary.fromStringInt (decimalText n) = n := decimalInt_decimalText
  face_vertex_token_forms sampleLibrary 12 (-3) 7 (h 12) (h (-3)) (h 7)

/-! ## Tangent orthogonality: claim C11 -/

/-- C11 as stated fails: the normal `vn 2 0 0` is stored as read, without
normalisation. For the triangle of `longNormalFile`, whose UV determinant is
not 0, the accumulated tangent of every vertex is `t = (1, 0, 0)`; with
`n = (2, 0, 0)` the Gram-Schmidt result `t - n*dot(n, t)` is `(-3, 0, 0)`, whose
dot product with `n` is `-6`, and its normalisation `tangent.xyz = (-1, 0, 0)`
has dot product `-2` with `n`. -/
theorem tangent_orthogonality_counterexample :
    (∃ r, load axisLibrary sampleGL (some longNormalFile) false OBJMesh.zero
        = LoadResult.loaded r ∧
      r.positions = trianglePositions ∧ r.normals = longNormals ∧
      r.texcoords = triangleTexcoords ∧ r.newFaces = [⟨0, 1, 2⟩]) ∧
    (∀ w1 w2 w3, triangleTexcoords[0]? = some w1 → triangleTexcoords[1]? = some w2 →
      triangleTexcoords[2]? = some w3 →
      (w2.s - w1.s) * (w3.t - w1.t) - (w3.s - w1.s) * (w2.t - w1.t) ≠ 0) ∧
    accumulateTangents trianglePositions triangleTexcoords
        (List.replicate 3 ⟨0, 0, 0⟩, List.replicate 3 ⟨0, 0, 0⟩) [⟨0, 1, 2⟩]
      = some ([⟨1, 0, 0⟩, ⟨1, 0, 0⟩, ⟨1, 0, 0⟩], [⟨0, 1, 0⟩, ⟨0, 1, 0⟩, ⟨0, 1, 0⟩]) ∧
    ComputeTangents axisLibrary trianglePositions longNormals triangleTexcoords [⟨0, 1, 2⟩]
      = some [⟨-1, 0, 0, -1⟩, ⟨-1, 0, 0, -1⟩, ⟨-1, 0, 0, -1⟩] ∧
    (⟨1, 0, 0⟩ : Vec3).sub ((⟨2, 0, 0⟩ : Vec3).scale ((⟨2, 0, 0⟩ : Vec3).dot ⟨1, 0, 0⟩))
      = ⟨-3, 0, 0⟩ ∧
    (⟨2, 0, 0⟩ : Vec3).dot ⟨-3, 0, 0⟩ = -6 ∧
    (⟨2, 0, 0⟩ : Vec3).dot ⟨-1, 0, 0⟩ = -2 := by
  have hacc : accumulateTangents trianglePositions triangleTexcoords
        (List.replicate 3 ⟨0, 0, 0⟩, List.replicate 3 ⟨0, 0, 0⟩) [⟨0, 1, 2⟩]
      = some ([⟨1, 0, 0⟩, ⟨1, 0, 0⟩, ⟨1, 0, 0⟩], [⟨0, 1, 0⟩, ⟨0, 1, 0⟩, ⟨0, 1, 0⟩]) := by
    simp [accumulateTangents, accumulateTriangle, trianglePositions, triangleTexcoords,
      IndexTriangle.index, addAt, triangleSdir, triangleTdir, Vec3.add, List.replicate]
  refine ⟨⟨_, rfl, by decide, by decide, by decide, by decide⟩, ?_, hacc, ?_, ?_, ?_, ?_⟩
  · intro w1 w2 w3 h1 h2 h3
    simp only [triangleTexcoords, List.getElem?_cons_zero, List.getElem?_cons_succ,
      Option.some.injEq] at h1 h2 h3
    subst h1 h2 h3
    norm_num
  · have h3 : trianglePositions.length = 3 := rfl
    simp only [ComputeTangents, h3, hacc, Option.some_bind]
    simp [forEachIndex, List.range, List.range.loop, allReads, longNormals, vertexTangent,
      axisLibrary, axisNormalize, Vec3.cross, Vec3.dot, Vec3.sub, Vec3.scale]
    norm_num
  · simp [Vec3.dot, Vec3.sub, Vec3.scale]
    norm_num
  · simp [Vec3.dot]
    norm_num
  · simp [Vec3.dot]

/-- C11 amended (tangent orthogonality). On valid input in which every triangle
has a non-zero UV determinant `s1*t2 - s2*t1`, `ComputeTangents` returns, the
directions of every triangle solve its system exactly, and for every vertex with normal `n` and accumulated tangent `t` the Gram-Schmidt
result satisfies `dot(n, t - n*dot(n, t)) = dot(n, t) * (1 - dot(n, n))`; when
`n` has unit length (`dot(n, n) = 1`) this is zero, and so is the dot product of
`n` with `tangent.xyz` when the Gram-Schmidt result is not the zero vector,
`normalize` returning a scalar multiple of a non-zero argument. Arithmetic is
exact. -/
theorem tangent_orthogonality (lib : Library) (positions normals : List Vec3)
    (texcoords : List TexCoord) (triangles : List IndexTriangle)
    (hidx : ∀ t ∈ triangles, ∀ j : Fin 3, t.index j < positions.length)
    (hn : positions.length ≤ normals.length) (ht : positions.length ≤ texcoords.length)
    (hdet : ∀ tri ∈ triangles, ∀ w1 w2 w3, texcoords[tri.index 0]? = some w1 →
      texcoords[tri.index 1]? = some w2 → texcoords[tri.index 2]? = some w3 →
      (w2.s - w1.s) * (w3.t - w1.t) - (w3.s - w1.s) * (w2.t - w1.t) ≠ 0)
    (hscale : ∀ v, v ≠ (⟨0, 0, 0⟩ : Vec3) → ∃ k, lib.normalize v = v.scale k) :
    ∃ tan1 tan2 tangents,
      accumulateTangents positions texcoords
          (List.replicate positions.length ⟨0, 0, 0⟩, List.replicate positions.length ⟨0, 0, 0⟩)
          triangles = some (tan1, tan2) ∧
      ComputeTangents lib positions normals texcoords triangles = some tangents ∧
      (∀ tri ∈ triangles, ∃ v1 v2 v3 w1 w2 w3,
        positions[tri.index 0]? = some v1 ∧ positions[tri.index 1]? = some v2 ∧
        positions[tri.index 2]? = some v3 ∧ texcoords[tri.index 0]? = some w1 ∧
        texcoords[tri.index 1]? = some w2 ∧ texcoords[tri.index 2]? = some w3 ∧
        v2.sub v1 = ((triangleSdir v1 v2 v3 w1 w2 w3).scale (w2.s - w1.s)).add
            ((triangleTdir v1 v2 v3 w1 w2 w3).scale (w2.t - w1.t)) ∧
        v3.sub v1 = ((triangleSdir v1 v2 v3 w1 w2 w3).scale (w3.s - w1.s)).add
            ((triangleTdir v1 v2 v3 w1 w2 w3).scale (w3.t - w1.t))) ∧
      ∀ a, a < positions.length → ∃ n t tg,
        normals[a]? = some n ∧ tan1[a]? = some t ∧ tangents[a]? = some tg ∧
        (⟨tg.x, tg.y, tg.z⟩ : Vec3) = lib.normalize (t.sub (n.scale (n.dot t))) ∧
        n.dot (t.sub (n.scale (n.dot t))) = n.dot t * (1 - n.dot n) ∧
        (n.dot n = 1 →
          n.dot (t.sub (n.scale (n.dot t))) = 0 ∧
          (t.sub (n.scale (n.dot t)) ≠ ⟨0, 0, 0⟩ → n.dot ⟨tg.x, tg.y, tg.z⟩ = 0)) := by
  obtain ⟨tan1, tan2, tangents, e1, e2, _, hv⟩ :=
    ComputeTangents_spec lib positions normals texcoords triangles hidx hn ht
  refine ⟨tan1, tan2, tangents, e1, e2, ?_, ?_⟩
  · intro tri htri
    have p0 := hidx tri htri 0
    have p1 := hidx tri htri 1
    have p2 := hidx tri htri 2
    have hw1 := List.getElem?_eq_getElem (lt_of_lt_of_le p0 ht)
    have hw2 := List.getElem?_eq_getElem (lt_of_lt_of_le p1 ht)
    have hw3 := List.getElem?_eq_getElem (lt_of_lt_of_le p2 ht)
    obtain ⟨e3, e4⟩ := tangent_system (positions[tri.index 0]) (positions[tri.index 1])
      (positions[tri.index 2]) _ _ _ (hdet tri htri _ _ _ hw1 hw2 hw3)
    exact ⟨_, _, _, _, _, _, List.getElem?_eq_getElem p0, List.getElem?_eq_getElem p1,
      List.getElem?_eq_getElem p2, hw1, hw2, hw3, e3, e4⟩
  intro a ha
  obtain ⟨n, t, b, h1, h2, _, h4⟩ := hv a ha
  have hzero : n.dot n = 1 → n.dot (t.sub (n.scale (n.dot t))) = 0 := by
    intro hu
    rw [gramSchmidt_dot, hu]
    ring
  refine ⟨n, t, vertexTangent lib n t b, h1, h2, h4, rfl, gramSchmidt_dot n t, ?_⟩
  intro hu
  refine ⟨hzero hu, fun hne => ?_⟩
  obtain ⟨k, hk⟩ := hscale (t.sub (n.scale (n.dot t))) hne
  show n.dot (lib.normalize (t.sub (n.scale (n.dot t)))) = 0
  rw [hk, dot_scale, hzero hu]
  ring

/-- Witness for C11 (amended): the sample triangle with unit normals `(0, 0, -1)`
and the normalisation that is exact along the `x` axis. -/
theorem tangent_orthogonality_witness :
    ∃ tan1 tan2 tangents,
      accumulateTangents trianglePositions triangleTexcoords
          (List.replicate trianglePositions.length ⟨0, 0, 0⟩,
            List.replicate trianglePositions.length ⟨0, 0, 0⟩)
          [⟨0, 1, 2⟩] = some (tan1, tan2) ∧
      ComputeTangents axisLibrary trianglePositions downNormals triangleTexcoords [⟨0, 1, 2⟩]
        = some tangents ∧
      (∀ tri ∈ [(⟨0, 1, 2⟩ : IndexTriangle)], ∃ v1 v2 v3 w1 w2 w3,
        trianglePositions[tri.index 0]? = some v1 ∧ trianglePositions[tri.index 1]? = some v2 ∧
        trianglePositions[tri.index 2]? = some v3 ∧ triangleTexcoords[tri.index 0]? = some w1 ∧
        triangleTexcoords[tri.index 1]? = some w2 ∧ triangleTexcoords[tri.index 2]? = some w3 ∧
        v2.sub v1 = ((triangleSdir v1 v2 v3 w1 w2 w3).scale (w2.s - w1.s)).add
            ((triangleTdir v1 v2 v3 w1 w2 w3).scale (w2.t - w1.t)) ∧
        v3.sub v1 = ((triangleSdir v1 v2 v3 w1 w2 w3).scale (w3.s - w1.s)).add
            ((triangleTdir v1 v2 v3 w1 w2 w3).scale (w3.t - w1.t))) ∧
      ∀ a, a < trianglePositions.length → ∃ n t tg,
        downNormals[a]? = some n ∧ tan1[a]? = some t ∧ tangents[a]? = some tg ∧
        (⟨tg.x, tg.y, tg.z⟩ : Vec3) = axisLibrary.normalize (t.sub (n.scale (n.dot t))) ∧
        n.dot (t.sub (n.scale (n.dot t))) = n.dot t * (1 - n.dot n) ∧
        (n.dot n = 1 →
          n.dot (t.sub (n.scale (n.dot t))) = 0 ∧
          (t.sub (n.scale (n.dot t)) ≠ ⟨0, 0, 0⟩ → n.dot ⟨tg.x, tg.y, tg.z⟩ = 0)) :=
  tangent_orthogonality axisLibrary trianglePositions downNormals triangleTexcoords
    [⟨0, 1, 2⟩] (by decide) (by decide) (by decide)
    (by
      intro tri htri w1 w2 w3 h1 h2 h3
      simp only [List.mem_singleton] at htri
      subst htri
      simp only [triangleTexcoords, IndexTriangle.index, List.getElem?_cons_zero,
        List.getElem?_cons_succ, Option.some.injEq] at h1 h2 h3
      subst h1 h2 h3
      norm_num)
    (fun v _ => axisNormalize_scale v)

/-! ## Interleaving: claim C15 -/

/-- C15 (interleaving). For a successful `load`, with `fpv = mStride / 4` floats
per vertex: the vertex buffer has exactly `mNumVertices * fpv` floats; for every
vertex `i < mNumVertices` the floats of the buffer starting at `i * fpv` hold,
each at the float offset given by the layout (byte offset / 4), the position
`x, y, z` of output vertex `i`, then if normals are present its normal
`x, y, z`, then if texcoords are present its texcoord `s, t`, then if tangents
are computed its tangent `x, y, z, w`; `mNumVertices` is the number of output
vertices and `mNumIndices` is 3 times the number of triangles. -/
theorem vertex_buffer_interleaving (lib : Library) (gl : GLNames)
    (file : Option FileContents) (shouldComputeTangents : Bool) (m : OBJMesh) (r : Loaded)
    (h : load lib gl file shouldComputeTangents m = .loaded r) :
    r.mesh.mNumVertices = r.positions.length ∧
    r.mesh.mNumIndices = 3 * r.newFaces.length ∧
    r.mesh.mStride / 4
      = 3 + (if r.haveNormals then 3 else 0) + (if r.haveTexCoords then 2 else 0)
          + (if (shouldComputeTangents && r.haveNormals && r.haveTexCoords) then 4 else 0) ∧
    r.vertexData.length = r.mesh.mNumVertices * (r.mesh.mStride / 4) ∧
    ∀ i, i < r.mesh.mNumVertices →
      (∃ p, r.positions[i]? = some p ∧
        r.vertexData[i * (r.mesh.mStride / 4) + r.mesh.mPositionOffset / 4]? = some p.x ∧
        r.vertexData[i * (r.mesh.mStride / 4) + r.mesh.mPositionOffset / 4 + 1]? = some p.y ∧
        r.vertexData[i * (r.mesh.mStride / 4) + r.mesh.mPositionOffset / 4 + 2]? = some p.z) ∧
      (r.haveNormals = true → ∃ n, r.normals[i]? = some n ∧
        r.vertexData[i * (r.mesh.mStride / 4) + r.mesh.mNormalOffset / 4]? = some n.x ∧
        r.vertexData[i * (r.mesh.mStride / 4) + r.mesh.mNormalOffset / 4 + 1]? = some n.y ∧
        r.vertexData[i * (r.mesh.mStride / 4) + r.mesh.mNormalOffset / 4 + 2]? = some n.z) ∧
      (r.haveTexCoords = true → ∃ t, r.texcoords[i]? = some t ∧
        r.vertexData[i * (r.mesh.mStride / 4) + r.mesh.mTexCoordOffset / 4]? = some t.s ∧
        r.vertexData[i * (r.mesh.mStride / 4) + r.mesh.mTexCoordOffset / 4 + 1]? = some t.t) ∧
      ((shouldComputeTangents && r.haveNormals && r.haveTexCoords) = true →
        ∃ g, r.tangents[i]? = some g ∧
        r.vertexData[i * (r.mesh.mStride / 4) + r.mesh.mTangentlOffset / 4]? = some g.x ∧
        r.vertexData[i * (r.mesh.mStride / 4) + r.mesh.mTangentlOffset / 4 + 1]? = some g.y ∧
        r.vertexData[i * (r.mesh.mStride / 4) + r.mesh.mTangentlOffset / 4 + 2]? = some g.z ∧
        r.vertexData[i * (r.mesh.mStride / 4) + r.mesh.mTangentlOffset / 4 + 3]? = some g.w) := by
  obtain ⟨contents, s, _, _, _, hfin⟩ := load_loaded_inv lib gl file shouldComputeTangents m r h
  obtain ⟨_, _, _, _, hbuild, hmesh, _⟩ :=
    finishLoad_loaded_inv lib gl shouldComputeTangents m s r hfin
  rw [computeLayout_tangent_flag] at hbuild
  obtain ⟨oP, oN, oT, oG, oS⟩ :=
    computeLayout_float_offsets r.haveNormals r.haveTexCoords shouldComputeTangents m
  have eS : r.mesh.mStride
      = (computeLayout r.haveNormals r.haveTexCoords shouldComputeTangents m).1.mStride := by
    rw [hmesh]
  have eP : r.mesh.mPositionOffset
      = (computeLayout r.haveNormals r.haveTexCoords shouldComputeTangents m).1.mPositionOffset := by
    rw [hmesh]
  have eN : r.mesh.mNormalOffset
      = (computeLayout r.haveNormals r.haveTexCoords shouldComputeTangents m).1.mNormalOffset := by
    rw [hmesh]
  have eT : r.mesh.mTexCoordOffset
      = (computeLayout r.haveNormals r.haveTexCoords shouldComputeTangents m).1.mTexCoordOffset := by
    rw [hmesh]
  have eG : r.mesh.mTangentlOffset
      = (computeLayout r.haveNormals r.haveTexCoords shouldComputeTangents m).1.mTangentlOffset := by
    rw [hmesh]
  have eV : r.mesh.mNumVertices = r.positions.length := by rw [hmesh]
  have eI : r.mesh.mNumIndices = 3 * r.newFaces.length := by rw [hmesh]
  obtain ⟨hlen, hdata⟩ := buildVertexData_content _ _ _ _ _ _ _ _ _ hbuild
  rw [eS, eP, eN, eT, eG, eV, oS, oP]
  refine ⟨rfl, eI, rfl, hlen, ?_⟩
  intro i hi
  obtain ⟨chunk, hv, hj⟩ := hdata i hi
  obtain ⟨_, ⟨p, hp, p0, p1, p2⟩, cN, cT, cG⟩ := vertexFloats_content _ _ _ _ _ _ _ i chunk hv
  refine ⟨⟨p, hp, ?_, ?_, ?_⟩, ?_, ?_, ?_⟩
  · rw [hj 0 (by omega)]; exact p0
  · rw [Nat.add_assoc, hj (0 + 1) (by omega)]; exact p1
  · rw [Nat.add_assoc, hj (0 + 2) (by omega)]; exact p2
  · intro hN
    obtain ⟨n, hn, n0, n1, n2⟩ := cN hN
    rw [oN hN]
    refine ⟨n, hn, ?_, ?_, ?_⟩
    · rw [hj 3 (by simp [hN]; omega)]; exact n0
    · rw [Nat.add_assoc, hj (3 + 1) (by simp [hN]; omega)]; exact n1
    · rw [Nat.add_assoc, hj (3 + 2) (by simp [hN]; omega)]; exact n2
  · intro hT
    obtain ⟨t, ht, t0, t1⟩ := cT hT
    rw [oT hT]
    refine ⟨t, ht, ?_, ?_⟩
    · rw [hj _ (by simp [hT]; omega)]; exact t0
    · rw [Nat.add_assoc, hj _ (by simp [hT]; omega)]; exact t1
  · intro hG
    obtain ⟨g, hg, g0, g1, g2, g3⟩ := cG hG
    rw [oG hG]
    refine ⟨g, hg, ?_, ?_, ?_, ?_⟩
    · rw [hj _ (by simp [hG])]; exact g0
    · rw [Nat.add_assoc, hj _ (by simp [hG])]; exact g1
    · rw [Nat.add_assoc, hj _ (by simp [hG])]; exact g2
    · rw [Nat.add_assoc, hj _ (by simp [hG])]; exact g3

theorem vertex_buffer_interleaving_witness :
    facesFirstLoaded.mesh.mNumVertices = facesFirstLoaded.positions.length ∧
    facesFirstLoaded.mesh.mNumIndices = 3 * facesFirstLoaded.newFaces.length ∧
    facesFirstLoaded.mesh.mStride / 4
      = 3 + (if facesFirstLoaded.haveNormals then 3 else 0) + (if facesFirstLoaded.haveTexCoords
          then 2 else 0)
          + (if (false && facesFirstLoaded.haveNormals && facesFirstLoaded.haveTexCoords) then 4
              else 0) ∧
    facesFirstLoaded.vertexData.length = facesFirstLoaded.mesh.mNumVertices *
        (facesFirstLoaded.mesh.mStride / 4) ∧
    ∀ i, i < facesFirstLoaded.mesh.mNumVertices →
      (∃ p, facesFirstLoaded.positions[i]? = some p ∧
        facesFirstLoaded.vertexData[i * (facesFirstLoaded.mesh.mStride / 4) +
            facesFirstLoaded.mesh.mPositionOffset / 4]? = some p.x ∧
        facesFirstLoaded.vertexData[i * (facesFirstLoaded.mesh.mStride / 4) +
            facesFirstLoaded.mesh.mPositionOffset / 4 + 1]? = some p.y ∧
        facesFirstLoaded.vertexData[i * (facesFirstLoaded.mesh.mStride / 4) +
            facesFirstLoaded.mesh.mPositionOffset / 4 + 2]? = some p.z) ∧
      (facesFirstLoaded.haveNormals = true → ∃ n, facesFirstLoaded.normals[i]? = some n ∧
        facesFirstLoaded.vertexData[i * (facesFirstLoaded.mesh.mStride / 4) +
            facesFirstLoaded.mesh.mNormalOffset / 4]? = some n.x ∧
        facesFirstLoaded.vertexData[i * (facesFirstLoaded.mesh.mStride / 4) +
            facesFirstLoaded.mesh.mNormalOffset / 4 + 1]? = some n.y ∧
        facesFirstLoaded.vertexData[i * (facesFirstLoaded.mesh.mStride / 4) +
            facesFirstLoaded.mesh.mNormalOffset / 4 + 2]? = some n.z) ∧
      (facesFirstLoaded.haveTexCoords = true → ∃ t, facesFirstLoaded.texcoords[i]? = some t ∧
        facesFirstLoaded.vertexData[i * (facesFirstLoaded.mesh.mStride / 4) +
            facesFirstLoaded.mesh.mTexCoordOffset / 4]? = some t.s ∧
        facesFirstLoaded.vertexData[i * (facesFirstLoaded.mesh.mStride / 4) +
            facesFirstLoaded.mesh.mTexCoordOffset / 4 + 1]? = some t.t) ∧
      ((false && facesFirstLoaded.haveNormals && facesFirstLoaded.haveTexCoords) = true →
        ∃ g, facesFirstLoaded.tangents[i]? = some g ∧
        facesFirstLoaded.vertexData[i * (facesFirstLoaded.mesh.mStride / 4) +
            facesFirstLoaded.mesh.mTangentlOffset / 4]? = some g.x ∧
        facesFirstLoaded.vertexData[i * (facesFirstLoaded.mesh.mStride / 4) +
            facesFirstLoaded.mesh.mTangentlOffset / 4 + 1]? = some g.y ∧
        facesFirstLoaded.vertexData[i * (facesFirstLoaded.mesh.mStride / 4) +
            facesFirstLoaded.mesh.mTangentlOffset / 4 + 2]? = some g.z ∧
        facesFirstLoaded.vertexData[i * (facesFirstLoaded.mesh.mStride / 4) +
            facesFirstLoaded.mesh.mTangentlOffset / 4 + 3]? = some g.w) :=
  vertex_buffer_interleaving sampleLibrary sampleGL (some facesFirstFile) false OBJMesh.zero
    facesFirstLoaded (by rfl)

/-! ## Ignored lines: claim C21 -/

/-- C21 (ignored lines): the body of the parse loop, run in any state on a line
that is blank (no tokens), whose first token begins with `#`, or whose first
token is none of `v`, `vn`, `vt`, `f`, reports no error and returns the state
it was given, so positions, normals, texcoords, the triangle list and the
established format are unchanged. -/
theorem ignored_lines (lib : Library) (s : ParseState) (tokens : List (List Char))
    (h : tokens = [] ∨ (tokenAt tokens 0).head? = some '#' ∨
      tokenAt tokens 0 ∉ [['v'], ['v', 'n'], ['v', 't'], ['f']]) :
    parseLine lib s tokens = .ok s :=
  parseLine_skip lib s tokens h

/-- Witness for C21: a line `usemtl wood` met after a face has been stored
leaves the state as it is. -/
theorem ignored_lines_witness :
    ([['u', 's', 'e', 'm', 't', 'l'], ['w', 'o', 'o', 'd']] = ([] : List (List Char)) ∨
      (tokenAt [['u', 's', 'e', 'm', 't', 'l'], ['w', 'o', 'o', 'd']] 0).head? = some '#' ∨
      tokenAt [['u', 's', 'e', 'm', 't', 'l'], ['w', 'o', 'o', 'd']] 0
        ∉ [['v'], ['v', 'n'], ['v', 't'], ['f']]) ∧
    parseLine sampleLibrary relativeIndexParsed
        [['u', 's', 'e', 'm', 't', 'l'], ['w', 'o', 'o', 'd']]
      = .ok relativeIndexParsed :=
  ⟨by decide, ignored_lines sampleLibrary relativeIndexParsed
    [['u', 's', 'e', 'm', 't', 'l'], ['w', 'o', 'o', 'd']] (by decide)⟩

/-! ## The four overloads of `Reindex`: claim C22 -/

/-- C22 (Reindex variant equivalence): each of the four overloads of `Reindex`
returns what the generic reindexer returns when keyed on the tuple of the
overload's active index fields (the output arrays being the components of the
generic output), an out-of-bounds read included. In particular, when every
position index is in range and `cn`, `ct` are valid normal and texcoord
indices, the position-only overload and the overload with normals and
texcoords run on the same faces with every corner's `vn` set to `cn` and `vt`
set to `ct` return the same output positions and the same `newFaces`. -/
theorem reindex_variant_equivalence (positions normals : List Vec3)
    (texcoords : List TexCoord) (faces : List OBJTriangle) :
    (Reindex1 positions faces
      = (reindexGeneric (dedupKey false false) (fetchAttrs positions normals texcoords)
          faces).map fun r => (r.1.map (fun a => a.1), r.2)) ∧
    (Reindex2N positions normals faces
      = (reindexGeneric (dedupKey true false) (fetchAttrs positions normals texcoords)
          faces).map fun r => (r.1.map (fun a => a.1), r.1.map (fun a => a.2.1), r.2)) ∧
    (Reindex2T positions texcoords faces
      = (reindexGeneric (dedupKey false true) (fetchAttrs positions normals texcoords)
          faces).map fun r => (r.1.map (fun a => a.1), r.1.map (fun a => a.2.2), r.2)) ∧
    (Reindex3 positions normals texcoords faces
      = (reindexGeneric (dedupKey true true) (fetchAttrs positions normals texcoords)
          faces).map fun r => (r.1.map (fun a => a.1), r.1.map (fun a => a.2.1),
            r.1.map (fun a => a.2.2), r.2)) ∧
    (∀ cn ct : Int,
      (∀ f ∈ faces, ∀ c ∈ f.corners, 1 ≤ c.v ∧ c.v ≤ positions.length) →
      1 ≤ cn ∧ cn ≤ normals.length → 1 ≤ ct ∧ ct ≤ texcoords.length →
      ∃ np nf nn nt, Reindex1 positions faces = some (np, nf) ∧
        Reindex3 positions normals texcoords (faces.map (withConstAttrs cn ct))
          = some (np, nn, nt, nf)) :=
  ⟨Reindex1_eq_generic positions normals texcoords faces,
    Reindex2N_eq_generic positions normals texcoords faces,
    Reindex2T_eq_generic positions normals texcoords faces,
    Reindex3_eq_generic positions normals texcoords faces,
    fun cn ct hr hcn hct =>
      reindex_const_attrs positions normals texcoords faces cn ct hr hcn hct⟩

/-- Witness for C22: on the sample faces, with every corner given normal 2 and
texcoord 3, both overloads return the same positions and triangles. -/
theorem reindex_variant_equivalence_witness :
    ∃ np nf nn nt, Reindex1 samplePositions sampleFaces = some (np, nf) ∧
      Reindex3 samplePositions sampleNormals sampleTexcoords
          (sampleFaces.map (withConstAttrs 2 3))
        = some (np, nn, nt, nf) :=
  (reindex_variant_equivalence samplePositions sampleNormals sampleTexcoords
    sampleFaces).2.2.2.2 2 3 (by decide) (by decide) (by decide)

/-! ## The per-triangle tangent solve: claim C23 -/

/-- C23 (per-triangle tangent solve): for a triangle whose indices are in range,
the loop body of `ComputeTangents` returns; with `v1 v2 v3` the corner positions
and `w1 w2 w3` the corner texcoords, whenever `s1*t2 - s2*t1` is not 0 the
directions `sdir` and `tdir` satisfy `v2 - v1 = s1*sdir + t1*tdir` and
`v3 - v1 = s2*sdir + t2*tdir` exactly; and `sdir` is added to `tan1` and `tdir`
to `tan2` once for each corner of the triangle: entry `a` grows by the
direction times the number of corners equal to `a`, all other entries stay. -/
theorem triangle_tangent_solve (positions : List Vec3) (texcoords : List TexCoord)
    (acc : List Vec3 × List Vec3) (tri : IndexTriangle)
    (hp : ∀ j : Fin 3, tri.index j < positions.length)
    (ht : positions.length ≤ texcoords.length)
    (h1 : acc.1.length = positions.length) (h2 : acc.2.length = positions.length) :
    ∃ v1 v2 v3 w1 w2 w3 r,
      positions[tri.index 0]? = some v1 ∧ positions[tri.index 1]? = some v2 ∧
      positions[tri.index 2]? = some v3 ∧ texcoords[tri.index 0]? = some w1 ∧
      texcoords[tri.index 1]? = some w2 ∧ texcoords[tri.index 2]? = some w3 ∧
      accumulateTriangle positions texcoords acc tri = some r ∧
      ((w2.s - w1.s) * (w3.t - w1.t) - (w3.s - w1.s) * (w2.t - w1.t) ≠ 0 →
        v2.sub v1 = ((triangleSdir v1 v2 v3 w1 w2 w3).scale (w2.s - w1.s)).add
            ((triangleTdir v1 v2 v3 w1 w2 w3).scale (w2.t - w1.t)) ∧
        v3.sub v1 = ((triangleSdir v1 v2 v3 w1 w2 w3).scale (w3.s - w1.s)).add
            ((triangleTdir v1 v2 v3 w1 w2 w3).scale (w3.t - w1.t))) ∧
      ∀ a, r.1[a]? = acc.1[a]?.map (fun x : Vec3 =>
            x.add ((triangleSdir v1 v2 v3 w1 w2 w3).scale
              ((tri.indices.count a : Nat) : GLfloat))) ∧
        r.2[a]? = acc.2[a]?.map (fun x : Vec3 =>
            x.add ((triangleTdir v1 v2 v3 w1 w2 w3).scale
              ((tri.indices.count a : Nat) : GLfloat))) := by
  obtain ⟨v1, v2, v3, w1, w2, w3, r, a1, a2, a3, b1, b2, b3, hr, hacc⟩ :=
    accumulateTriangle_spec positions texcoords acc tri hp ht h1 h2
  exact ⟨v1, v2, v3, w1, w2, w3, r, a1, a2, a3, b1, b2, b3, hr,
    fun hdet => tangent_system v1 v2 v3 w1 w2 w3 hdet, hacc⟩

/-- Witness for C23: the triangle `(0, 1, 2)` over the sample triangle, with
accumulators that start at zero. -/
theorem triangle_tangent_solve_witness :
    ∃ r, accumulateTriangle trianglePositions triangleTexcoords
        (List.replicate 3 ⟨0, 0, 0⟩, List.replicate 3 ⟨0, 0, 0⟩) ⟨0, 1, 2⟩ = some r := by
  obtain ⟨_, _, _, _, _, _, r, _, _, _, _, _, _, hr, _⟩ :=
    triangle_tangent_solve trianglePositions triangleTexcoords
      (List.replicate 3 ⟨0, 0, 0⟩, List.replicate 3 ⟨0, 0, 0⟩) ⟨0, 1, 2⟩
      (by decide) (by decide) (by decide) (by decide)
  exact ⟨r, hr⟩

/-! ## A face-vertex field that is not an integer: claim C24 -/

/-- C24 (malformed index), counterexample: `x` is not a decimal integer, yet
with a `glsh::FromString<int>` that returns 0 for it the file with three
positions and the face `f 1/x 2/x 3/x` is loaded as a position-only mesh of
three vertices; `load` does not fail. -/
theorem malformed_index_counterexample :
    isDecimalText ['x'] = false ∧
    malformedIndexFile.lines.getLast? = some [['f'], ['1', '/', 'x'], ['2', '/', 'x'],
      ['3', '/', 'x']] ∧
    load zeroOnFailureLibrary sampleGL (some malformedIndexFile) false OBJMesh.zero
      = LoadResult.loaded malformedIndexLoaded := by
  refine ⟨by decide, by decide, by rfl⟩

/-- C24 (malformed index), amended: the text of a field is not checked. A first
face line whose references are `v/t` with valid positive position indices `v`
and any text `t` without a slash in the texcoord field is accepted by the
parse loop, whatever `glsh::FromString<int>` returns for `t`: the field takes
that value (resolved when negative) and the stored triangles are the fan over
the resulting vertices. -/
theorem malformed_index_not_checked (lib : Library) (s : ParseState) (bad : List Char)
    (vs : List Int) (hfirst : s.vertexFormat = 0) (hbad : '/' ∉ bad) (hvs : 3 ≤ vs.length)
    (hpos : ∀ v ∈ vs, 0 < v) (hread : ∀ v ∈ vs, lib.fromStringInt (decimalText v) = v) :
    ∃ s', parseLine lib s (['f'] :: vs.map (fun v => decimalText v ++ '/' :: bad)) = .ok s' ∧
      s'.faces = s.faces ++ Tesselate (vs.map fun v =>
        { v := v
          vn := resolveIndex s.normals.length (-1)
          vt := resolveIndex s.texcoords.length
            (if bad ≠ [] then lib.fromStringInt bad else -1) }) :=
  slash_tokens_accepted lib s bad vs hfirst hbad hvs hpos hread

/-- Witness for C24 (amended): the line `f 1/x 2/x 3/x` as the first face of a
file, read with the sample helpers. -/
theorem malformed_index_not_checked_witness :
    ∃ s', parseLine sampleLibrary ParseState.init
        (['f'] :: [(1 : Int), 2, 3].map (fun v => decimalText v ++ '/' :: ['x'])) = .ok s' ∧
      s'.faces = ParseState.init.faces ++ Tesselate ([(1 : Int), 2, 3].map fun v =>
        { v := v
          vn := resolveIndex ParseState.init.normals.length (-1)
          vt := resolveIndex ParseState.init.texcoords.length
            (if ['x'] ≠ [] then sampleLibrary.fromStringInt ['x'] else -1) }) :=
  malformed_index_not_checked sampleLibrary ParseState.init ['x'] [1, 2, 3] rfl (by decide)
    (by decide) (by decide) (fun v _ => decimalInt_decimalText v)

/-! ## The sentinel of an omitted field: claim C25 -/

/-- C25 (absent field collides with -1): in a state with `np` positions, `nn`
normals and `nt` texcoords (each below `2^31`), and for texts `a`, `b` without
a slash: the tokens `a`, `a/b`, `a/b/` (no normal field) are stored with
`vn = nn`; the tokens `a`, `a/`, `a//c` (no texcoord field) with `vt = nt`; the
tokens `/b`, `/b/c` (no position field) with `v = np`. Any token whose field
parses to `-1` is stored with the same index, so an omitted field is treated
like an explicit `-1`. A field stored with the count of its array is reported
present by `getFormat` exactly when that count is at least 1. -/
theorem absent_field_collides (lib : Library) (s : ParseState) (a b c : List Char)
    (ha : '/' ∉ a) (hb : '/' ∉ b) (hp : s.positions.length < 2 ^ 31)
    (hn : s.normals.length < 2 ^ 31) (ht : s.texcoords.length < 2 ^ 31) :
    ((resolvedVertex lib s a).vn = s.normals.length ∧
      (resolvedVertex lib s (a ++ '/' :: b)).vn = s.normals.length ∧
      (resolvedVertex lib s (a ++ '/' :: (b ++ ['/']))).vn = s.normals.length) ∧
    ((resolvedVertex lib s a).vt = s.texcoords.length ∧
      (resolvedVertex lib s (a ++ ['/'])).vt = s.texcoords.length ∧
      (resolvedVertex lib s (a ++ '/' :: '/' :: c)).vt = s.texcoords.length) ∧
    ((resolvedVertex lib s ('/' :: b)).v = s.positions.length ∧
      (resolvedVertex lib s ('/' :: (b ++ '/' :: c))).v = s.positions.length) ∧
    (∀ tok,
      ((OBJVertex.ofString lib tok).v = -1 →
        (resolvedVertex lib s tok).v = s.positions.length) ∧
      ((OBJVertex.ofString lib tok).vn = -1 →
        (resolvedVertex lib s tok).vn = s.normals.length) ∧
      ((OBJVertex.ofString lib tok).vt = -1 →
        (resolvedVertex lib s tok).vt = s.texcoords.length)) ∧
    (∀ tok,
      ((resolvedVertex lib s tok).v = s.positions.length →
        ((resolvedVertex lib s tok).getFormat &&& OBJ_VFF_POSITION = OBJ_VFF_POSITION
          ↔ 1 ≤ s.positions.length)) ∧
      ((resolvedVertex lib s tok).vn = s.normals.length →
        ((resolvedVertex lib s tok).getFormat &&& OBJ_VFF_NORMAL = OBJ_VFF_NORMAL
          ↔ 1 ≤ s.normals.length)) ∧
      ((resolvedVertex lib s tok).vt = s.texcoords.length →
        ((resolvedVertex lib s tok).getFormat &&& OBJ_VFF_TEXCOORD = OBJ_VFF_TEXCOORD
          ↔ 1 ≤ s.texcoords.length))) := by
  have hres : ∀ tok, resolvedVertex lib s tok
      = { v := resolveIndex s.positions.length (OBJVertex.ofString lib tok).v
          vn := resolveIndex s.normals.length (OBJVertex.ofString lib tok).vn
          vt := resolveIndex s.texcoords.length (OBJVertex.ofString lib tok).vt } :=
    fun tok => faceVerts_single lib s ['f'] tok
  have sp := resolveIndex_sentinel s.positions.length hp
  have sn := resolveIndex_sentinel s.normals.length hn
  have st := resolveIndex_sentinel s.texcoords.length ht
  have e1 := ofString_plain lib a ha
  have e2 := ofString_one_slash lib a b ha hb
  have e3 := ofString_two_slashes lib a b [] ha hb
  have e4 := ofString_one_slash lib a [] ha (by simp)
  have e5 := ofString_two_slashes lib a [] c ha (by simp)
  have e6 := ofString_one_slash lib [] b (by simp) hb
  have e7 := ofString_two_slashes lib [] b c (by simp) hb
  simp only [List.nil_append] at e5 e6 e7
  refine ⟨⟨?_, ?_, ?_⟩, ⟨?_, ?_, ?_⟩, ⟨?_, ?_⟩, ?_, ?_⟩
  · rw [hres, e1]; exact sn
  · rw [hres, e2]; exact sn
  · rw [hres, e3]; simpa using sn
  · rw [hres, e1]; exact st
  · rw [hres, e4]; simpa using st
  · rw [hres, e5]; simpa using st
  · rw [hres, e6]; simpa using sp
  · rw [hres, e7]; simpa using sp
  · intro tok
    rw [hres]
    refine ⟨fun h => ?_, fun h => ?_, fun h => ?_⟩
    · simp only [h]; exact sp
    · simp only [h]; exact sn
    · simp only [h]; exact st
  · intro tok
    obtain ⟨fp, fn, ft⟩ := getFormat_flags (resolvedVertex lib s tok)
    refine ⟨fun h => ?_, fun h => ?_, fun h => ?_⟩
    · rw [fp, h]; omega
    · rw [fn, h]; omega
    · rw [ft, h]; omega

/-- Witness for C25: the tokens built from `1`, `2`, `3` in the state reached
at the end of the sample file with three values of each attribute; the token
`1` is stored with `vn = 3`. -/
theorem absent_field_collides_witness :
    (resolvedVertex sampleLibrary mixedFormatParsed ['1']).vn
        = mixedFormatParsed.normals.length ∧
    ((resolvedVertex sampleLibrary mixedFormatParsed ['1']).getFormat &&& OBJ_VFF_NORMAL
        = OBJ_VFF_NORMAL) :=
  have h := absent_field_collides sampleLibrary mixedFormatParsed ['1'] ['2'] ['3']
    (by decide) (by decide) (by decide) (by decide) (by decide)
  ⟨h.1.1, ((h.2.2.2.2 ['1']).2.1 h.1.1).mpr (by decide)⟩

/-! ## Range of the indices that reach `Reindex`: claim C26 -/

/-- C26 (raw index range safety), counterexample: the file with three positions
and the face `f 1 2 9` is parsed without error, the position index 9 reaches
`Reindex` although only 3 positions exist, and `load` reads `positions[8]`
out of bounds. -/
theorem raw_index_range_safety_counterexample :
    parseLines sampleLibrary ParseState.init outOfRangeFile.lines = .ok outOfRangeParsed ∧
    ¬ IndicesInRange false false outOfRangeParsed.positions outOfRangeParsed.normals
        outOfRangeParsed.texcoords outOfRangeParsed.faces ∧
    vecAt outOfRangeParsed.positions (9 - 1) = none ∧
    load sampleLibrary sampleGL (some outOfRangeFile) false OBJMesh.zero
      = LoadResult.undefined := by
  refine ⟨by rfl, by decide, by decide, by rfl⟩

/-- C26 (raw index range safety), amended: the parse loop guarantees only that
the indices of active attributes are positive. For a file parsed without
error in which no stored index exceeds the number of declared elements of its
array, every index that reaches `Reindex` (after the inference step) lies in
`1..count`, so `Reindex` returns, each of its lookups being in bounds; and
when the file has at least one face, `load` reads no array out of bounds. -/
theorem raw_index_range_safety (lib : Library) (gl : GLNames) (contents : FileContents)
    (sct : Bool) (m : OBJMesh) (s : ParseState)
    (hparse : parseLines lib ParseState.init contents.lines = .ok s)
    (hub : ∀ f ∈ s.faces, ∀ c ∈ f.corners,
      c.v ≤ s.positions.length ∧ c.vn ≤ s.normals.length ∧ c.vt ≤ s.texcoords.length) :
    IndicesInRange
      (inferFlag (s.vertexFormat &&& OBJ_VFF_NORMAL == OBJ_VFF_NORMAL)
        s.normals.length s.positions.length)
      (inferFlag (s.vertexFormat &&& OBJ_VFF_TEXCOORD == OBJ_VFF_TEXCOORD)
        s.texcoords.length s.positions.length)
      s.positions s.normals s.texcoords
      (inferTexCoords (s.vertexFormat &&& OBJ_VFF_TEXCOORD == OBJ_VFF_TEXCOORD)
        s.texcoords.length s.positions.length
        (inferNormals (s.vertexFormat &&& OBJ_VFF_NORMAL == OBJ_VFF_NORMAL)
          s.normals.length s.positions.length s.faces)) ∧
    (∃ out, reindexDispatch
      (inferFlag (s.vertexFormat &&& OBJ_VFF_NORMAL == OBJ_VFF_NORMAL)
        s.normals.length s.positions.length)
      (inferFlag (s.vertexFormat &&& OBJ_VFF_TEXCOORD == OBJ_VFF_TEXCOORD)
        s.texcoords.length s.positions.length)
      s.positions s.normals s.texcoords
      (inferTexCoords (s.vertexFormat &&& OBJ_VFF_TEXCOORD == OBJ_VFF_TEXCOORD)
        s.texcoords.length s.positions.length
        (inferNormals (s.vertexFormat &&& OBJ_VFF_NORMAL == OBJ_VFF_NORMAL)
          s.normals.length s.positions.length s.faces)) = some out) ∧
    (s.faces ≠ [] → load lib gl (some contents) sct m ≠ LoadResult.undefined) := by
  have hr := parsed_indices_in_range s (FormatInv_parsed lib contents.lines s hparse) hub
  obtain ⟨np, nn, nt, nf, hd, _⟩ := reindexDispatch_shape _ _ _ _ _ _ hr
  refine ⟨hr, ⟨_, hd⟩, fun hne => ?_⟩
  unfold load
  simp only [hparse]
  by_cases hread : contents.readFails = true
  · rw [if_pos hread]; exact fun h => LoadResult.noConfusion h
  · rw [if_neg hread]
    rcases finishLoad_defined lib gl sct m s hne hr with ⟨mesh, _, h⟩ | ⟨r, _, h⟩ <;> rw [h] <;>
      exact fun h => LoadResult.noConfusion h

/-- Witness for C26 (amended): the sample file with three values of each
attribute, whose faces refer to the indices 1 to 3. -/
theorem raw_index_range_safety_witness :
    load sampleLibrary sampleGL (some mixedFormatFile) true OBJMesh.zero
      ≠ LoadResult.undefined :=
  (raw_index_range_safety sampleLibrary sampleGL mixedFormatFile true OBJMesh.zero
    mixedFormatParsed (by rfl) (by decide)).2.2 (by decide)

/-! ## Lengths of the output arrays: claim C27 -/

/-- C27 (output arrays stay parallel): when the indices are in range, the
overload of `Reindex` chosen by `load` returns, and the output normals and
texcoords, when active, are as long as the output positions; `ComputeTangents`,
when it runs, returns a `tangents` array of that length; hence the loop that
builds the vertex buffer returns, each of its reads `positions[i]`,
`normals[i]`, `texcoords[i]`, `tangents[i]` for `i < mNumVertices` being in
bounds. -/
theorem output_arrays_parallel (lib : Library) (hN hT sct : Bool) (m : OBJMesh)
    (positions normals : List Vec3) (texcoords : List TexCoord) (faces : List OBJTriangle)
    (hr : IndicesInRange hN hT positions normals texcoords faces) :
    ∃ np nn nt nf tangents data,
      reindexDispatch hN hT positions normals texcoords faces = some (np, nn, nt, nf) ∧
      (hN = true → nn.length = np.length) ∧
      (hT = true → nt.length = np.length) ∧
      (if (computeLayout hN hT sct m).2.2 then ComputeTangents lib np nn nt nf else some [])
        = some tangents ∧
      ((computeLayout hN hT sct m).2.2 = true → tangents.length = np.length) ∧
      buildVertexData hN hT (computeLayout hN hT sct m).2.2 np nn nt tangents np.length
        = some data ∧
      ∀ i, i < np.length →
        np[i]?.isSome = true ∧ (hN = true → nn[i]?.isSome = true) ∧
        (hT = true → nt[i]?.isSome = true) ∧
        ((computeLayout hN hT sct m).2.2 = true → tangents[i]?.isSome = true) := by
  obtain ⟨np, nn, nt, nf, hd, _, hnn, hnt, _, hidx⟩ :=
    reindexDispatch_shape hN hT positions normals texcoords faces hr
  obtain ⟨tangents, htan, hlen⟩ := tangents_some lib hN hT sct m np nn nt nf hnn hnt hidx
  obtain ⟨data, hdata⟩ := buildVertexData_some hN hT (computeLayout hN hT sct m).2.2
    np nn nt tangents np.length (le_refl _) (fun e => le_of_eq (hnn e).symm)
    (fun e => le_of_eq (hnt e).symm) (fun e => le_of_eq (hlen e).symm)
  refine ⟨np, nn, nt, nf, tangents, data, hd, hnn, hnt, htan, hlen, hdata, ?_⟩
  intro i hi
  refine ⟨?_, fun e => ?_, fun e => ?_, fun e => ?_⟩
  · rw [List.getElem?_eq_getElem hi]; rfl
  · rw [List.getElem?_eq_getElem (by rw [hnn e]; exact hi)]; rfl
  · rw [List.getElem?_eq_getElem (by rw [hnt e]; exact hi)]; rfl
  · rw [List.getElem?_eq_getElem (by rw [hlen e]; exact hi)]; rfl

/-- Witness for C27: the sample faces with normals and texcoords active and
tangents requested. -/
theorem output_arrays_parallel_witness :
    ∃ np nn nt nf tangents data,
      reindexDispatch true true samplePositions sampleNormals sampleTexcoords sampleFaces
        = some (np, nn, nt, nf) ∧
      nn.length = np.length ∧ nt.length = np.length ∧ tangents.length = np.length ∧
      buildVertexData true true true np nn nt tangents np.length = some data := by
  obtain ⟨np, nn, nt, nf, tangents, data, hd, hnn, hnt, _, hlen, hdata, _⟩ :=
    output_arrays_parallel sampleLibrary true true true OBJMesh.zero samplePositions
      sampleNormals sampleTexcoords sampleFaces (by decide)
  exact ⟨np, nn, nt, nf, tangents, data, hd, hnn rfl, hnt rfl, hlen rfl, hdata⟩

/-! ## Output vertices are referenced: claim C28 -/

/-- C28 (no unreferenced output vertex): when the indices are in range, the
overload of `Reindex` chosen by `load` returns, and every dense index `k` below
the number of output vertices is the index written for some corner `j` of some
output triangle `i`, the output position `k` being the raw position that
corner `j` of face `i` refers to; so the number of output vertices is at most
3 times the number of triangles, and without faces there is no output vertex,
whatever positions are declared. -/
theorem no_unreferenced_vertex (hN hT : Bool) (positions normals : List Vec3)
    (texcoords : List TexCoord) (faces : List OBJTriangle)
    (hr : IndicesInRange hN hT positions normals texcoords faces) :
    ∃ np nn nt nf,
      reindexDispatch hN hT positions normals texcoords faces = some (np, nn, nt, nf) ∧
      (∀ k, k < np.length →
        ∃ (i : Nat) (f : OBJTriangle) (t : IndexTriangle) (j : Fin 3),
          faces[i]? = some f ∧ nf[i]? = some t ∧ t.index j = k ∧
          np[k]? = vecAt positions ((f.verts j).v - 1)) ∧
      np.length ≤ 3 * nf.length ∧
      (faces = [] → np = []) := by
  obtain ⟨out, h, ho⟩ := reindexDispatch_spec hN hT positions normals texcoords faces hr
  have hlen : out.length = (faceKeys hN hT faces).length := by
    have := congrArg List.length ho
    simpa using this
  refine ⟨_, _, _, _, h, ?_, ?_, ?_⟩
  · intro k hk
    rw [List.length_map] at hk
    exact dense_index_referenced hN hT positions normals texcoords faces out ho k hk
  · rw [List.length_map, List.length_map, hlen]
    exact faceKeys_length_le hN hT faces
  · intro hf
    subst hf
    have : out.length = 0 := by rw [hlen]; rfl
    rw [List.length_eq_zero.mp this]
    rfl

/-- Witness for C28: the sample faces with normals active; position 4 of the
raw array is referenced by the last corner only. -/
theorem no_unreferenced_vertex_witness :
    ∃ np nn nt nf,
      reindexDispatch true false samplePositions sampleNormals sampleTexcoords sampleFaces
        = some (np, nn, nt, nf) ∧
      np.length ≤ 3 * nf.length := by
  obtain ⟨np, nn, nt, nf, hd, _, hle, _⟩ :=
    no_unreferenced_vertex true false samplePositions sampleNormals sampleTexcoords
      sampleFaces (by decide)
  exact ⟨np, nn, nt, nf, hd, hle⟩

/-! ## A file without faces: claim C29 -/

/-- C29 (inference on equal empty counts), counterexample: for the file that
holds a comment and a blank line only, loaded with tangents requested, both
attributes are inferred present and the stride that `load` computes is 48
bytes, not 32: this is the stride left in the mesh when no VAO can be created.
When a VAO is created the call goes on to `&vertexData[0]` on the empty
vertex buffer. -/
theorem inference_on_equal_counts_counterexample :
    commentOnlyFile.lines.countP (declares ['f']) = 0 ∧
    commentOnlyFile.lines.countP (declares ['v']) = 0 ∧
    commentOnlyFile.lines.countP (declares ['v', 'n']) = 0 ∧
    commentOnlyFile.lines.countP (declares ['v', 't']) = 0 ∧
    parseLines sampleLibrary ParseState.init commentOnlyFile.lines = .ok ParseState.init ∧
    (computeLayout
      (inferFlag (ParseState.init.vertexFormat &&& OBJ_VFF_NORMAL == OBJ_VFF_NORMAL)
        ParseState.init.normals.length ParseState.init.positions.length)
      (inferFlag (ParseState.init.vertexFormat &&& OBJ_VFF_TEXCOORD == OBJ_VFF_TEXCOORD)
        ParseState.init.texcoords.length ParseState.init.positions.length)
      true OBJMesh.zero).1.mStride = 48 ∧
    (∃ mesh, load sampleLibrary noVaoGL (some commentOnlyFile) true OBJMesh.zero
        = LoadResult.failed .vaoFailed mesh ∧
      mesh.mNormalSize = 3 ∧ mesh.mTexCoordSize = 2 ∧ mesh.mStride = 48 ∧ mesh.mStride ≠ 32) ∧
    load sampleLibrary sampleGL (some commentOnlyFile) true OBJMesh.zero
      = LoadResult.undefined := by
  refine ⟨by decide, by decide, by decide, by decide, by rfl, by decide,
    ⟨_, rfl, by decide, by decide, by decide, by decide⟩, by rfl⟩

/-- C29 (inference on equal empty counts), amended: for a file without `f`
lines that is read to its end without a parse error and declares as many
normals and as many texcoords as positions (possibly none), `load` infers
normals and texcoords present and `Reindex` returns no vertex and no triangle;
the stride computed is 32 bytes when tangents are not requested and 48 bytes
when they are. The call then returns `false` when no VAO can be created, the
mesh holding these values with 0 vertices and 0 indices; when a VAO is created
it evaluates `&vertexData[0]` on the empty vertex buffer, an access out of
bounds. -/
theorem inference_on_equal_counts (lib : Library) (gl : GLNames) (contents : FileContents)
    (sct : Bool) (m : OBJMesh) (s : ParseState)
    (hparse : parseLines lib ParseState.init contents.lines = .ok s)
    (hread : contents.readFails = false)
    (hnf : contents.lines.countP (declares ['f']) = 0)
    (hn : contents.lines.countP (declares ['v', 'n'])
      = contents.lines.countP (declares ['v']))
    (ht : contents.lines.countP (declares ['v', 't'])
      = contents.lines.countP (declares ['v'])) :
    inferFlag (s.vertexFormat &&& OBJ_VFF_NORMAL == OBJ_VFF_NORMAL)
      s.normals.length s.positions.length = true ∧
    inferFlag (s.vertexFormat &&& OBJ_VFF_TEXCOORD == OBJ_VFF_TEXCOORD)
      s.texcoords.length s.positions.length = true ∧
    (computeLayout true true sct m).1.mStride = (if sct then 48 else 32) ∧
    (computeLayout true true sct m).1.mNormalSize = 3 ∧
    (computeLayout true true sct m).1.mTexCoordSize = 2 ∧
    reindexDispatch true true s.positions s.normals s.texcoords
      (inferTexCoords (s.vertexFormat &&& OBJ_VFF_TEXCOORD == OBJ_VFF_TEXCOORD)
        s.texcoords.length s.positions.length
        (inferNormals (s.vertexFormat &&& OBJ_VFF_NORMAL == OBJ_VFF_NORMAL)
          s.normals.length s.positions.length s.faces))
      = some ([], [], [], []) ∧
    load lib gl (some contents) sct m
      = if gl.vao = 0 then
          LoadResult.failed .vaoFailed
            { (computeLayout true true sct m).1 with
              mNumVertices := 0, mNumIndices := 0, mVAO := gl.vao }
        else LoadResult.undefined := by
  obtain ⟨hf, hv⟩ := parseLines_no_face lib contents.lines ParseState.init s hnf hparse
  obtain ⟨lp, ln, lt, _⟩ := parseLines_ok lib contents.lines ParseState.init s hparse
  have hnn : s.normals.length = s.positions.length := by rw [ln, lp, hn]; rfl
  have htt : s.texcoords.length = s.positions.length := by rw [lt, lp, ht]; rfl
  have hfin := finishLoad_no_faces lib gl sct m s hf hv hnn htt
  have hv0 : s.vertexFormat = 0 := hv
  have hf0 : s.faces = [] := hf
  refine ⟨?_, ?_, computeLayout_full_stride sct m, ?_, ?_, ?_, ?_⟩
  · rw [hv0, hnn]; simp [inferFlag, OBJ_VFF_NORMAL]
  · rw [hv0, htt]; simp [inferFlag, OBJ_VFF_TEXCOORD]
  · cases sct <;> rfl
  · cases sct <;> rfl
  · rw [infer_faces_eq, hf0]; rfl
  · unfold load
    simp only [hparse, hread, Bool.false_eq_true, if_false]
    exact hfin

/-- Witness for C29 (amended): the file that holds a comment and a blank line
only, loaded without tangents when no VAO can be created, is left with stride
32, no vertex and no index. -/
theorem inference_on_equal_counts_witness :
    (computeLayout true true false OBJMesh.zero).1.mStride = 32 ∧
    load sampleLibrary noVaoGL (some commentOnlyFile) false OBJMesh.zero
      = LoadResult.failed .vaoFailed
          { (computeLayout true true false OBJMesh.zero).1 with
            mNumVertices := 0, mNumIndices := 0, mVAO := noVaoGL.vao } :=
  have h := inference_on_equal_counts sampleLibrary noVaoGL commentOnlyFile false OBJMesh.zero
    ParseState.init (by rfl) (by rfl) (by decide) (by decide) (by decide)
  ⟨h.2.2.1, h.2.2.2.2.2.2⟩

end Wavefront
